import Mathlib

/-!
# Arduino experiment editor: circuit graph, wiring session, code generator, simulator

A shallow embedding of `src/script.js`.  The script keeps one mutable record
`APP_STATE` (components, wires, nextId) and a handful of closure variables
(`draggedItem`, `dragSource`, `dragOffset`, `pendingConnection`,
`isSimulationRunning`, `pinStates`).  Here they are the fields of one record
`AppState`, every function of the script is a function `AppState → AppState`,
and every registered event listener is one constructor of `Event`.

What is modelled of the DOM: the text of the code panel (`codeText`), the class
`on` of an LED bulb (`bulbOn`) and the blocking notices (`alerts`, the trace of
`alert(...)` calls).  Cursor shape, opacity, transforms, the SVG wire layer and
the panel buttons carry no state any function reads back, and are left out.
-/

namespace ArduinoEditor

/-! ## Data model -/

/-- The `type` a drop delivers: the `data-type` of the palette item the drag
started from, or, as `other`, the empty string `getData('type')` returns when
the drag carries no `type` entry (a drag that did not start from the palette,
dropped while `dragSource` is still `'palette'`).  The empty string is not a
class token: `el.classList.add('component', '')` throws. -/
inductive CompType where
  | arduino
  | led
  | button
  | other
  deriving DecidableEq, Repr

/-- The `data-term` values written by `getComponentHTML`. -/
inductive Terminal where
  | anode
  | cathode
  | t1
  | t2
  deriving DecidableEq, Repr

/-- One entry of `APP_STATE.components`: `{ id, type, x, y, el }`, with the
later-added `isPressed` flag (absent means false) and, of `el`, whether the
`.led-bulb` child has the class `on`. -/
structure Component where
  id : Nat
  type : CompType
  x : Int
  y : Int
  isPressed : Bool
  bulbOn : Bool
  deriving DecidableEq, Repr

/-- One entry of `APP_STATE.wires`: `{ compId, terminal, pin }`. -/
structure Wire where
  compId : Nat
  terminal : Terminal
  pin : Nat
  deriving DecidableEq, Repr

/-- The two values `dragSource` takes besides `null`. -/
inductive DragSource where
  | palette
  | canvas
  deriving DecidableEq, Repr

/-- `APP_STATE` together with the closure variables of the script.
`draggedItem` is a reference to a component object; components are only ever
appended, so the reference is the position in `components`. -/
structure AppState where
  components : List Component
  wires : List Wire
  nextId : Nat
  draggedItem : Option Nat
  dragSource : Option DragSource
  dragOffset : Int × Int
  pendingConnection : Option (Nat × Terminal)
  isSimulationRunning : Bool
  pinStates : Nat → Option Nat
  alerts : List String
  codeText : String

def ARDUINO_PINS : List Nat := [2, 3, 4, 5, 6, 7, 8, 9, 10, 11, 12, 13]

def PREF_LED_PIN : Nat := 10

def PREF_BTN_PIN : Nat := 2

/-- The object literal `TERMINALS = { 'led': 'anode', 'button': 't1' }`;
`none` is the `undefined` of a missing key. -/
def TERMINALS : CompType → Option Terminal
  | .led => some .anode
  | .button => some .t1
  | _ => none

/-! ## Code generator -/

/-- The `leds` array of `generateCode`: pins of the wires whose owner is found
and is an LED, sorted ascending. -/
def leds (components : List Component) (wires : List Wire) : List Nat :=
  ((wires.filter (fun w =>
      match components.find? (fun x => x.id == w.compId) with
      | some c => c.type == CompType.led
      | none => false)).map (fun w => w.pin)).insertionSort (fun a b => a ≤ b)

/-- The `btns` array of `generateCode`. -/
def btns (components : List Component) (wires : List Wire) : List Nat :=
  ((wires.filter (fun w =>
      match components.find? (fun x => x.id == w.compId) with
      | some c => c.type == CompType.button
      | none => false)).map (fun w => w.pin)).insertionSort (fun a b => a ≤ b)

/-- `arr.join(', ')` on an array of numbers. -/
def joinPins (pins : List Nat) : String :=
  ", ".intercalate (pins.map toString)

/-- Lines 345-357: the variable declarations. -/
def declSection (leds btns : List Nat) : String :=
  (if leds.length = 1 then
      "int ledPin = " ++ toString (leds.headD 0) ++ ";\n"
    else if leds.length > 1 then
      "int ledPins[] = \x7b " ++ joinPins leds ++ " \x7d;\n" ++
      "int ledCount = " ++ toString leds.length ++ ";\n"
    else "") ++
  (if btns.length = 1 then
      "int buttonPin = " ++ toString (btns.headD 0) ++ ";\n"
    else if btns.length > 1 then
      "int buttonPins[] = \x7b " ++ joinPins btns ++ " \x7d;\n" ++
      "int buttonCount = " ++ toString btns.length ++ ";\n"
    else "")

/-- Lines 361-371: the body of `setup()`. -/
def setupSection (leds btns : List Nat) : String :=
  (if leds.length = 1 then
      "  pinMode(ledPin, OUTPUT);\n"
    else if leds.length > 1 then
      "  for (int i = 0; i < ledCount; i++) \x7b\n    pinMode(ledPins[i], OUTPUT);\n  \x7d\n"
    else "") ++
  (if btns.length = 1 then
      "  pinMode(buttonPin, INPUT);\n"
    else if btns.length > 1 then
      "  for (int i = 0; i < buttonCount; i++) \x7b\n    pinMode(buttonPins[i], INPUT);\n  \x7d\n"
    else "")

/-- Lines 375-392: the body of `loop()`. -/
def loopSection (leds btns : List Nat) : String :=
  if btns.length = 0 then
    "  // No input buttons designated.\n"
  else
    (if btns.length = 1 then
        "  int state = digitalRead(buttonPin);\n"
      else
        "  int state = 0;\n" ++
        "  for (int i = 0; i < buttonCount; i++) \x7b\n    if(digitalRead(buttonPins[i]) == HIGH) state = HIGH;\n  \x7d\n") ++
    (if leds.length = 0 then
        "  // No output LEDs to drive.\n"
      else if leds.length = 1 then
        "  digitalWrite(ledPin, state);\n"
      else
        "  for (int i = 0; i < ledCount; i++) \x7b\n    digitalWrite(ledPins[i], state);\n  \x7d\n")

/-- The text `generateCode` assigns to `codeDisplay.textContent`. -/
def generateCode (components : List Component) (wires : List Wire) : String :=
  "// Generated Arduino Code\n\n" ++
  declSection (leds components wires) (btns components wires) ++
  "\nvoid setup() \x7b\n" ++
  setupSection (leds components wires) (btns components wires) ++
  "\x7d\n\nvoid loop() \x7b\n" ++
  loopSection (leds components wires) (btns components wires) ++
  "\x7d\n"

/-- A call `generateCode()`: the code panel shows the text for the current graph. -/
def showCode (s : AppState) : AppState :=
  { s with codeText := generateCode s.components s.wires }

/-! ## Circuit graph, pin allocator, wiring session -/

def isPinFree (s : AppState) (pin : Nat) : Bool :=
  !(s.wires.any (fun w => w.pin == pin))

def autoWireComponent (s : AppState) (comp : Component) : AppState :=
  match s.components.find? (fun c => c.type == CompType.arduino) with
  | none => s
  | some _ =>
    match TERMINALS comp.type with
    | none => s
    | some term =>
      match s.wires.find? (fun w => w.compId == comp.id && w.terminal == term) with
      | some _ => s
      | none =>
        let desiredPin := if comp.type = CompType.led then PREF_LED_PIN else PREF_BTN_PIN
        let assignedPin :=
          if isPinFree s desiredPin then some desiredPin
          else ARDUINO_PINS.find? (fun p => isPinFree s p)
        match assignedPin with
        | some p => showCode { s with wires := s.wires ++ [⟨comp.id, term, p⟩] }
        | none => s

/-- The loop `APP_STATE.components.forEach(c => { if (c.type !== 'arduino')
autoWireComponent(c); })` of `addComponent`, over the components `cs`. -/
def autoWireAll (s : AppState) (cs : List Component) : AppState :=
  cs.foldl (fun st c => if c.type ≠ CompType.arduino then autoWireComponent st c else st) s

/-- Lines 136-145 of `addComponent`: `const id = APP_STATE.nextId++` and
`APP_STATE.components.push({ id, type, x, y, el })`. -/
def pushComponent (s : AppState) (type : CompType) (x y : Int) : AppState :=
  { s with nextId := s.nextId + 1,
           components := s.components ++ [⟨s.nextId, type, x, y, false, false⟩] }

/-- The state `addComponent` leaves.  For the empty type string the call does
not return: `const id = APP_STATE.nextId++` (line 136) has run when
`el.classList.add('component', type)` (line 138) throws, so the id is consumed
and nothing else happens: no component is pushed and the code is not
regenerated. -/
def addComponent (s : AppState) (type : CompType) (x y : Int) : AppState :=
  if type = CompType.arduino ∧ s.components.any (fun c => c.type == CompType.arduino) then
    { s with alerts := s.alerts ++ ["Only one Arduino Uno is allowed."] }
  else if type = CompType.other then
    { s with nextId := s.nextId + 1 }
  else
    let comp : Component := ⟨s.nextId, type, x, y, false, false⟩
    let s1 := pushComponent s type x y
    let s2 :=
      if type ≠ CompType.arduino then autoWireComponent s1 comp
      else autoWireAll s1 s1.components
    showCode s2

def startWiring (s : AppState) (compId : Nat) (terminal : Terminal) : AppState :=
  match s.components.find? (fun c => c.type == CompType.arduino) with
  | none => { s with alerts := s.alerts ++ ["Please place an Arduino on the canvas first."] }
  | some _ => { s with pendingConnection := some (compId, terminal) }

def completeConnection (s : AppState) (compId : Nat) (terminal : Terminal) (pin : Nat) :
    AppState :=
  let wires1 : List Wire :=
    match s.wires.find? (fun w => w.pin == pin) with
    | some _ => s.wires.filter (fun w => w.pin != pin)
    | none => s.wires
  let wires2 : List Wire := wires1.filter (fun (w : Wire) => !(w.compId == compId && w.terminal == terminal))
  showCode { s with wires := wires2 ++ [⟨compId, terminal, pin⟩], pendingConnection := none }

/-! ## Signal simulator -/

/-- The assignment `pinStates[p] = v`. -/
def setPin (ps : Nat → Option Nat) (p v : Nat) : Nat → Option Nat :=
  fun q => if q = p then some v else ps q

/-- Line 420: `ARDUINO_PINS.forEach(p => pinStates[p] = 0)`. -/
def resetPins (ps : Nat → Option Nat) : Nat → Option Nat :=
  ARDUINO_PINS.foldl (fun ps p => setPin ps p 0) ps

/-- Lines 424-430: the body of the loop over the buttons, on `pinStates` and
`globalButtonState`. -/
def buttonStep (s : AppState) (acc : (Nat → Option Nat) × Nat) (btn : Component) :
    (Nat → Option Nat) × Nat :=
  if btn.isPressed then
    match s.wires.find? (fun w => w.compId == btn.id && w.terminal == Terminal.t1) with
    | some wire => (setPin acc.1 wire.pin 1, 1)
    | none => acc
  else acc

/-- Lines 422-431: the loop over the buttons; the result is `pinStates` and
`globalButtonState` after it. -/
def readButtons (s : AppState) (ps : Nat → Option Nat) : (Nat → Option Nat) × Nat :=
  (s.components.filter (fun c => c.type == CompType.button)).foldl (buttonStep s) (ps, 0)

/-- Lines 434-437: the body of the first loop over the LEDs. -/
def ledStep (s : AppState) (globalButtonState : Nat) (ps : Nat → Option Nat)
    (led : Component) : Nat → Option Nat :=
  match s.wires.find? (fun w => w.compId == led.id && w.terminal == Terminal.anode) with
  | some wire => setPin ps wire.pin globalButtonState
  | none => ps

/-- Lines 433-438: the first loop over the LEDs. -/
def driveLeds (s : AppState) (ps : Nat → Option Nat) (globalButtonState : Nat) :
    Nat → Option Nat :=
  (s.components.filter (fun c => c.type == CompType.led)).foldl (ledStep s globalButtonState) ps

/-- Lines 440-448: the second loop over the LEDs, setting the class `on` of
each bulb. -/
def showLeds (s : AppState) (ps : Nat → Option Nat) : List Component :=
  s.components.map (fun c =>
    if c.type == CompType.led then
      match s.wires.find? (fun (w : Wire) => w.compId == c.id && w.terminal == Terminal.anode) with
      | some wire => { c with bulbOn := decide (ps wire.pin = some 1) }
      | none => { c with bulbOn := false }
    else c)

def updateSimulation (s : AppState) : AppState :=
  if !s.isSimulationRunning then s
  else
    let afterButtons := readButtons s (resetPins s.pinStates)
    let ps2 := driveLeds s afterButtons.1 afterButtons.2
    { s with pinStates := ps2, components := showLeds s ps2 }

def resetSimulation (s : AppState) : AppState :=
  { s with components := s.components.map (fun c => { c with bulbOn := false, isPressed := false }) }

/-! ## Event listeners -/

/-- Where a `mousedown` on the canvas lands: on a pin or a component leg, on a
component (the element with `data-id = id`, `btnCap` when the target is its
`.btn-cap`), or on the empty canvas. -/
inductive Target where
  | terminalOrPin
  | component (id : Nat) (btnCap : Bool)
  | background
  deriving DecidableEq, Repr

/-- The listeners the script registers, each with the data it reads from the
event.  Coordinates are already relative: `drop` and `mousemove` carry
`clientX - rect.left`, `clientY - rect.top` for the canvas rectangle,
`mousedown` carries the same for the component rectangle. -/
inductive Event where
  | paletteDragstart
  | drop (type : CompType) (x y : Int)
  | mousedown (target : Target) (offX offY : Int)
  | mousemove (px py width height : Int)
  | mouseup
  | pinMouseup (pin : Nat)
  | terminalClick (compId : Nat) (termName : Terminal)
  | keydown (key : String)
  | startClick
  | stopClick
  deriving DecidableEq, Repr

/-- The `drop` listener of the canvas.  When `addComponent` throws (the empty
type string) the listener is left at line 74 and `dragSource = null` (line 75)
is not reached. -/
def onDrop (s : AppState) (type : CompType) (x y : Int) : AppState :=
  if s.dragSource ≠ some DragSource.palette then s
  else if type = CompType.other then addComponent s type x y
  else { addComponent s type x y with dragSource := none }

/-- Line 463: `comp.isPressed = true`, for `comp` the first component with the
given id (the object `find` returned). -/
def pressButton (s : AppState) (id : Nat) : AppState :=
  let i := s.components.findIdx (fun c => c.id == id)
  { s with components := s.components.modify (fun c => { c with isPressed := true }) i }

/-- Lines 474-480: every pressed Button is released. -/
def releaseButtons (s : AppState) : AppState :=
  { s with components := s.components.map (fun c =>
      if c.type = CompType.button ∧ c.isPressed = true then { c with isPressed := false } else c) }

/-- The `mousedown` listener registered at line 456 (button press). -/
def onPress (s : AppState) (target : Target) : AppState :=
  if !s.isSimulationRunning then s
  else
    match target with
    | .component id true =>
      match s.components.find? (fun c => c.id == id) with
      | some comp =>
        if comp.type = CompType.button then
          updateSimulation (pressButton s id)
        else s
      | none => s
    | _ => s

/-- The `mousedown` listener registered in `setupCanvas` (drag start). -/
def onDragStart (s : AppState) (target : Target) (offX offY : Int) : AppState :=
  if s.isSimulationRunning then s
  else
    match target with
    | .component id _ =>
      match s.components.findIdx? (fun c => c.id == id) with
      | some i =>
        { s with draggedItem := some i, dragSource := some DragSource.canvas,
                 dragOffset := (offX, offY) }
      | none => s
    | _ => s

/-- The `mousemove` listener of the document. -/
def onMousemove (s : AppState) (px py width height : Int) : AppState :=
  match s.dragSource, s.draggedItem with
  | some DragSource.canvas, some i =>
    let newX := max 0 (min (px - s.dragOffset.1) (width - 50))
    let newY := max 0 (min (py - s.dragOffset.2) (height - 50))
    { s with components := s.components.modify (fun c => { c with x := newX, y := newY }) i }
  | _, _ => s

/-- The `mouseup` listener registered at line 472 (button release). -/
def onRelease (s : AppState) : AppState :=
  if !s.isSimulationRunning then s
  else
    updateSimulation (releaseButtons s)

/-- The `mouseup` listener registered in `setupCanvas` (drag end). -/
def onDragEnd (s : AppState) : AppState :=
  { s with draggedItem := none, dragSource := none }

/-- The `mouseup` listener of a controller pin; it stops propagation, so the
document listeners do not run. -/
def onPinMouseup (s : AppState) (pin : Nat) : AppState :=
  match s.pendingConnection with
  | some pc => completeConnection s pc.1 pc.2 pin
  | none => s

/-- The `click` listener of the legs of component `compId`. -/
def onTerminalClick (s : AppState) (compId : Nat) (termName : Terminal) : AppState :=
  match s.components.find? (fun c => c.id == compId) with
  | none => s
  | some comp =>
    if comp.type = CompType.arduino then s
    else if some termName ≠ TERMINALS comp.type then s
    else startWiring s comp.id termName

/-- The `keydown` listener of the document. -/
def onKeydown (s : AppState) (key : String) : AppState :=
  if key = "Escape" ∧ s.pendingConnection.isSome then { s with pendingConnection := none }
  else s

/-- The `click` listener of the start button. -/
def onStart (s : AppState) : AppState :=
  updateSimulation
    { s with isSimulationRunning := true,
             alerts := s.alerts ++
               ["Simulation Started. Press the Push Button to light up the LED."] }

/-- The `click` listener of the stop button. -/
def onStop (s : AppState) : AppState :=
  resetSimulation { s with isSimulationRunning := false }

/-- One event, run to completion. -/
def step (s : AppState) : Event → AppState
  | .paletteDragstart => { s with dragSource := some DragSource.palette }
  | .drop type x y => onDrop s type x y
  | .mousedown target offX offY => onDragStart (onPress s target) target offX offY
  | .mousemove px py width height => onMousemove s px py width height
  | .mouseup => onDragEnd (onRelease s)
  | .pinMouseup pin => onPinMouseup s pin
  | .terminalClick compId termName => onTerminalClick s compId termName
  | .keydown key => onKeydown s key
  | .startClick => onStart s
  | .stopClick => onStop s

/-- The state after `init()`: nothing placed, the code panel showing the text
for the empty graph. -/
def initState : AppState :=
  { components := [], wires := [], nextId := 1, draggedItem := none, dragSource := none,
    dragOffset := (0, 0), pendingConnection := none, isSimulationRunning := false,
    pinStates := fun _ => none, alerts := [],
    codeText := generateCode [] [] }

def run (s : AppState) (evs : List Event) : AppState :=
  evs.foldl step s

/-- The states the editor can be in: those some sequence of events leads to. -/
inductive Reachable : AppState → Prop where
  | init : Reachable initState
  | step {s : AppState} (e : Event) : Reachable s → Reachable (step s e)

/-! ## Properties of the circuit graph -/

/-- Identity and kind of every placed component: the part of the component list
that only `addComponent` changes. -/
def skeleton (cs : List Component) : List (Nat × CompType) :=
  cs.map (fun c => (c.id, c.type))

/-- A controller is on the canvas. -/
def hasController (s : AppState) : Prop :=
  ∃ a ∈ s.components, a.type = CompType.arduino

instance (s : AppState) : Decidable (hasController s) := by
  unfold hasController; infer_instance

/-- Some wire uses the pin. -/
def pinUsed (s : AppState) (pin : Nat) : Prop :=
  ∃ w ∈ s.wires, w.pin = pin

instance (s : AppState) (pin : Nat) : Decidable (pinUsed s pin) := by
  unfold pinUsed; infer_instance

/-- Invariant A: no two wires on one pin. -/
def PinExclusive (ws : List Wire) : Prop :=
  ws.Pairwise (fun a b => a.pin ≠ b.pin)

/-- Invariant B: no two wires on one terminal of one component. -/
def TerminalExclusive (ws : List Wire) : Prop :=
  ws.Pairwise (fun a b => ¬(a.compId = b.compId ∧ a.terminal = b.terminal))

/-- What holds of the graph and the pending connection in every state the
listeners can produce. -/
structure GraphInv (s : AppState) : Prop where
  ids_lt : ∀ q ∈ skeleton s.components, q.1 < s.nextId
  ids_nodup : ((skeleton s.components).map Prod.fst).Nodup
  one_controller : (skeleton s.components).countP (fun q => q.2 == CompType.arduino) ≤ 1
  wire_owner : ∀ w ∈ s.wires,
    ∃ ty, (w.compId, ty) ∈ skeleton s.components ∧ TERMINALS ty = some w.terminal
  pending_owner : ∀ pc, s.pendingConnection = some pc →
    (∃ ty, (pc.1, ty) ∈ skeleton s.components ∧ TERMINALS ty = some pc.2) ∧
    ∃ i, (i, CompType.arduino) ∈ skeleton s.components
  wires_controller : s.wires ≠ [] → ∃ i, (i, CompType.arduino) ∈ skeleton s.components
  pin_excl : PinExclusive s.wires
  term_excl : TerminalExclusive s.wires

/-! ## Sample sessions -/

/-- Dropping a part of the given type from the palette at `(x, y)`. -/
def place (type : CompType) (x y : Int) : List Event :=
  [Event.paletteDragstart, Event.drop type x y]

/-- Controller (id 1), LED (id 2, auto-wired to pin 10), Button (id 3,
auto-wired to pin 2); then the Button's `t1` is re-wired by hand to pin 10. -/
def rewireSession : List Event :=
  place CompType.arduino 0 0 ++ place CompType.led 100 40 ++ place CompType.button 200 40 ++
    [Event.terminalClick 3 Terminal.t1, Event.pinMouseup 10]

/-- Controller (id 1), LED (id 2, pin 10); then the LED's anode is re-wired by
hand to pin 7. -/
def moveWireSession : List Event :=
  place CompType.arduino 0 0 ++ place CompType.led 100 40 ++
    [Event.terminalClick 2 Terminal.anode, Event.pinMouseup 7]

/-- A controller, two LEDs and a Button, as `addComponent` would create them. -/
def sampleComponents : List Component :=
  [⟨1, CompType.arduino, 0, 0, false, false⟩, ⟨2, CompType.led, 100, 40, false, false⟩,
   ⟨3, CompType.led, 200, 40, false, false⟩, ⟨4, CompType.button, 300, 40, false, false⟩]

/-- Three wires, in the order auto-wiring creates them. -/
def sampleWires : List Wire :=
  [⟨2, Terminal.anode, 10⟩, ⟨3, Terminal.anode, 2⟩, ⟨4, Terminal.t1, 3⟩]

/-- The text `sub` occurs somewhere in `text`. -/
def occursIn (sub text : String) : Prop :=
  sub.data <:+: text.data

instance (sub text : String) : Decidable (occursIn sub text) := by
  unfold occursIn; infer_instance

/-- Controller (id 1), then one LED (id 2, auto-wired to pin 10). -/
def controllerThenLed : List Event :=
  place CompType.arduino 0 0 ++ place CompType.led 100 40

/-- Some wire is attached to terminal `t` of the component with id `id`. -/
def hasWire (s : AppState) (id : Nat) (t : Terminal) : Prop :=
  ∃ w ∈ s.wires, w.compId = id ∧ w.terminal = t

instance (s : AppState) (id : Nat) (t : Terminal) : Decidable (hasWire s id t) := by
  unfold hasWire; infer_instance

/-- Some Button with `isPressed = true` has a wire on `t1`. -/
def pressedButtonWired (s : AppState) : Prop :=
  ∃ b ∈ s.components, b.type = CompType.button ∧ b.isPressed = true ∧ hasWire s b.id Terminal.t1

instance (s : AppState) : Decidable (pressedButtonWired s) := by
  unfold pressedButtonWired; infer_instance

/-- Controller (id 1), Button (id 2, pin 2), LED (id 3, pin 10), simulation
started. -/
def simSession : List Event :=
  place CompType.arduino 0 0 ++ place CompType.button 100 40 ++ place CompType.led 200 40 ++
    [Event.startClick]

/-- The auto-assign policy in the words of the specification (section 4.2), on
the wire list alone: a component whose kind has a default terminal with no wire
on it yet gets the preferred pin of its kind when that pin is free, otherwise
the first free pin of the declared sequence, otherwise nothing. -/
def autoAssign (ws : List Wire) (c : Component) : List Wire :=
  match TERMINALS c.type with
  | none => ws
  | some term =>
    if ∃ w ∈ ws, w.compId = c.id ∧ w.terminal = term then ws
    else if ∀ w ∈ ws, w.pin ≠ (if c.type = CompType.led then PREF_LED_PIN else PREF_BTN_PIN) then
      ws ++ [⟨c.id, term, if c.type = CompType.led then PREF_LED_PIN else PREF_BTN_PIN⟩]
    else
      match ARDUINO_PINS.find? (fun p => decide (∀ w ∈ ws, w.pin ≠ p)) with
      | some p => ws ++ [⟨c.id, term, p⟩]
      | none => ws

/-- An LED (id 1) and a Button (id 2) placed before any controller. -/
def partsFirst : List Event :=
  place CompType.led 100 40 ++ place CompType.button 200 40

/-- Controller (id 1), then two Buttons (ids 2 and 3). -/
def controllerThenTwoButtons : List Event :=
  place CompType.arduino 0 0 ++ place CompType.button 100 40 ++ place CompType.button 200 40

/-- Controller (id 1), LED (id 2) placed at `(100, 40)`; the LED is then grabbed
at offset `(5, 5)`. -/
def grabLedSession : List Event :=
  place CompType.arduino 0 0 ++ place CompType.led 100 40 ++
    [Event.mousedown (Target.component 2 false) 5 5]

/-- The two simulation marks of every component: pressed flag and lit bulb. -/
def simMarks (cs : List Component) : List (Bool × Bool) :=
  cs.map (fun c => (c.isPressed, c.bulbOn))

/-- Nothing is pressed and nothing is lit. -/
def AllQuiet (cs : List Component) : Prop :=
  ∀ m ∈ simMarks cs, m = (false, false)

/-- The simulation session with the Button pressed, then the simulation stopped
while the Button is still held. -/
def stopWhilePressed : List Event :=
  simSession ++ [Event.mousedown (Target.component 2 true) 0 0, Event.stopClick]

/-! ## Events the page can deliver -/

/-- An event the page can deliver: the controller has pin elements for the
pins 2 to 13 only, so a pin `mouseup` carries one of them.  Every other event
is taken as it comes (a click on a leg the component does not have, or on a
component that is not there, is answered by the listener itself). -/
def Event.deliverable : Event → Prop
  | Event.pinMouseup pin => pin ∈ ARDUINO_PINS
  | _ => True

instance (e : Event) : Decidable e.deliverable := by
  cases e <;> unfold Event.deliverable <;> infer_instance

/-- The states reached through the listeners by deliverable events. -/
inductive ReachableByPage : AppState → Prop where
  | init : ReachableByPage initState
  | step {s : AppState} (e : Event) : e.deliverable → ReachableByPage s →
      ReachableByPage (step s e)

/-- The pin `q` is the `t1` pin of a pressed Button. -/
def pressedButtonPin (s : AppState) (q : Nat) : Prop :=
  ∃ b ∈ s.components, b.type = CompType.button ∧ b.isPressed = true ∧
    ∃ w ∈ s.wires, w.compId = b.id ∧ w.terminal = Terminal.t1 ∧ w.pin = q

instance (s : AppState) (q : Nat) : Decidable (pressedButtonPin s q) := by
  unfold pressedButtonPin; infer_instance

/-- The pin `q` is the anode pin of an LED. -/
def ledAnodePin (s : AppState) (q : Nat) : Prop :=
  ∃ l ∈ s.components, l.type = CompType.led ∧
    ∃ w ∈ s.wires, w.compId = l.id ∧ w.terminal = Terminal.anode ∧ w.pin = q

instance (s : AppState) (q : Nat) : Decidable (ledAnodePin s q) := by
  unfold ledAnodePin; infer_instance

/-- The state `s` with the signals of the controller pins replaced by `ps` and
the bulb of every LED replaced by `lit`: another memory of earlier ticks. -/
def withMemory (s : AppState) (ps : Nat → Option Nat) (lit : Component → Bool) : AppState :=
  { s with
    pinStates := fun q => if q ∈ ARDUINO_PINS then ps q else s.pinStates q,
    components := s.components.map (fun c =>
      if c.type = CompType.led then { c with bulbOn := lit c } else c) }

/-- The simulation session with the Button (id 2, pin 2) held down. -/
def pressedSession : List Event :=
  simSession ++ [Event.mousedown (Target.component 2 true) 0 0]

/-! ## The parts of the generated text -/

/-- Lines 345-350: the LED declarations. -/
def ledDeclarations (leds : List Nat) : String :=
  if leds.length = 1 then
    "int ledPin = " ++ toString (leds.headD 0) ++ ";\n"
  else if leds.length > 1 then
    "int ledPins[] = \x7b " ++ joinPins leds ++ " \x7d;\n" ++
    "int ledCount = " ++ toString leds.length ++ ";\n"
  else ""

/-- Lines 352-357: the Button declarations. -/
def buttonDeclarations (btns : List Nat) : String :=
  if btns.length = 1 then
    "int buttonPin = " ++ toString (btns.headD 0) ++ ";\n"
  else if btns.length > 1 then
    "int buttonPins[] = \x7b " ++ joinPins btns ++ " \x7d;\n" ++
    "int buttonCount = " ++ toString btns.length ++ ";\n"
  else ""

/-- Lines 361-365: the LED part of `setup()`. -/
def ledSetup (leds : List Nat) : String :=
  if leds.length = 1 then
    "  pinMode(ledPin, OUTPUT);\n"
  else if leds.length > 1 then
    "  for (int i = 0; i < ledCount; i++) \x7b\n    pinMode(ledPins[i], OUTPUT);\n  \x7d\n"
  else ""

/-- Lines 367-371: the Button part of `setup()`. -/
def buttonSetup (btns : List Nat) : String :=
  if btns.length = 1 then
    "  pinMode(buttonPin, INPUT);\n"
  else if btns.length > 1 then
    "  for (int i = 0; i < buttonCount; i++) \x7b\n    pinMode(buttonPins[i], INPUT);\n  \x7d\n"
  else ""

/-- The characters pin numbers and their lists are written with: digits, the
comma and the blank. -/
def isPinText (c : Char) : Bool :=
  c.isDigit || c == ',' || c == ' '

/-- A text without the characters of pin numbers and pin lists. -/
def stripPinText (t : String) : List Char :=
  t.data.filter (fun c => !isPinText c)

/-- A palette drag is started and abandoned, and a drag that carries no `type`
entry is dropped on the canvas while `dragSource` is still `'palette'` (line 68
reads the empty string, line 138 throws); then an LED is dragged from the
palette and dropped. -/
def failedDropThenLed : List Event :=
  place CompType.other 0 0 ++ place CompType.led 10 10

/-! # Theorems -/

/-! ## Frame lemmas -/

@[simp] theorem showCode_wires (s : AppState) : (showCode s).wires = s.wires := rfl
@[simp] theorem showCode_components (s : AppState) : (showCode s).components = s.components := rfl
@[simp] theorem showCode_nextId (s : AppState) : (showCode s).nextId = s.nextId := rfl
@[simp] theorem showCode_pendingConnection (s : AppState) :
    (showCode s).pendingConnection = s.pendingConnection := rfl
@[simp] theorem showCode_alerts (s : AppState) : (showCode s).alerts = s.alerts := rfl
@[simp] theorem showCode_isSimulationRunning (s : AppState) :
    (showCode s).isSimulationRunning = s.isSimulationRunning := rfl

theorem isPinFree_iff (s : AppState) (p : Nat) :
    isPinFree s p = true ↔ ∀ w ∈ s.wires, w.pin ≠ p := by
  simp [isPinFree]

/-- The two outcomes of `autoWireComponent`: nothing happens, or one wire is
pushed on the default terminal of the component, on a pin no wire uses, and
only when that terminal has no wire yet and a controller is placed. -/
theorem autoWireComponent_cases (s : AppState) (c : Component) :
    autoWireComponent s c = s ∨
    ∃ term p, TERMINALS c.type = some term ∧
      (∀ w ∈ s.wires, ¬(w.compId = c.id ∧ w.terminal = term)) ∧
      isPinFree s p = true ∧
      (∃ a ∈ s.components, a.type = CompType.arduino) ∧
      autoWireComponent s c = showCode { s with wires := s.wires ++ [⟨c.id, term, p⟩] } := by
  unfold autoWireComponent
  split
  · exact Or.inl rfl
  · rename_i a ha
    split
    · exact Or.inl rfl
    · rename_i term hterm
      split
      · exact Or.inl rfl
      · rename_i hnone
        simp only
        generalize (if c.type = CompType.led then PREF_LED_PIN else PREF_BTN_PIN) = d
        split
        · rename_i p hp
          refine Or.inr ⟨term, p, hterm, ?_, ?_, ?_, rfl⟩
          · intro w hw hcw
            have := List.find?_eq_none.mp hnone w hw
            simp [hcw.1, hcw.2] at this
          · by_cases hfree : isPinFree s d = true
            · rw [if_pos hfree] at hp
              cases hp
              exact hfree
            · rw [if_neg hfree] at hp
              exact List.find?_some hp
          · refine ⟨a, List.mem_of_find?_eq_some ha, ?_⟩
            have := List.find?_some ha
            simpa using this
        · exact Or.inl rfl

/-! ## The graph invariants hold in every reachable state -/

theorem skeleton_map_same (cs : List Component) (f : Component → Component)
    (hf : ∀ c, (f c).id = c.id ∧ (f c).type = c.type) :
    skeleton (cs.map f) = skeleton cs := by
  unfold skeleton
  rw [List.map_map]
  apply List.map_congr_left
  intro c _
  simp [(hf c).1, (hf c).2]

theorem skeleton_modify_same (f : Component → Component)
    (hf : ∀ c, (f c).id = c.id ∧ (f c).type = c.type) :
    ∀ (cs : List Component) (i : Nat), skeleton (cs.modify f i) = skeleton cs := by
  intro cs
  induction cs with
  | nil => intro i; simp
  | cons c cs ih =>
    intro i
    cases i with
    | zero => simp [skeleton, (hf c).1, (hf c).2]
    | succ i =>
      have := ih i
      simp only [skeleton] at this
      simp [skeleton, this]

@[simp] theorem updateSimulation_wires (s : AppState) : (updateSimulation s).wires = s.wires := by
  unfold updateSimulation; split <;> rfl

@[simp] theorem updateSimulation_nextId (s : AppState) :
    (updateSimulation s).nextId = s.nextId := by
  unfold updateSimulation; split <;> rfl

@[simp] theorem updateSimulation_pendingConnection (s : AppState) :
    (updateSimulation s).pendingConnection = s.pendingConnection := by
  unfold updateSimulation; split <;> rfl

@[simp] theorem updateSimulation_isSimulationRunning (s : AppState) :
    (updateSimulation s).isSimulationRunning = s.isSimulationRunning := by
  unfold updateSimulation; split <;> rfl

@[simp] theorem updateSimulation_skeleton (s : AppState) :
    skeleton (updateSimulation s).components = skeleton s.components := by
  unfold updateSimulation
  split
  · rfl
  · simp only [showLeds]
    apply skeleton_map_same
    intro c
    split
    · split <;> exact ⟨rfl, rfl⟩
    · exact ⟨rfl, rfl⟩

/-- The part of the state the graph invariants speak of. -/
theorem GraphInv.of_same_graph {s s' : AppState} (h : GraphInv s)
    (hc : skeleton s'.components = skeleton s.components) (hw : s'.wires = s.wires)
    (hn : s'.nextId = s.nextId) (hp : s'.pendingConnection = s.pendingConnection) :
    GraphInv s' := by
  constructor
  · rw [hc, hn]; exact h.ids_lt
  · rw [hc]; exact h.ids_nodup
  · rw [hc]; exact h.one_controller
  · rw [hc, hw]; exact h.wire_owner
  · rw [hc, hp]; exact h.pending_owner
  · rw [hc, hw]; exact h.wires_controller
  · rw [hw]; exact h.pin_excl
  · rw [hw]; exact h.term_excl

/-- The wire list `completeConnection` leaves. -/
theorem completeConnection_wires_eq (s : AppState) (c : Nat) (t : Terminal) (p : Nat) :
    (completeConnection s c t p).wires =
      s.wires.filter (fun w => decide (w.pin ≠ p ∧ ¬(w.compId = c ∧ w.terminal = t)))
        ++ [⟨c, t, p⟩] := by
  unfold completeConnection
  simp only [showCode_wires]
  congr 1
  split
  · rw [List.filter_filter]
    apply List.filter_congr
    intro w _
    by_cases h1 : w.pin = p <;> by_cases h2 : w.compId = c <;> by_cases h3 : w.terminal = t <;>
      simp [h1, h2, h3]
  · rename_i hnone
    apply List.filter_congr
    intro w hw
    have h1 : w.pin ≠ p := by
      have := List.find?_eq_none.mp hnone w hw
      simpa using this
    by_cases h2 : w.compId = c <;> by_cases h3 : w.terminal = t <;> simp [h1, h2, h3]

theorem initState_graphInv : GraphInv initState := by
  constructor <;> simp [initState, skeleton, PinExclusive, TerminalExclusive]

theorem mem_skeleton_of_mem {cs : List Component} {c : Component} (h : c ∈ cs) :
    (c.id, c.type) ∈ skeleton cs :=
  List.mem_map.mpr ⟨c, h, rfl⟩

theorem mem_skeleton_iff {cs : List Component} {q : Nat × CompType} :
    q ∈ skeleton cs ↔ ∃ c ∈ cs, c.id = q.1 ∧ c.type = q.2 := by
  unfold skeleton
  rw [List.mem_map]
  constructor
  · rintro ⟨c, hc, rfl⟩; exact ⟨c, hc, rfl, rfl⟩
  · rintro ⟨c, hc, h1, h2⟩; exact ⟨c, hc, Prod.ext h1 h2⟩

theorem autoWireComponent_frame (s : AppState) (c : Component) :
    (autoWireComponent s c).components = s.components ∧
    (autoWireComponent s c).nextId = s.nextId ∧
    (autoWireComponent s c).pendingConnection = s.pendingConnection ∧
    (autoWireComponent s c).alerts = s.alerts ∧
    (autoWireComponent s c).isSimulationRunning = s.isSimulationRunning := by
  rcases autoWireComponent_cases s c with h | ⟨term, p, _, _, _, _, h⟩ <;> rw [h] <;>
    exact ⟨rfl, rfl, rfl, rfl, rfl⟩

theorem GraphInv.autoWire {s : AppState} (h : GraphInv s) (c : Component)
    (hc : (c.id, c.type) ∈ skeleton s.components) : GraphInv (autoWireComponent s c) := by
  rcases autoWireComponent_cases s c with heq | ⟨term, p, hterm, hnot, hfree, hctl, heq⟩
  · rw [heq]; exact h
  · rw [heq]
    obtain ⟨a, ha, hat⟩ := hctl
    have hctl' : ∃ i, (i, CompType.arduino) ∈ skeleton s.components :=
      ⟨a.id, by rw [← hat]; exact mem_skeleton_of_mem ha⟩
    constructor
    · exact h.ids_lt
    · exact h.ids_nodup
    · exact h.one_controller
    · intro w hw
      simp only [showCode_wires, List.mem_append, List.mem_singleton] at hw
      rcases hw with hw | rfl
      · exact h.wire_owner w hw
      · exact ⟨c.type, hc, hterm⟩
    · exact h.pending_owner
    · intro _; exact hctl'
    · simp only [showCode_wires, PinExclusive]
      rw [List.pairwise_append]
      refine ⟨h.pin_excl, List.pairwise_singleton _ _, ?_⟩
      intro w hw b hb
      rw [List.mem_singleton] at hb
      subst hb
      exact (isPinFree_iff s p).mp hfree w hw
    · simp only [showCode_wires, TerminalExclusive]
      rw [List.pairwise_append]
      refine ⟨h.term_excl, List.pairwise_singleton _ _, ?_⟩
      intro w hw b hb
      rw [List.mem_singleton] at hb
      subst hb
      exact hnot w hw

theorem autoWireAll_cons (s : AppState) (c : Component) (l : List Component) :
    autoWireAll s (c :: l) =
      autoWireAll (if c.type ≠ CompType.arduino then autoWireComponent s c else s) l := rfl

theorem graphInv_autoWireAll (l : List Component) :
    ∀ (s : AppState), GraphInv s → (∀ c ∈ l, (c.id, c.type) ∈ skeleton s.components) →
      GraphInv (autoWireAll s l) ∧
      (autoWireAll s l).components = s.components ∧
      (autoWireAll s l).nextId = s.nextId ∧
      (autoWireAll s l).pendingConnection = s.pendingConnection ∧
      (autoWireAll s l).alerts = s.alerts := by
  induction l with
  | nil => intro s h _; exact ⟨h, rfl, rfl, rfl, rfl⟩
  | cons c l ih =>
    intro s h hl
    rw [autoWireAll_cons]
    by_cases hty : c.type ≠ CompType.arduino
    · rw [if_pos hty]
      have hf := autoWireComponent_frame s c
      have hc := hl c (List.mem_cons_self _ _)
      have := ih (autoWireComponent s c) (h.autoWire c hc)
        (by intro d hd; rw [hf.1]; exact hl d (List.mem_cons_of_mem _ hd))
      refine ⟨this.1, ?_, ?_, ?_, ?_⟩
      · rw [this.2.1, hf.1]
      · rw [this.2.2.1, hf.2.1]
      · rw [this.2.2.2.1, hf.2.2.1]
      · rw [this.2.2.2.2, hf.2.2.2.1]
    · rw [if_neg hty]
      exact ih s h (fun d hd => hl d (List.mem_cons_of_mem _ hd))

theorem skeleton_append (cs ds : List Component) :
    skeleton (cs ++ ds) = skeleton cs ++ skeleton ds := by
  simp [skeleton]

/-- The state right after `APP_STATE.components.push(comp)`. -/
theorem GraphInv.push {s : AppState} (h : GraphInv s) (ty : CompType) (x y : Int)
    (hty : ¬(ty = CompType.arduino ∧ s.components.any (fun c => c.type == CompType.arduino) = true)) :
    GraphInv (pushComponent s ty x y) := by
  unfold pushComponent
  have hsk : skeleton (s.components ++ [⟨s.nextId, ty, x, y, false, false⟩]) =
      skeleton s.components ++ [(s.nextId, ty)] := by
    rw [skeleton_append]; rfl
  constructor
  · simp only [hsk, List.mem_append, List.mem_singleton]
    rintro q (hq | rfl)
    · exact Nat.lt_succ_of_lt (h.ids_lt q hq)
    · exact Nat.lt_succ_self _
  · simp only [hsk, List.map_append, List.map_cons, List.map_nil]
    rw [List.nodup_append]
    refine ⟨h.ids_nodup, List.nodup_singleton _, ?_⟩
    intro a ha hb
    rw [List.mem_singleton] at hb
    subst hb
    obtain ⟨q, hq, hqa⟩ := List.mem_map.mp ha
    have := h.ids_lt q hq
    omega
  · simp only [hsk, List.countP_append, List.countP_cons, List.countP_nil]
    by_cases hta : ty = CompType.arduino
    · have hno : s.components.any (fun c => c.type == CompType.arduino) = false := by
        cases hany : s.components.any (fun c => c.type == CompType.arduino)
        · rfl
        · exact absurd ⟨hta, hany⟩ hty
      have hzero : (skeleton s.components).countP (fun q => q.2 == CompType.arduino) = 0 := by
        rw [List.countP_eq_zero]
        intro q hq
        obtain ⟨c, hc, _, h2⟩ := mem_skeleton_iff.mp hq
        have := List.any_eq_false.mp hno c hc
        rw [← h2]
        exact this
      rw [hzero]
      simp [hta]
    · have := h.one_controller
      simp [hta]
      exact this
  · intro w hw
    obtain ⟨t, ht, htt⟩ := h.wire_owner w hw
    exact ⟨t, by simp only [hsk]; exact List.mem_append_left _ ht, htt⟩
  · intro pc hpc
    obtain ⟨⟨t, ht, htt⟩, i, hi⟩ := h.pending_owner pc hpc
    exact ⟨⟨t, by simp only [hsk]; exact List.mem_append_left _ ht, htt⟩,
      i, by simp only [hsk]; exact List.mem_append_left _ hi⟩
  · intro hw
    obtain ⟨i, hi⟩ := h.wires_controller hw
    exact ⟨i, by simp only [hsk]; exact List.mem_append_left _ hi⟩
  · exact h.pin_excl
  · exact h.term_excl

/-- The drop of the empty type string: the id is consumed, nothing else. -/
theorem addComponent_other (s : AppState) (x y : Int) :
    addComponent s CompType.other x y = { s with nextId := s.nextId + 1 } := by
  unfold addComponent
  rw [if_neg (fun h => absurd h.1 (by decide)), if_pos rfl]

/-- A drop that is neither refused nor fails: push, auto-wire, regenerate. -/
theorem addComponent_of_placed (s : AppState) (ty : CompType) (x y : Int)
    (h : ¬(ty = CompType.arduino ∧
      s.components.any (fun c => c.type == CompType.arduino) = true))
    (hty : ty ≠ CompType.other) :
    addComponent s ty x y =
      showCode (if ty ≠ CompType.arduino then
          autoWireComponent (pushComponent s ty x y) ⟨s.nextId, ty, x, y, false, false⟩
        else autoWireAll (pushComponent s ty x y) (pushComponent s ty x y).components) := by
  unfold addComponent
  rw [if_neg h, if_neg hty]

/-- Consuming an id keeps the graph invariants. -/
theorem GraphInv.consume_id {s : AppState} (h : GraphInv s) :
    GraphInv { s with nextId := s.nextId + 1 } :=
  ⟨fun q hq => Nat.lt_succ_of_lt (h.ids_lt q hq), h.ids_nodup, h.one_controller,
    h.wire_owner, h.pending_owner, h.wires_controller, h.pin_excl, h.term_excl⟩

theorem GraphInv.addComponent {s : AppState} (h : GraphInv s) (ty : CompType) (x y : Int) :
    GraphInv (addComponent s ty x y) := by
  by_cases hdup : ty = CompType.arduino ∧
      s.components.any (fun c => c.type == CompType.arduino) = true
  · unfold ArduinoEditor.addComponent
    rw [if_pos hdup]
    exact h.of_same_graph rfl rfl rfl rfl
  by_cases hother : ty = CompType.other
  · subst hother
    rw [addComponent_other]
    exact h.consume_id
  · rw [addComponent_of_placed s ty x y hdup hother]
    have hty := hdup
    have h1 := h.push ty x y hty
    split
    · refine (h1.autoWire _ ?_).of_same_graph rfl rfl rfl rfl
      exact mem_skeleton_of_mem (List.mem_append_right _ (List.mem_singleton_self _))
    · refine (graphInv_autoWireAll _ _ h1 ?_).1.of_same_graph rfl rfl rfl rfl
      intro c hc
      exact mem_skeleton_of_mem hc

theorem GraphInv.completeConnection {s : AppState} (h : GraphInv s) (pc : Nat × Terminal)
    (hpc : s.pendingConnection = some pc) (p : Nat) :
    GraphInv (completeConnection s pc.1 pc.2 p) := by
  have hw := completeConnection_wires_eq s pc.1 pc.2 p
  have hcomp : (ArduinoEditor.completeConnection s pc.1 pc.2 p).components = s.components := rfl
  have hn : (ArduinoEditor.completeConnection s pc.1 pc.2 p).nextId = s.nextId := rfl
  have hp : (ArduinoEditor.completeConnection s pc.1 pc.2 p).pendingConnection = none := rfl
  obtain ⟨hown, hctl⟩ := h.pending_owner pc hpc
  constructor
  · rw [hcomp, hn]; exact h.ids_lt
  · rw [hcomp]; exact h.ids_nodup
  · rw [hcomp]; exact h.one_controller
  · rw [hcomp, hw]
    intro w hwm
    rw [List.mem_append, List.mem_singleton] at hwm
    rcases hwm with hwm | rfl
    · exact h.wire_owner w (List.mem_of_mem_filter hwm)
    · exact hown
  · rw [hp]; intro _ hx; cases hx
  · rw [hcomp]; intro _; exact hctl
  · rw [hw]
    unfold PinExclusive
    rw [List.pairwise_append]
    refine ⟨h.pin_excl.sublist (List.filter_sublist _), List.pairwise_singleton _ _, ?_⟩
    intro w hwm b hb
    rw [List.mem_singleton] at hb
    subst hb
    have := (List.mem_filter.mp hwm).2
    simp only [decide_eq_true_eq] at this
    exact this.1
  · rw [hw]
    unfold TerminalExclusive
    rw [List.pairwise_append]
    refine ⟨h.term_excl.sublist (List.filter_sublist _), List.pairwise_singleton _ _, ?_⟩
    intro w hwm b hb
    rw [List.mem_singleton] at hb
    subst hb
    have := (List.mem_filter.mp hwm).2
    simp only [decide_eq_true_eq] at this
    exact this.2

theorem GraphInv.with_pending {s s' : AppState} (h : GraphInv s)
    (hc : skeleton s'.components = skeleton s.components) (hw : s'.wires = s.wires)
    (hn : s'.nextId = s.nextId)
    (hp : ∀ pc, s'.pendingConnection = some pc →
      (∃ ty, (pc.1, ty) ∈ skeleton s.components ∧ TERMINALS ty = some pc.2) ∧
      ∃ i, (i, CompType.arduino) ∈ skeleton s.components) :
    GraphInv s' := by
  constructor
  · rw [hc, hn]; exact h.ids_lt
  · rw [hc]; exact h.ids_nodup
  · rw [hc]; exact h.one_controller
  · rw [hc, hw]; exact h.wire_owner
  · rw [hc]; exact hp
  · rw [hc, hw]; exact h.wires_controller
  · rw [hw]; exact h.pin_excl
  · rw [hw]; exact h.term_excl

theorem resetSimulation_skeleton (s : AppState) :
    skeleton (resetSimulation s).components = skeleton s.components :=
  skeleton_map_same _ _ (fun _ => ⟨rfl, rfl⟩)

theorem onPress_graph (s : AppState) (target : Target) :
    skeleton (onPress s target).components = skeleton s.components ∧
    (onPress s target).wires = s.wires ∧ (onPress s target).nextId = s.nextId ∧
    (onPress s target).pendingConnection = s.pendingConnection := by
  unfold onPress
  split
  · exact ⟨rfl, rfl, rfl, rfl⟩
  · split
    · split
      · split
        · refine ⟨?_, by simp [pressButton], by simp [pressButton], by simp [pressButton]⟩
          rw [updateSimulation_skeleton]
          unfold pressButton
          apply skeleton_modify_same
          intro c
          exact ⟨rfl, rfl⟩
        · exact ⟨rfl, rfl, rfl, rfl⟩
      · exact ⟨rfl, rfl, rfl, rfl⟩
    · exact ⟨rfl, rfl, rfl, rfl⟩

theorem onDragStart_graph (s : AppState) (target : Target) (ox oy : Int) :
    (onDragStart s target ox oy).components = s.components ∧
    (onDragStart s target ox oy).wires = s.wires ∧
    (onDragStart s target ox oy).nextId = s.nextId ∧
    (onDragStart s target ox oy).pendingConnection = s.pendingConnection := by
  unfold onDragStart
  split
  · exact ⟨rfl, rfl, rfl, rfl⟩
  · split
    · split <;> exact ⟨rfl, rfl, rfl, rfl⟩
    · exact ⟨rfl, rfl, rfl, rfl⟩

theorem onMousemove_graph (s : AppState) (px py w h : Int) :
    skeleton (onMousemove s px py w h).components = skeleton s.components ∧
    (onMousemove s px py w h).wires = s.wires ∧
    (onMousemove s px py w h).nextId = s.nextId ∧
    (onMousemove s px py w h).pendingConnection = s.pendingConnection := by
  unfold onMousemove
  split
  · refine ⟨?_, rfl, rfl, rfl⟩
    apply skeleton_modify_same
    intro c
    exact ⟨rfl, rfl⟩
  · exact ⟨rfl, rfl, rfl, rfl⟩

theorem onRelease_graph (s : AppState) :
    skeleton (onRelease s).components = skeleton s.components ∧
    (onRelease s).wires = s.wires ∧ (onRelease s).nextId = s.nextId ∧
    (onRelease s).pendingConnection = s.pendingConnection := by
  unfold onRelease
  split
  · exact ⟨rfl, rfl, rfl, rfl⟩
  · refine ⟨?_, by simp [releaseButtons], by simp [releaseButtons], by simp [releaseButtons]⟩
    rw [updateSimulation_skeleton]
    unfold releaseButtons
    apply skeleton_map_same
    intro c
    split <;> exact ⟨rfl, rfl⟩

theorem GraphInv.onTerminalClick {s : AppState} (h : GraphInv s) (compId : Nat)
    (termName : Terminal) : GraphInv (onTerminalClick s compId termName) := by
  unfold ArduinoEditor.onTerminalClick
  split
  · exact h
  · rename_i comp hfind
    split
    · exact h
    · split
      · exact h
      · rename_i hterm
        have hterm' : TERMINALS comp.type = some termName := by
          by_contra hne
          exact hterm (fun heq => hne heq.symm)
        unfold startWiring
        split
        · exact h.of_same_graph rfl rfl rfl rfl
        · rename_i a ha
          refine h.with_pending rfl rfl rfl ?_
          intro pc hpc
          simp only [Option.some.injEq] at hpc
          subst hpc
          refine ⟨⟨comp.type, mem_skeleton_of_mem (List.mem_of_find?_eq_some hfind), hterm'⟩,
            a.id, ?_⟩
          have hat : a.type = CompType.arduino := by
            have := List.find?_some ha
            simpa using this
          rw [← hat]
          exact mem_skeleton_of_mem (List.mem_of_find?_eq_some ha)

/-- Every listener keeps the graph invariants. -/
theorem GraphInv.step {s : AppState} (h : GraphInv s) (e : Event) : GraphInv (step s e) := by
  cases e with
  | paletteDragstart => exact h.of_same_graph rfl rfl rfl rfl
  | drop ty x y =>
    show GraphInv (onDrop s ty x y)
    unfold onDrop
    split
    · exact h
    · split
      · exact h.addComponent ty x y
      · exact (h.addComponent ty x y).of_same_graph rfl rfl rfl rfl
  | mousedown target ox oy =>
    show GraphInv (onDragStart (onPress s target) target ox oy)
    have h1 := onPress_graph s target
    have h2 := onDragStart_graph (onPress s target) target ox oy
    exact h.of_same_graph (by rw [h2.1, h1.1]) (by rw [h2.2.1, h1.2.1])
      (by rw [h2.2.2.1, h1.2.2.1]) (by rw [h2.2.2.2, h1.2.2.2])
  | mousemove px py w hh =>
    have h1 := onMousemove_graph s px py w hh
    exact h.of_same_graph h1.1 h1.2.1 h1.2.2.1 h1.2.2.2
  | mouseup =>
    have h1 := onRelease_graph s
    show GraphInv (onDragEnd (onRelease s))
    exact h.of_same_graph h1.1 h1.2.1 h1.2.2.1 h1.2.2.2
  | pinMouseup pin =>
    show GraphInv (onPinMouseup s pin)
    unfold onPinMouseup
    split
    · rename_i pc hpc
      exact h.completeConnection pc hpc pin
    · exact h
  | terminalClick compId termName => exact h.onTerminalClick compId termName
  | keydown key =>
    show GraphInv (onKeydown s key)
    unfold onKeydown
    split
    · exact h.with_pending rfl rfl rfl (by intro pc hpc; cases hpc)
    · exact h
  | startClick =>
    show GraphInv (onStart s)
    unfold onStart
    exact h.of_same_graph (by rw [updateSimulation_skeleton]) (by simp) (by simp) (by simp)
  | stopClick =>
    show GraphInv (onStop s)
    unfold onStop
    exact h.of_same_graph (resetSimulation_skeleton _) rfl rfl rfl

theorem Reachable.graphInv {s : AppState} (h : Reachable s) : GraphInv s := by
  induction h with
  | init => exact initState_graphInv
  | step e _ ih => exact ih.step e

theorem reachable_run (evs : List Event) : ∀ s, Reachable s → Reachable (run s evs) := by
  induction evs with
  | nil => intro s h; exact h
  | cons e evs ih => intro s h; exact ih _ (Reachable.step e h)

/-! ## The claims

### Wire exclusivity (C1, C2, C3) -/

/-- C1, pin exclusivity (Invariant A): in every state reachable from the initial
state by any sequence of events no two wires have the same pin; for every
state, after `completeConnection(c, t, p)` the only wire with pin `p` is
`(c, t, p)`; and for every state `autoWireComponent` either leaves the wire list
alone or pushes one wire whose pin no earlier wire uses. -/
theorem pin_exclusivity :
    (∀ s : AppState, Reachable s → s.wires.Pairwise (fun a b => a.pin ≠ b.pin)) ∧
    (∀ (s : AppState) (c : Nat) (t : Terminal) (p : Nat),
      (completeConnection s c t p).wires.filter (fun w => w.pin == p) = [⟨c, t, p⟩]) ∧
    (∀ (s : AppState) (comp : Component),
      (autoWireComponent s comp).wires = s.wires ∨
      ∃ w : Wire, (autoWireComponent s comp).wires = s.wires ++ [w] ∧
        ∀ v ∈ s.wires, v.pin ≠ w.pin) := by
  refine ⟨fun s h => h.graphInv.pin_excl, ?_, ?_⟩
  · intro s c t p
    rw [completeConnection_wires_eq, List.filter_append, List.filter_filter]
    have : s.wires.filter (fun a => (a.pin == p) &&
        decide (a.pin ≠ p ∧ ¬(a.compId = c ∧ a.terminal = t))) = [] := by
      rw [List.filter_eq_nil_iff]
      intro a _
      by_cases h : a.pin = p <;> simp [h]
    rw [this]
    simp
  · intro s comp
    rcases autoWireComponent_cases s comp with h | ⟨term, p, _, _, hfree, _, h⟩
    · exact Or.inl (by rw [h])
    · exact Or.inr ⟨⟨comp.id, term, p⟩, by rw [h]; rfl, (isPinFree_iff s p).mp hfree⟩

/-- C1 on a session: pin 10 is taken over by the Button, and the LED's wire on
it is gone. -/
theorem pin_exclusivity_witness :
    (run initState rewireSession).wires = [⟨3, Terminal.t1, 10⟩] ∧
    (run initState rewireSession).wires.Pairwise (fun a b => a.pin ≠ b.pin) :=
  ⟨by decide, pin_exclusivity.1 _ (reachable_run rewireSession _ Reachable.init)⟩

/-- C2, terminal exclusivity (Invariant B): in every state reachable from the
initial state by any sequence of events no two wires have the same
`(compId, terminal)`; for every state, after `completeConnection(c, t, p)` the
only wire on `(c, t)` is `(c, t, p)`, so an earlier wire `(c, t, q)` is removed;
and for every state `autoWireComponent` adds no wire for a component whose
default terminal already has one. -/
theorem terminal_exclusivity :
    (∀ s : AppState, Reachable s →
      s.wires.Pairwise (fun a b => ¬(a.compId = b.compId ∧ a.terminal = b.terminal))) ∧
    (∀ (s : AppState) (c : Nat) (t : Terminal) (p : Nat),
      (completeConnection s c t p).wires.filter (fun w => w.compId == c && w.terminal == t)
        = [⟨c, t, p⟩]) ∧
    (∀ (s : AppState) (c : Nat) (t : Terminal) (p q : Nat), q ≠ p →
      (⟨c, t, q⟩ : Wire) ∉ (completeConnection s c t p).wires) ∧
    (∀ (s : AppState) (comp : Component) (term : Terminal),
      TERMINALS comp.type = some term →
      (∃ w ∈ s.wires, w.compId = comp.id ∧ w.terminal = term) →
      autoWireComponent s comp = s) := by
  have hfil : ∀ (s : AppState) (c : Nat) (t : Terminal) (p : Nat),
      (completeConnection s c t p).wires.filter (fun w => w.compId == c && w.terminal == t)
        = [⟨c, t, p⟩] := by
    intro s c t p
    rw [completeConnection_wires_eq, List.filter_append, List.filter_filter]
    have : s.wires.filter (fun a => (a.compId == c && a.terminal == t) &&
        decide (a.pin ≠ p ∧ ¬(a.compId = c ∧ a.terminal = t))) = [] := by
      rw [List.filter_eq_nil_iff]
      intro a _
      by_cases h : a.compId = c <;> by_cases h2 : a.terminal = t <;> simp [h, h2]
    rw [this]
    simp
  refine ⟨fun s h => h.graphInv.term_excl, hfil, ?_, ?_⟩
  · intro s c t p q hq hmem
    have : (⟨c, t, q⟩ : Wire) ∈
        (completeConnection s c t p).wires.filter (fun w => w.compId == c && w.terminal == t) :=
      List.mem_filter.mpr ⟨hmem, by simp⟩
    rw [hfil] at this
    rw [List.mem_singleton] at this
    exact hq (congrArg Wire.pin this)
  · intro s comp term hterm hex
    rcases autoWireComponent_cases s comp with h | ⟨term', p, hterm', hnot, _, _, _⟩
    · exact h
    · obtain ⟨w, hw, hw1, hw2⟩ := hex
      rw [hterm] at hterm'
      cases hterm'
      exact absurd ⟨hw1, hw2⟩ (hnot w hw)

/-- C2 on a session: re-wiring the LED's anode from pin 10 to pin 7 leaves the
one wire on pin 7. -/
theorem terminal_exclusivity_witness :
    (run initState moveWireSession).wires = [⟨2, Terminal.anode, 7⟩] ∧
    (run initState moveWireSession).wires.Pairwise
      (fun a b => ¬(a.compId = b.compId ∧ a.terminal = b.terminal)) :=
  ⟨by decide, terminal_exclusivity.1 _ (reachable_run moveWireSession _ Reachable.init)⟩

/-- C3, last write wins on both axes: for every state and every `(c, t, p)` the
wire list after `completeConnection(c, t, p)` is the old list without the wires
on pin `p` and without the wires on `(c, t)`, survivors in their old order,
followed by the one new wire `(c, t, p)`; components and `nextId` are unchanged
and the pending connection is none. -/
theorem completeConnection_last_write_wins (s : AppState) (c : Nat) (t : Terminal) (p : Nat) :
    (completeConnection s c t p).wires =
      s.wires.filter (fun w => decide (w.pin ≠ p ∧ ¬(w.compId = c ∧ w.terminal = t)))
        ++ [⟨c, t, p⟩] ∧
    (completeConnection s c t p).components = s.components ∧
    (completeConnection s c t p).nextId = s.nextId ∧
    (completeConnection s c t p).pendingConnection = none :=
  ⟨completeConnection_wires_eq s c t p, rfl, rfl, rfl⟩

/-! ### Auto-assign policy (C4) -/

theorem isPinFree_eq_true_iff (s : AppState) (p : Nat) : isPinFree s p = true ↔ ¬pinUsed s p := by
  rw [isPinFree_iff]
  unfold pinUsed
  constructor
  · rintro h ⟨w, hw, hp⟩; exact h w hw hp
  · intro h w hw hp; exact h ⟨w, hw, hp⟩

theorem find_controller_isSome {s : AppState} (h : hasController s) :
    ∃ a, s.components.find? (fun c => c.type == CompType.arduino) = some a := by
  obtain ⟨a, ha, hat⟩ := h
  cases hf : s.components.find? (fun c => c.type == CompType.arduino) with
  | some b => exact ⟨b, rfl⟩
  | none =>
    have := List.find?_eq_none.mp hf a ha
    simp [hat] at this

theorem find_controller_none {s : AppState} (h : ¬hasController s) :
    s.components.find? (fun c => c.type == CompType.arduino) = none := by
  rw [List.find?_eq_none]
  intro a ha hat
  exact h ⟨a, ha, by simpa using hat⟩

/-- What `autoWireComponent` computes once its three guards are passed. -/
theorem autoWireComponent_eq_of_guards (s : AppState) (c : Component) (term : Terminal)
    (hctl : hasController s) (hterm : TERMINALS c.type = some term)
    (hnone : ∀ w ∈ s.wires, ¬(w.compId = c.id ∧ w.terminal = term)) :
    autoWireComponent s c =
      match (if isPinFree s (if c.type = CompType.led then PREF_LED_PIN else PREF_BTN_PIN) then
              some (if c.type = CompType.led then PREF_LED_PIN else PREF_BTN_PIN)
            else ARDUINO_PINS.find? (fun p => isPinFree s p)) with
      | some p => showCode { s with wires := s.wires ++ [⟨c.id, term, p⟩] }
      | none => s := by
  obtain ⟨a, ha⟩ := find_controller_isSome hctl
  have hw : s.wires.find? (fun w => w.compId == c.id && w.terminal == term) = none := by
    rw [List.find?_eq_none]
    intro w hw hcw
    apply hnone w hw
    simpa using hcw
  unfold autoWireComponent
  rw [ha]
  simp only [hterm, hw]

/-- Without a controller `autoWireComponent` returns at its first guard. -/
theorem autoWireComponent_no_controller (s : AppState) (c : Component)
    (h : ¬hasController s) : autoWireComponent s c = s := by
  unfold autoWireComponent
  rw [find_controller_none h]

theorem addComponent_of_ne_arduino (s : AppState) (ty : CompType) (x y : Int)
    (hty : ty ≠ CompType.arduino) (hother : ty ≠ CompType.other) :
    addComponent s ty x y =
      showCode (autoWireComponent (pushComponent s ty x y) ⟨s.nextId, ty, x, y, false, false⟩) := by
  rw [addComponent_of_placed s ty x y (fun h => hty h.1) hother, if_pos hty]

/-- In a state the listeners can produce no wire is owned by the id the next
component will get. -/
theorem GraphInv.no_wire_for_nextId {s : AppState} (h : GraphInv s) :
    ∀ w ∈ s.wires, w.compId ≠ s.nextId := by
  intro w hw heq
  obtain ⟨ty, hmem, _⟩ := h.wire_owner w hw
  have := h.ids_lt _ hmem
  simp only at this
  omega

/-- C4, auto-assign policy: in every reachable state with a controller, placing
an LED (terminal anode, preferred pin 10) or a Button (terminal t1, preferred
pin 2) appends the new component with id `nextId`, raises no notice, and leaves
the wire list as it was followed by at most one wire, on the new component's
default terminal: on the preferred pin when no wire uses it; otherwise on the
first pin of `[2, ..., 13]` that no wire uses; and no wire at all when all
twelve pins are used. -/
theorem auto_assign_policy (s : AppState) (hr : Reachable s) (hc : hasController s)
    (ty : CompType) (term : Terminal) (pref : Nat) (x y : Int)
    (hty : (ty = CompType.led ∧ term = Terminal.anode ∧ pref = PREF_LED_PIN) ∨
           (ty = CompType.button ∧ term = Terminal.t1 ∧ pref = PREF_BTN_PIN)) :
    (addComponent s ty x y).components = s.components ++ [⟨s.nextId, ty, x, y, false, false⟩] ∧
    (addComponent s ty x y).alerts = s.alerts ∧
    (¬pinUsed s pref → (addComponent s ty x y).wires = s.wires ++ [⟨s.nextId, term, pref⟩]) ∧
    (pinUsed s pref → ∀ (before after : List Nat) (p : Nat),
      ARDUINO_PINS = before ++ p :: after → (∀ q ∈ before, pinUsed s q) → ¬pinUsed s p →
      (addComponent s ty x y).wires = s.wires ++ [⟨s.nextId, term, p⟩]) ∧
    ((∀ q ∈ ARDUINO_PINS, pinUsed s q) → (addComponent s ty x y).wires = s.wires) := by
  have hI := hr.graphInv
  have hne : ty ≠ CompType.arduino := by
    rcases hty with ⟨h, _, _⟩ | ⟨h, _, _⟩ <;> rw [h] <;> decide
  have hterm : TERMINALS ty = some term := by
    rcases hty with ⟨h, h2, _⟩ | ⟨h, h2, _⟩ <;> rw [h, h2] <;> rfl
  have hpref : (if ty = CompType.led then PREF_LED_PIN else PREF_BTN_PIN) = pref := by
    rcases hty with ⟨h, _, h3⟩ | ⟨h, _, h3⟩ <;> rw [h, h3] <;> rfl
  have hprefmem : pref ∈ ARDUINO_PINS := by
    rcases hty with ⟨_, _, h3⟩ | ⟨_, _, h3⟩ <;> rw [h3] <;> decide
  obtain ⟨a, ha, hat⟩ := hc
  have hc1 : hasController (pushComponent s ty x y) :=
    ⟨a, List.mem_append_left _ ha, hat⟩
  have hauto := autoWireComponent_eq_of_guards (pushComponent s ty x y)
    ⟨s.nextId, ty, x, y, false, false⟩ term hc1 hterm
    (fun w hw hcw => hI.no_wire_for_nextId w hw hcw.1)
  simp only [hpref] at hauto
  have hfree : ∀ p, isPinFree (pushComponent s ty x y) p = isPinFree s p := fun _ => rfl
  simp only [hfree] at hauto
  have hplaced : ty ≠ CompType.other := by
    rcases hty with ⟨h, _, _⟩ | ⟨h, _, _⟩ <;> rw [h] <;> decide
  rw [addComponent_of_ne_arduino s ty x y hne hplaced, hauto]
  by_cases hp : pinUsed s pref
  · have hpf : ¬(isPinFree s pref = true) := by
      rw [isPinFree_eq_true_iff]; exact fun h => h hp
    rw [if_neg hpf]
    cases hfind : ARDUINO_PINS.find? (fun p => isPinFree s p) with
    | none =>
      have hall : ∀ q ∈ ARDUINO_PINS, pinUsed s q := by
        intro q hq
        have := List.find?_eq_none.mp hfind q hq
        rw [isPinFree_eq_true_iff] at this
        exact not_not.mp this
      refine ⟨rfl, rfl, fun h => absurd hp h, ?_, fun _ => rfl⟩
      intro _ before after p hsplit _ hfreep
      exact absurd (hall p (by rw [hsplit]; simp)) hfreep
    | some p0 =>
      obtain ⟨hp0, as, bs, hsplit0, has⟩ := List.find?_eq_some.mp hfind
      refine ⟨rfl, rfl, fun h => absurd hp h, ?_, ?_⟩
      · intro _ before after p hsplit hbefore hfreep
        have hfp : ARDUINO_PINS.find? (fun p => isPinFree s p) = some p := by
          rw [List.find?_eq_some]
          refine ⟨(isPinFree_eq_true_iff s p).mpr hfreep, before, after, hsplit, ?_⟩
          intro q hq
          have := hbefore q hq
          cases hq' : isPinFree s q
          · rfl
          · exact absurd this ((isPinFree_eq_true_iff s q).mp hq')
        rw [hfind] at hfp
        cases hfp
        rfl
      · intro hall
        have := hall p0 (by rw [hsplit0]; simp)
        exact absurd this ((isPinFree_eq_true_iff s p0).mp hp0)
  · have hpf : isPinFree s pref = true := (isPinFree_eq_true_iff s pref).mpr hp
    rw [if_pos hpf]
    refine ⟨rfl, rfl, fun _ => rfl, fun h => absurd h hp, ?_⟩
    intro hall
    exact absurd (hall pref hprefmem) hp

/-- C4 on the session of the claim: after the controller, the first LED gets
its preferred pin 10 and the second LED, pin 10 being used, gets pin 2, the
first of the declared sequence. -/
theorem auto_assign_policy_witness :
    (addComponent (run initState (place CompType.arduino 0 0)) CompType.led 100 40).wires
      = [⟨2, Terminal.anode, 10⟩] ∧
    (addComponent (run initState (place CompType.arduino 0 0 ++ place CompType.led 100 40))
        CompType.led 200 40).wires
      = [⟨2, Terminal.anode, 10⟩, ⟨3, Terminal.anode, 2⟩] :=
  ⟨((auto_assign_policy (run initState (place CompType.arduino 0 0))
        (reachable_run _ _ Reachable.init) (by decide) CompType.led Terminal.anode 10 100 40
        (Or.inl ⟨rfl, rfl, rfl⟩)).2.2.1 (by decide)).trans (by decide),
   ((auto_assign_policy (run initState (place CompType.arduino 0 0 ++ place CompType.led 100 40))
        (reachable_run _ _ Reachable.init) (by decide) CompType.led Terminal.anode 10 200 40
        (Or.inl ⟨rfl, rfl, rfl⟩)).2.2.2.1 (by decide) [] [3, 4, 5, 6, 7, 8, 9, 10, 11, 12, 13] 2
        rfl (by intro q hq; cases hq) (by decide)).trans (by decide)⟩

/-! ### Single controller (C5) -/

theorem hasController_iff_any (s : AppState) :
    hasController s ↔ s.components.any (fun c => c.type == CompType.arduino) = true := by
  unfold hasController
  simp

/-- C5, single controller: in every state reachable by any sequence of events
the component list holds at most one component of type arduino; and for every
state that has a controller, `addComponent('arduino', x, y)` raises the notice
and changes nothing else: same components, same wires, same `nextId`, same
pending connection. -/
theorem single_controller :
    (∀ s : AppState, Reachable s →
      (s.components.filter (fun c => c.type == CompType.arduino)).length ≤ 1) ∧
    (∀ (s : AppState) (x y : Int), hasController s →
      (addComponent s CompType.arduino x y).alerts
        = s.alerts ++ ["Only one Arduino Uno is allowed."] ∧
      (addComponent s CompType.arduino x y).components = s.components ∧
      (addComponent s CompType.arduino x y).wires = s.wires ∧
      (addComponent s CompType.arduino x y).nextId = s.nextId ∧
      (addComponent s CompType.arduino x y).pendingConnection = s.pendingConnection ∧
      (addComponent s CompType.arduino x y).codeText = s.codeText) := by
  constructor
  · intro s hr
    have h := hr.graphInv.one_controller
    unfold skeleton at h
    rw [List.countP_map] at h
    rw [← List.countP_eq_length_filter]
    exact h
  · intro s x y hc
    have hany := (hasController_iff_any s).mp hc
    unfold addComponent
    rw [if_pos ⟨rfl, hany⟩]
    exact ⟨rfl, rfl, rfl, rfl, rfl, rfl⟩

/-- C5 on a session: a second controller dropped after the first leaves one
controller, consumes no id and raises the notice. -/
theorem single_controller_witness :
    ((run initState (place CompType.arduino 0 0 ++ place CompType.arduino 50 50)).components.filter
      (fun c => c.type == CompType.arduino)).length ≤ 1 ∧
    (run initState (place CompType.arduino 0 0 ++ place CompType.arduino 50 50)).nextId = 2 ∧
    (run initState (place CompType.arduino 0 0 ++ place CompType.arduino 50 50)).alerts
      = ["Only one Arduino Uno is allowed."] :=
  ⟨single_controller.1 _ (reachable_run _ _ Reachable.init), by decide, by decide⟩

/-! ### Code generation (C6, C7) -/

/-- Sorting the pins of two permuted selections gives one list. -/
theorem sorted_pins_eq_of_perm {ws₁ ws₂ : List Wire} (f : Wire → Bool) (h : ws₁.Perm ws₂) :
    ((ws₁.filter f).map (fun w => w.pin)).insertionSort (fun a b => a ≤ b) =
    ((ws₂.filter f).map (fun w => w.pin)).insertionSort (fun a b => a ≤ b) := by
  apply List.eq_of_perm_of_sorted (r := fun a b : Nat => a ≤ b)
  · exact (List.perm_insertionSort _ _).trans
      (((h.filter f).map _).trans (List.perm_insertionSort _ _).symm)
  · exact List.sorted_insertionSort _ _
  · exact List.sorted_insertionSort _ _

/-- C6, code generation is insensitive to wire order: for every component list
and every two wire lists that are permutations of each other `generateCode`
gives the same text. -/
theorem generateCode_perm (components : List Component) (ws₁ ws₂ : List Wire)
    (h : ws₁.Perm ws₂) : generateCode components ws₁ = generateCode components ws₂ := by
  have hl : leds components ws₁ = leds components ws₂ := sorted_pins_eq_of_perm _ h
  have hb : btns components ws₁ = btns components ws₂ := sorted_pins_eq_of_perm _ h
  unfold generateCode
  rw [hl, hb]

/-- C6 on the sample graph: the wires in reverse insertion order give the same
text. -/
theorem generateCode_perm_witness :
    generateCode sampleComponents sampleWires = generateCode sampleComponents sampleWires.reverse :=
  generateCode_perm sampleComponents sampleWires sampleWires.reverse
    (List.reverse_perm sampleWires).symm

set_option maxRecDepth 100000

/-- C7 as stated fails: with one LED wire and no Button wire (controller, then
one LED) the generated text has no `digitalWrite(ledPin, state);`, neither in
the loop section nor anywhere else; and with no wires at all it has no
`// No output LEDs to drive.`. -/
theorem loop_led_branch_needs_button :
    (leds (run initState controllerThenLed).components
        (run initState controllerThenLed).wires).length = 1 ∧
    (btns (run initState controllerThenLed).components
        (run initState controllerThenLed).wires).length = 0 ∧
    ¬occursIn "digitalWrite(ledPin, state);"
        (loopSection
          (leds (run initState controllerThenLed).components
            (run initState controllerThenLed).wires)
          (btns (run initState controllerThenLed).components
            (run initState controllerThenLed).wires)) ∧
    ¬occursIn "digitalWrite(ledPin, state);" (run initState controllerThenLed).codeText ∧
    (leds initState.components initState.wires).length = 0 ∧
    ¬occursIn "// No output LEDs to drive." initState.codeText := by
  decide

/-- C7 amended: the button part of the loop section is chosen by the number of
Button-owned wires alone; the LED part is chosen by the number of LED-owned
wires whenever there is at least one Button-owned wire; with no Button-owned
wire the loop section is the placeholder `// No input buttons designated.` and
nothing else, whatever the number of LED-owned wires. -/
theorem loop_arity_branching (components : List Component) (wires : List Wire) :
    generateCode components wires =
      "// Generated Arduino Code\n\n" ++
      declSection (leds components wires) (btns components wires) ++
      "\nvoid setup() \x7b\n" ++
      setupSection (leds components wires) (btns components wires) ++
      "\x7d\n\nvoid loop() \x7b\n" ++
      loopSection (leds components wires) (btns components wires) ++ "\x7d\n" ∧
    ((btns components wires).length = 0 →
      loopSection (leds components wires) (btns components wires)
        = "  // No input buttons designated.\n") ∧
    (∀ ledPart : String,
      ((leds components wires).length = 0 ∧ ledPart = "  // No output LEDs to drive.\n") ∨
      ((leds components wires).length = 1 ∧ ledPart = "  digitalWrite(ledPin, state);\n") ∨
      (2 ≤ (leds components wires).length ∧ ledPart =
        "  for (int i = 0; i < ledCount; i++) \x7b\n    digitalWrite(ledPins[i], state);\n  \x7d\n") →
      ((btns components wires).length = 1 →
        loopSection (leds components wires) (btns components wires)
          = "  int state = digitalRead(buttonPin);\n" ++ ledPart) ∧
      (2 ≤ (btns components wires).length →
        loopSection (leds components wires) (btns components wires)
          = "  int state = 0;\n" ++
            "  for (int i = 0; i < buttonCount; i++) \x7b\n    if(digitalRead(buttonPins[i]) == HIGH) state = HIGH;\n  \x7d\n"
            ++ ledPart)) := by
  refine ⟨rfl, ?_, ?_⟩
  · intro hb
    rw [loopSection, if_pos hb]
  · intro ledPart hled
    have hpart : (if (leds components wires).length = 0 then "  // No output LEDs to drive.\n"
        else if (leds components wires).length = 1 then "  digitalWrite(ledPin, state);\n"
        else "  for (int i = 0; i < ledCount; i++) \x7b\n    digitalWrite(ledPins[i], state);\n  \x7d\n")
        = ledPart := by
      rcases hled with ⟨h, rfl⟩ | ⟨h, rfl⟩ | ⟨h, rfl⟩
      · rw [if_pos h]
      · rw [if_neg (by omega), if_pos h]
      · rw [if_neg (by omega), if_neg (by omega)]
    constructor
    · intro hb
      rw [loopSection, if_neg (by omega), if_pos hb, hpart]
    · intro hb
      rw [loopSection, if_neg (by omega), if_neg (by omega), hpart]

/-- C7 amended, on the sample graph (two LED wires, one Button wire): single
read, then the loop over the LED pins. -/
theorem loop_arity_branching_witness :
    loopSection (leds sampleComponents sampleWires) (btns sampleComponents sampleWires)
      = "  int state = digitalRead(buttonPin);\n" ++
        "  for (int i = 0; i < ledCount; i++) \x7b\n    digitalWrite(ledPins[i], state);\n  \x7d\n" :=
  ((loop_arity_branching sampleComponents sampleWires).2.2 _
    (Or.inr (Or.inr ⟨by decide, rfl⟩))).1 (by decide)

/-! ### Simulation (C8, C9) -/

theorem find_wire_isSome_iff (s : AppState) (id : Nat) (t : Terminal) :
    (∃ w, s.wires.find? (fun w => w.compId == id && w.terminal == t) = some w) ↔
      hasWire s id t := by
  unfold hasWire
  constructor
  · rintro ⟨w, hw⟩
    have := List.find?_some hw
    simp only [Bool.and_eq_true, beq_iff_eq] at this
    exact ⟨w, List.mem_of_find?_eq_some hw, this⟩
  · rintro ⟨w, hw, h1, h2⟩
    cases hf : s.wires.find? (fun w => w.compId == id && w.terminal == t) with
    | some v => exact ⟨v, rfl⟩
    | none =>
      have := List.find?_eq_none.mp hf w hw
      simp [h1, h2] at this

theorem find_wire_none_iff (s : AppState) (id : Nat) (t : Terminal) :
    s.wires.find? (fun w => w.compId == id && w.terminal == t) = none ↔ ¬hasWire s id t := by
  rw [← find_wire_isSome_iff]
  cases s.wires.find? (fun w => w.compId == id && w.terminal == t) <;> simp

/-- The flag after the loop over a list of components taken as buttons. -/
theorem foldl_buttonStep_snd (s : AppState) (bl : List Component) :
    ∀ acc : (Nat → Option Nat) × Nat,
      (bl.foldl (buttonStep s) acc).2 =
        if ∃ b ∈ bl, b.isPressed = true ∧ hasWire s b.id Terminal.t1 then 1 else acc.2 := by
  induction bl with
  | nil => intro acc; simp
  | cons b bl ih =>
    intro acc
    rw [List.foldl_cons, ih]
    by_cases hrest : ∃ b ∈ bl, b.isPressed = true ∧ hasWire s b.id Terminal.t1
    · rw [if_pos hrest, if_pos]
      obtain ⟨c, hc, h⟩ := hrest
      exact ⟨c, List.mem_cons_of_mem _ hc, h⟩
    · rw [if_neg hrest]
      by_cases hb : b.isPressed = true ∧ hasWire s b.id Terminal.t1
      · rw [if_pos ⟨b, List.mem_cons_self _ _, hb⟩]
        obtain ⟨w, hw⟩ := (find_wire_isSome_iff s b.id Terminal.t1).mpr hb.2
        simp [buttonStep, hb.1, hw]
      · have hno : ¬∃ c ∈ b :: bl, c.isPressed = true ∧ hasWire s c.id Terminal.t1 := by
          rintro ⟨c, hc, h⟩
          rcases List.mem_cons.mp hc with rfl | hc
          · exact hb h
          · exact hrest ⟨c, hc, h⟩
        rw [if_neg hno]
        unfold buttonStep
        by_cases hp : b.isPressed = true
        · have hw := (find_wire_none_iff s b.id Terminal.t1).mpr (fun h => hb ⟨hp, h⟩)
          simp [hp, hw]
        · simp [hp]

theorem readButtons_snd (s : AppState) (ps : Nat → Option Nat) :
    (readButtons s ps).2 = if pressedButtonWired s then 1 else 0 := by
  unfold readButtons
  rw [foldl_buttonStep_snd]
  have : (∃ b ∈ s.components.filter (fun c => c.type == CompType.button),
      b.isPressed = true ∧ hasWire s b.id Terminal.t1) ↔ pressedButtonWired s := by
    unfold pressedButtonWired
    constructor
    · rintro ⟨b, hb, h1, h2⟩
      rw [List.mem_filter] at hb
      exact ⟨b, hb.1, by simpa using hb.2, h1, h2⟩
    · rintro ⟨b, hb, h0, h1, h2⟩
      exact ⟨b, List.mem_filter.mpr ⟨hb, by simpa using h0⟩, h1, h2⟩
  simp only [this]

/-- A pin after the first loop over a list of components taken as LEDs. -/
theorem foldl_ledStep_apply (s : AppState) (g : Nat) (ll : List Component) (q : Nat) :
    ∀ ps : Nat → Option Nat,
      (ll.foldl (ledStep s g) ps) q =
        if ∃ led ∈ ll, ∃ w, s.wires.find?
            (fun w => w.compId == led.id && w.terminal == Terminal.anode) = some w ∧ w.pin = q
        then some g else ps q := by
  induction ll with
  | nil => intro ps; simp
  | cons c ll ih =>
    intro ps
    rw [List.foldl_cons, ih]
    by_cases hrest : ∃ led ∈ ll, ∃ w, s.wires.find?
        (fun w => w.compId == led.id && w.terminal == Terminal.anode) = some w ∧ w.pin = q
    · rw [if_pos hrest, if_pos]
      obtain ⟨d, hd, h⟩ := hrest
      exact ⟨d, List.mem_cons_of_mem _ hd, h⟩
    · rw [if_neg hrest]
      by_cases hc : ∃ w, s.wires.find?
          (fun w => w.compId == c.id && w.terminal == Terminal.anode) = some w ∧ w.pin = q
      · rw [if_pos ⟨c, List.mem_cons_self _ _, hc⟩]
        obtain ⟨w, hw, hq⟩ := hc
        simp [ledStep, hw, setPin, hq]
      · have hno : ¬∃ led ∈ c :: ll, ∃ w, s.wires.find?
            (fun w => w.compId == led.id && w.terminal == Terminal.anode) = some w ∧ w.pin = q := by
          rintro ⟨d, hd, h⟩
          rcases List.mem_cons.mp hd with rfl | hd
          · exact hc h
          · exact hrest ⟨d, hd, h⟩
        rw [if_neg hno]
        unfold ledStep
        cases hf : s.wires.find? (fun w => w.compId == c.id && w.terminal == Terminal.anode) with
        | none => rfl
        | some w =>
          have hne : q ≠ w.pin := fun h => hc ⟨w, hf, h.symm⟩
          simp [setPin, hne]

/-- After the first loop over the LEDs the pin of the anode wire found for a
placed LED carries the flag. -/
theorem driveLeds_at_led (s : AppState) (ps : Nat → Option Nat) (g : Nat) (c : Component)
    (hc : c ∈ s.components) (hty : c.type = CompType.led) (w : Wire)
    (hw : s.wires.find? (fun w => w.compId == c.id && w.terminal == Terminal.anode) = some w) :
    driveLeds s ps g w.pin = some g := by
  unfold driveLeds
  rw [foldl_ledStep_apply, if_pos]
  exact ⟨c, List.mem_filter.mpr ⟨hc, by simpa using hty⟩, w, hw, rfl⟩

theorem updateSimulation_of_running (s : AppState) (hrun : s.isSimulationRunning = true) :
    updateSimulation s =
      { s with
        pinStates := driveLeds s (readButtons s (resetPins s.pinStates)).1
          (readButtons s (resetPins s.pinStates)).2,
        components := showLeds s (driveLeds s (readButtons s (resetPins s.pinStates)).1
          (readButtons s (resetPins s.pinStates)).2) } := by
  unfold updateSimulation
  simp [hrun]

/-- C8, shared-bus simulation: for every state with the simulation running,
after `updateSimulation` a component of type led has its bulb on exactly when it
has an anode wire and some pressed Button has a t1 wire, nothing else of the
components changes, the wires are unchanged, and the pin of the anode wire the
script finds for a placed LED has signal 1 when some pressed Button has a t1
wire and signal 0 otherwise. -/
theorem shared_bus_simulation (s : AppState) (hrun : s.isSimulationRunning = true) :
    (∀ c ∈ (updateSimulation s).components, c.type = CompType.led →
      (c.bulbOn = true ↔ hasWire s c.id Terminal.anode ∧ pressedButtonWired s)) ∧
    (updateSimulation s).components = s.components.map (fun c =>
      if c.type = CompType.led then
        { c with bulbOn := decide (hasWire s c.id Terminal.anode ∧ pressedButtonWired s) }
      else c) ∧
    (updateSimulation s).wires = s.wires ∧
    (∀ c ∈ s.components, c.type = CompType.led → ∀ w : Wire,
      s.wires.find? (fun w => w.compId == c.id && w.terminal == Terminal.anode) = some w →
      (updateSimulation s).pinStates w.pin = some (if pressedButtonWired s then 1 else 0)) := by
  have hpin : ∀ c ∈ s.components, c.type = CompType.led → ∀ w : Wire,
      s.wires.find? (fun w => w.compId == c.id && w.terminal == Terminal.anode) = some w →
      driveLeds s (readButtons s (resetPins s.pinStates)).1
        (readButtons s (resetPins s.pinStates)).2 w.pin
        = some (if pressedButtonWired s then 1 else 0) := by
    intro c hc hty w hw
    rw [driveLeds_at_led s _ _ c hc hty w hw, readButtons_snd]
  have hmap : (updateSimulation s).components = s.components.map (fun c =>
      if c.type = CompType.led then
        { c with bulbOn := decide (hasWire s c.id Terminal.anode ∧ pressedButtonWired s) }
      else c) := by
    rw [updateSimulation_of_running s hrun]
    show showLeds s _ = _
    unfold showLeds
    apply List.map_congr_left
    intro c hc
    by_cases hty : c.type = CompType.led
    · simp only [hty, beq_self_eq_true, if_true]
      cases hf : s.wires.find? (fun w => w.compId == c.id && w.terminal == Terminal.anode) with
      | none =>
        have := (find_wire_none_iff s c.id Terminal.anode).mp hf
        simp [this]
      | some w =>
        have hw : hasWire s c.id Terminal.anode :=
          (find_wire_isSome_iff s c.id Terminal.anode).mp ⟨w, hf⟩
        simp only [hpin c hc hty w hf, hw, true_and]
        by_cases hp : pressedButtonWired s <;> simp [hp]
    · have : (c.type == CompType.led) = false := by simpa using hty
      simp [hty, this]
  refine ⟨?_, hmap, updateSimulation_wires s, ?_⟩
  · intro c hc hty
    rw [hmap, List.mem_map] at hc
    obtain ⟨d, _, hd⟩ := hc
    by_cases hdt : d.type = CompType.led
    · rw [if_pos hdt] at hd
      subst hd
      simp
    · rw [if_neg hdt] at hd
      subst hd
      exact absurd hty hdt
  · intro c hc hty w hw
    rw [updateSimulation_of_running s hrun]
    exact hpin c hc hty w hw

/-- C8 on the session of the claim (Button on pin 2, LED on pin 10, simulation
running): pressing the Button and ticking puts signal 1 on pin 10 and lights the
LED; releasing and ticking puts signal 0 on pin 10 and turns the LED off. -/
theorem shared_bus_simulation_witness :
    (run initState simSession).wires = [⟨2, Terminal.t1, 2⟩, ⟨3, Terminal.anode, 10⟩] ∧
    (updateSimulation (pressButton (run initState simSession) 2)).pinStates 10 = some 1 ∧
    (updateSimulation (pressButton (run initState simSession) 2)).components.map
      (fun c => c.bulbOn) = [false, false, true] ∧
    (updateSimulation (releaseButtons
      (updateSimulation (pressButton (run initState simSession) 2)))).pinStates 10 = some 0 ∧
    (updateSimulation (releaseButtons
      (updateSimulation (pressButton (run initState simSession) 2)))).components.map
      (fun c => c.bulbOn) = [false, false, false] ∧
    (run initState (simSession ++
      [Event.mousedown (Target.component 2 true) 0 0, Event.mouseup])).components.map
      (fun c => c.bulbOn) = [false, false, false] :=
  ⟨by decide,
   ((shared_bus_simulation (pressButton (run initState simSession) 2) (by decide)).2.2.2
      ⟨3, CompType.led, 200, 40, false, false⟩ (by decide) rfl ⟨3, Terminal.anode, 10⟩
      (by decide)).trans (by decide),
   by decide,
   ((shared_bus_simulation
      (releaseButtons (updateSimulation (pressButton (run initState simSession) 2)))
      (by decide)).2.2.2
      ⟨3, CompType.led, 200, 40, false, true⟩ (by decide) rfl ⟨3, Terminal.anode, 10⟩
      (by decide)).trans (by decide),
   by decide, by decide⟩

/-- C9 as stated fails: with the simulation running (controller, Button on pin
2, LED on pin 10) a click on the LED's anode sets the pending connection, a pin
release over pin 5 then moves the LED's wire to pin 5, and Escape clears a
pending connection. -/
theorem wiring_not_suppressed_in_simulation :
    (run initState simSession).isSimulationRunning = true ∧
    (run initState simSession).pendingConnection = none ∧
    (run initState simSession).wires = [⟨2, Terminal.t1, 2⟩, ⟨3, Terminal.anode, 10⟩] ∧
    (step (run initState simSession)
      (Event.terminalClick 3 Terminal.anode)).pendingConnection = some (3, Terminal.anode) ∧
    (step (run initState simSession)
      (Event.terminalClick 3 Terminal.anode)).isSimulationRunning = true ∧
    (step (step (run initState simSession) (Event.terminalClick 3 Terminal.anode))
      (Event.pinMouseup 5)).wires = [⟨2, Terminal.t1, 2⟩, ⟨3, Terminal.anode, 5⟩] ∧
    (step (step (run initState simSession) (Event.terminalClick 3 Terminal.anode))
      (Event.pinMouseup 5)).pendingConnection = none ∧
    (step (step (run initState simSession) (Event.terminalClick 3 Terminal.anode))
      (Event.keydown "Escape")).pendingConnection = none := by
  decide

/-- C9 amended: with the simulation running the drag-start listener changes
nothing; a terminal click and a key press leave the wire list unchanged, and a
pin release with no connection pending changes nothing; but the three wiring
listeners do not read the simulation flag: each acts on a running state exactly
as on the same state with the flag off. -/
theorem simulation_suppresses_dragging_only (s : AppState)
    (hrun : s.isSimulationRunning = true) :
    (∀ (target : Target) (offX offY : Int), onDragStart s target offX offY = s) ∧
    (∀ (compId : Nat) (termName : Terminal),
      (step s (Event.terminalClick compId termName)).wires = s.wires) ∧
    (∀ key : String, (step s (Event.keydown key)).wires = s.wires) ∧
    (∀ pin : Nat, s.pendingConnection = none → step s (Event.pinMouseup pin) = s) ∧
    (∀ e : Event,
      (∃ compId termName, e = Event.terminalClick compId termName) ∨
      (∃ pin, e = Event.pinMouseup pin) ∨ (∃ key, e = Event.keydown key) →
      step s e =
        { step { s with isSimulationRunning := false } e with isSimulationRunning := true }) := by
  refine ⟨?_, ?_, ?_, ?_, ?_⟩
  · intro target offX offY
    unfold onDragStart
    rw [if_pos hrun]
  · intro compId termName
    show (onTerminalClick s compId termName).wires = s.wires
    unfold onTerminalClick
    split
    · rfl
    · split
      · rfl
      · split
        · rfl
        · unfold startWiring
          split <;> rfl
  · intro key
    show (onKeydown s key).wires = s.wires
    unfold onKeydown
    split <;> rfl
  · intro pin hp
    show onPinMouseup s pin = s
    unfold onPinMouseup
    rw [hp]
  · have hs : s = { s with isSimulationRunning := true } := by rw [← hrun]
    rintro e (⟨compId, termName, rfl⟩ | ⟨pin, rfl⟩ | ⟨key, rfl⟩)
    · show onTerminalClick s compId termName = { onTerminalClick _ compId termName with
        isSimulationRunning := true }
      unfold onTerminalClick
      simp only
      split
      · exact hs
      · split
        · exact hs
        · split
          · exact hs
          · unfold startWiring
            simp only
            split
            · rw [← hrun]
            · rw [← hrun]
    · show onPinMouseup s pin = { onPinMouseup _ pin with isSimulationRunning := true }
      unfold onPinMouseup
      simp only
      split
      · unfold completeConnection showCode
        simp only
        rw [← hrun]
      · exact hs
    · show onKeydown s key = { onKeydown _ key with isSimulationRunning := true }
      unfold onKeydown
      simp only
      split
      · rw [← hrun]
      · exact hs

/-- C9 amended, on a running session: a mousedown on the LED starts no drag. -/
theorem simulation_suppresses_dragging_only_witness :
    (run initState simSession).isSimulationRunning = true ∧
    onDragStart (run initState simSession) (Target.component 3 false) 5 5
      = run initState simSession :=
  ⟨by decide,
   (simulation_suppresses_dragging_only (run initState simSession) (by decide)).1
     (Target.component 3 false) 5 5⟩

/-! ### Late controller (C10) -/

theorem isPinFree_eq_decide (s : AppState) (p : Nat) :
    isPinFree s p = decide (∀ w ∈ s.wires, w.pin ≠ p) := by
  cases h : isPinFree s p
  · symm
    rw [decide_eq_false_iff_not, ← isPinFree_iff, h]
    simp
  · symm
    rw [decide_eq_true_iff, ← isPinFree_iff, h]

/-- With a controller placed, `autoWireComponent` changes the wire list as the
policy of the specification says. -/
theorem autoWireComponent_wires_eq_autoAssign (s : AppState) (c : Component)
    (hctl : hasController s) : (autoWireComponent s c).wires = autoAssign s.wires c := by
  unfold autoAssign
  cases hterm : TERMINALS c.type with
  | none =>
    rcases autoWireComponent_cases s c with h | ⟨term, _, hterm', _⟩
    · rw [h]
    · rw [hterm] at hterm'; cases hterm'
  | some term =>
    simp only
    by_cases hex : ∃ w ∈ s.wires, w.compId = c.id ∧ w.terminal = term
    · rw [if_pos hex]
      rcases autoWireComponent_cases s c with h | ⟨term', _, hterm', hnot, _⟩
      · rw [h]
      · rw [hterm] at hterm'
        cases hterm'
        obtain ⟨w, hw, hcw⟩ := hex
        exact absurd hcw (hnot w hw)
    · rw [if_neg hex]
      have hnone : ∀ w ∈ s.wires, ¬(w.compId = c.id ∧ w.terminal = term) :=
        fun w hw hcw => hex ⟨w, hw, hcw⟩
      rw [autoWireComponent_eq_of_guards s c term hctl hterm hnone]
      have hfun : (fun p => isPinFree s p) = (fun p => decide (∀ w ∈ s.wires, w.pin ≠ p)) :=
        funext (isPinFree_eq_decide s)
      rw [hfun]
      by_cases hfree : ∀ w ∈ s.wires,
          w.pin ≠ (if c.type = CompType.led then PREF_LED_PIN else PREF_BTN_PIN)
      · rw [if_pos hfree, if_pos ((isPinFree_iff s _).mpr hfree)]
        rfl
      · rw [if_neg hfree, if_neg (fun h => hfree ((isPinFree_iff s _).mp h))]
        cases ARDUINO_PINS.find? (fun p => decide (∀ w ∈ s.wires, w.pin ≠ p)) <;> rfl

theorem autoAssign_of_arduino (ws : List Wire) (c : Component)
    (h : c.type = CompType.arduino) : autoAssign ws c = ws := by
  unfold autoAssign
  rw [h]
  rfl

/-- The loop of `addComponent` over a list of components, on the wire list. -/
theorem autoWireAll_wires (l : List Component) :
    ∀ s : AppState, hasController s →
      (autoWireAll s l).wires = l.foldl autoAssign s.wires := by
  induction l with
  | nil => intro s _; rfl
  | cons c l ih =>
    intro s hctl
    rw [autoWireAll_cons, List.foldl_cons]
    by_cases hty : c.type ≠ CompType.arduino
    · rw [if_pos hty]
      have hctl' : hasController (autoWireComponent s c) := by
        unfold hasController
        rw [(autoWireComponent_frame s c).1]
        exact hctl
      rw [ih _ hctl', autoWireComponent_wires_eq_autoAssign s c hctl]
    · rw [if_neg hty, ih s hctl, autoAssign_of_arduino _ _ (not_not.mp hty)]

/-- Fewer than twelve wires leave one of the twelve pins free. -/
theorem free_pin_exists (ws : List Wire) (h : ws.length < 12) :
    ∃ p ∈ ARDUINO_PINS, ∀ w ∈ ws, w.pin ≠ p := by
  by_contra hno
  have hsub : ARDUINO_PINS ⊆ ws.map (fun w => w.pin) := by
    intro p hp
    by_contra hnot
    apply hno
    refine ⟨p, hp, ?_⟩
    intro w hw heq
    exact hnot (List.mem_map.mpr ⟨w, hw, heq⟩)
  have hnd : ARDUINO_PINS.Nodup := by decide
  have := (List.subperm_of_subset hnd hsub).length_le
  rw [List.length_map] at this
  have h12 : ARDUINO_PINS.length = 12 := rfl
  omega

theorem autoAssign_cases (ws : List Wire) (c : Component) :
    autoAssign ws c = ws ∨
    ∃ term p, TERMINALS c.type = some term ∧ p ∈ ARDUINO_PINS ∧
      autoAssign ws c = ws ++ [⟨c.id, term, p⟩] := by
  unfold autoAssign
  cases hterm : TERMINALS c.type with
  | none => exact Or.inl rfl
  | some term =>
    simp only
    have hmem : (if c.type = CompType.led then PREF_LED_PIN else PREF_BTN_PIN) ∈ ARDUINO_PINS := by
      by_cases h : c.type = CompType.led
      · rw [if_pos h]; decide
      · rw [if_neg h]; decide
    generalize (if c.type = CompType.led then PREF_LED_PIN else PREF_BTN_PIN) = d at hmem
    by_cases hex : ∃ w ∈ ws, w.compId = c.id ∧ w.terminal = term
    · rw [if_pos hex]; exact Or.inl rfl
    · rw [if_neg hex]
      by_cases hfree : ∀ w ∈ ws, w.pin ≠ d
      · rw [if_pos hfree]
        exact Or.inr ⟨term, d, rfl, hmem, rfl⟩
      · rw [if_neg hfree]
        cases hf : ARDUINO_PINS.find? (fun p => decide (∀ w ∈ ws, w.pin ≠ p)) with
        | none => exact Or.inl rfl
        | some p => exact Or.inr ⟨term, p, rfl, List.mem_of_find?_eq_some hf, rfl⟩

/-- With fewer than twelve wires the policy leaves the component wired. -/
theorem autoAssign_wired (ws : List Wire) (c : Component) (term : Terminal)
    (hterm : TERMINALS c.type = some term) (hlen : ws.length < 12) :
    ∃ w ∈ autoAssign ws c, w.compId = c.id ∧ w.terminal = term := by
  unfold autoAssign
  simp only [hterm]
  generalize (if c.type = CompType.led then PREF_LED_PIN else PREF_BTN_PIN) = d
  by_cases hex : ∃ w ∈ ws, w.compId = c.id ∧ w.terminal = term
  · rw [if_pos hex]; exact hex
  · rw [if_neg hex]
    by_cases hfree : ∀ w ∈ ws, w.pin ≠ d
    · rw [if_pos hfree]
      exact ⟨_, List.mem_append_right _ (List.mem_singleton_self _), rfl, rfl⟩
    · rw [if_neg hfree]
      cases hf : ARDUINO_PINS.find? (fun p => decide (∀ w ∈ ws, w.pin ≠ p)) with
      | none =>
        obtain ⟨p, hp, hfreep⟩ := free_pin_exists ws hlen
        have := List.find?_eq_none.mp hf p hp
        simp only [decide_eq_true_eq] at this
        exact absurd hfreep this
      | some p => exact ⟨_, List.mem_append_right _ (List.mem_singleton_self _), rfl, rfl⟩

/-- The policy applied to a list of components: earlier wires stay, at most one
wire per LED or Button is added, and while the total stays within twelve every
component with a default terminal ends with a wire on it. -/
theorem foldl_autoAssign (l : List Component) :
    ∀ ws : List Wire,
      ws.length + (l.filter (fun c => c.type == CompType.led || c.type == CompType.button)).length
        ≤ 12 →
      (∀ w ∈ ws, w ∈ l.foldl autoAssign ws) ∧
      (∀ c ∈ l, ∀ term, TERMINALS c.type = some term →
        ∃ w ∈ l.foldl autoAssign ws, w.compId = c.id ∧ w.terminal = term) := by
  induction l with
  | nil => intro ws _; exact ⟨fun w hw => hw, fun c hc => absurd hc (List.not_mem_nil c)⟩
  | cons c l ih =>
    intro ws hlen
    rw [List.foldl_cons]
    have hstep : (∀ w ∈ ws, w ∈ autoAssign ws c) ∧
        (autoAssign ws c).length ≤ ws.length +
          (if (c.type == CompType.led || c.type == CompType.button) = true then 1 else 0) := by
      rcases autoAssign_cases ws c with h | ⟨term, p, hterm, _, h⟩
      · rw [h]; exact ⟨fun w hw => hw, Nat.le_add_right _ _⟩
      · rw [h]
        refine ⟨fun w hw => List.mem_append_left _ hw, ?_⟩
        have : (c.type == CompType.led || c.type == CompType.button) = true := by
          cases hc : c.type <;> rw [hc] at hterm <;> first | rfl | cases hterm
        rw [if_pos this]
        simp
    have hlen' : (autoAssign ws c).length +
        (l.filter (fun c => c.type == CompType.led || c.type == CompType.button)).length ≤ 12 := by
      rw [List.filter_cons] at hlen
      split at hlen
      · rename_i hc
        rw [if_pos hc] at hstep
        simp only [List.length_cons] at hlen
        omega
      · rename_i hc
        rw [if_neg hc] at hstep
        omega
    obtain ⟨ihsub, ihw⟩ := ih (autoAssign ws c) hlen'
    refine ⟨fun w hw => ihsub w (hstep.1 w hw), ?_⟩
    intro d hd term hterm
    rcases List.mem_cons.mp hd with rfl | hd
    · have hlt : ws.length < 12 := by
        have : (d.type == CompType.led || d.type == CompType.button) = true := by
          cases hc : d.type <;> rw [hc] at hterm <;> first | rfl | cases hterm
        rw [List.filter_cons, if_pos this] at hlen
        simp only [List.length_cons] at hlen
        omega
      obtain ⟨w, hw, h⟩ := autoAssign_wired ws d term hterm hlt
      exact ⟨w, ihsub w hw, h⟩
    · exact ihw d hd term hterm

theorem addComponent_arduino_of_no_controller (s : AppState) (x y : Int)
    (h : ¬hasController s) :
    addComponent s CompType.arduino x y =
      showCode (autoWireAll (pushComponent s CompType.arduino x y)
        (s.components ++ [⟨s.nextId, CompType.arduino, x, y, false, false⟩])) := by
  unfold addComponent
  rw [if_neg (fun hc => h ((hasController_iff_any s).mpr hc.2))]
  simp only [ne_eq, not_true_eq_false, if_false]
  rfl

/-- Without a controller no state the listeners reach has a wire. -/
theorem GraphInv.no_wires_of_no_controller {s : AppState} (h : GraphInv s)
    (hc : ¬hasController s) : s.wires = [] := by
  by_contra hne
  obtain ⟨i, hi⟩ := h.wires_controller hne
  obtain ⟨a, ha, _, hat⟩ := mem_skeleton_iff.mp hi
  exact hc ⟨a, ha, hat⟩

/-- C10, auto-wiring waits for the controller and then runs for everything: for
every state without a controller, adding a component that is not the controller
adds no wire; adding the controller leaves the wire list the auto-assign policy
gives when applied to the placed components in placement order; and in every
reachable state without a controller that has at most twelve LEDs and Buttons,
adding the controller leaves every LED with a wire on its anode and every
Button with a wire on its t1. -/
theorem late_controller_wires_everything :
    (∀ (s : AppState) (ty : CompType) (x y : Int), ¬hasController s → ty ≠ CompType.arduino →
      (addComponent s ty x y).wires = s.wires) ∧
    (∀ (s : AppState) (x y : Int), ¬hasController s →
      (addComponent s CompType.arduino x y).wires = s.components.foldl autoAssign s.wires) ∧
    (∀ (s : AppState) (x y : Int), Reachable s → ¬hasController s →
      (s.components.filter
        (fun c => c.type == CompType.led || c.type == CompType.button)).length ≤ 12 →
      ∀ c ∈ s.components, ∀ term, TERMINALS c.type = some term →
        hasWire (addComponent s CompType.arduino x y) c.id term) := by
  have hb : ∀ (s : AppState) (x y : Int), ¬hasController s →
      (addComponent s CompType.arduino x y).wires = s.components.foldl autoAssign s.wires := by
    intro s x y hc
    rw [addComponent_arduino_of_no_controller s x y hc, showCode_wires, autoWireAll_wires]
    · rw [List.foldl_append, List.foldl_cons, List.foldl_nil, autoAssign_of_arduino _ _ rfl]
      rfl
    · exact ⟨⟨s.nextId, CompType.arduino, x, y, false, false⟩,
        List.mem_append_right _ (List.mem_singleton_self _), rfl⟩
  refine ⟨?_, hb, ?_⟩
  · intro s ty x y hc hty
    by_cases hother : ty = CompType.other
    · subst hother
      rw [addComponent_other]
    rw [addComponent_of_ne_arduino s ty x y hty hother, showCode_wires,
      autoWireComponent_no_controller]
    · rfl
    · rintro ⟨a, ha, hat⟩
      rcases List.mem_append.mp ha with ha | ha
      · exact hc ⟨a, ha, hat⟩
      · rw [List.mem_singleton] at ha
        subst ha
        exact hty hat
  · intro s x y hr hc hlen c hmem term hterm
    have hw := hr.graphInv.no_wires_of_no_controller hc
    unfold hasWire
    rw [hb s x y hc, hw]
    exact (foldl_autoAssign s.components [] (by simpa using hlen)).2 c hmem term hterm

/-- C10 on the session of the claim: LED, Button, then the controller gives the
LED pin 10 and the Button pin 2. -/
theorem late_controller_wires_everything_witness :
    (run initState partsFirst).wires = [] ∧
    (addComponent (run initState partsFirst) CompType.arduino 0 0).wires
      = [⟨1, Terminal.anode, 10⟩, ⟨2, Terminal.t1, 2⟩] ∧
    hasWire (addComponent (run initState partsFirst) CompType.arduino 0 0) 2 Terminal.t1 :=
  ⟨by decide, by decide,
   late_controller_wires_everything.2.2 (run initState partsFirst) 0 0
     (reachable_run _ _ Reachable.init) (by decide) (by decide)
     ⟨2, CompType.button, 200, 40, false, false⟩ (by decide) Terminal.t1 rfl⟩

/-! ### Wiring session (C12) -/

/-- C12, wiring-session transitions: for every state, `startWiring(c, t)` with
no controller only raises the notice (pending connection and graph unchanged);
with a controller it only sets the pending connection to `(c, t)`, whatever it
was before; Escape with a connection pending only clears it; a click on a
cathode or on a `t2` leg changes nothing; and a click on the default terminal of
a placed LED or Button is `startWiring` for that component. -/
theorem wiring_session_transitions (s : AppState) :
    (∀ (c : Nat) (t : Terminal), ¬hasController s →
      startWiring s c t =
        { s with alerts := s.alerts ++ ["Please place an Arduino on the canvas first."] }) ∧
    (∀ (c : Nat) (t : Terminal), hasController s →
      startWiring s c t = { s with pendingConnection := some (c, t) }) ∧
    (∀ pc : Nat × Terminal, s.pendingConnection = some pc →
      step s (Event.keydown "Escape") = { s with pendingConnection := none }) ∧
    (∀ compId : Nat, step s (Event.terminalClick compId Terminal.cathode) = s ∧
      step s (Event.terminalClick compId Terminal.t2) = s) ∧
    (∀ (comp : Component) (t : Terminal),
      s.components.find? (fun c => c.id == comp.id) = some comp →
      TERMINALS comp.type = some t →
      step s (Event.terminalClick comp.id t) = startWiring s comp.id t) := by
  refine ⟨?_, ?_, ?_, ?_, ?_⟩
  · intro c t h
    unfold startWiring
    rw [find_controller_none h]
  · intro c t h
    obtain ⟨a, ha⟩ := find_controller_isSome h
    unfold startWiring
    rw [ha]
  · intro pc hpc
    show onKeydown s "Escape" = _
    unfold onKeydown
    rw [if_pos ⟨rfl, by rw [hpc]; rfl⟩]
  · intro compId
    constructor
    · show onTerminalClick s compId Terminal.cathode = s
      unfold onTerminalClick
      split
      · rfl
      · rename_i comp _
        cases hty : comp.type <;> simp [TERMINALS]
    · show onTerminalClick s compId Terminal.t2 = s
      unfold onTerminalClick
      split
      · rfl
      · rename_i comp _
        cases hty : comp.type <;> simp [TERMINALS]
  · intro comp t hfind hterm
    show onTerminalClick s comp.id t = _
    unfold onTerminalClick
    rw [hfind]
    have hne : comp.type ≠ CompType.arduino := by
      intro h; rw [h] at hterm; cases hterm
    simp only [if_neg hne, hterm, ne_eq, not_true_eq_false, if_false]

/-- C12 on two states: with a controller and an LED placed, `startWiring` sets
the pending connection and keeps the wire; with nothing placed it raises the
notice and the pending connection stays none. -/
theorem wiring_session_transitions_witness :
    (startWiring (run initState controllerThenLed) 2 Terminal.anode).pendingConnection
      = some (2, Terminal.anode) ∧
    (startWiring (run initState controllerThenLed) 2 Terminal.anode).wires
      = [⟨2, Terminal.anode, 10⟩] ∧
    (startWiring initState 2 Terminal.anode).pendingConnection = none ∧
    (startWiring initState 2 Terminal.anode).alerts
      = ["Please place an Arduino on the canvas first."] :=
  ⟨congrArg AppState.pendingConnection
      ((wiring_session_transitions (run initState controllerThenLed)).2.1 2 Terminal.anode
        (by decide)),
   by decide,
   congrArg AppState.pendingConnection
      ((wiring_session_transitions initState).1 2 Terminal.anode (by decide)),
   by decide⟩

/-! ### Stopping the simulation (C13) -/

/-- C13, stopping clears everything: for every state, after the stop listener
the simulation is not running, every component has `isPressed = false` and its
bulb off, every component keeps its id, type and position, and the wire list,
`nextId` and the pending connection are unchanged. -/
theorem stop_clears_everything (s : AppState) :
    (onStop s).isSimulationRunning = false ∧
    (∀ c ∈ (onStop s).components, c.isPressed = false ∧ c.bulbOn = false) ∧
    (onStop s).components =
      s.components.map (fun c => { c with bulbOn := false, isPressed := false }) ∧
    (onStop s).components.map (fun c => (c.id, c.type, c.x, c.y)) =
      s.components.map (fun c => (c.id, c.type, c.x, c.y)) ∧
    (onStop s).wires = s.wires ∧ (onStop s).nextId = s.nextId ∧
    (onStop s).pendingConnection = s.pendingConnection := by
  refine ⟨rfl, ?_, rfl, ?_, rfl, rfl, rfl⟩
  · intro c hc
    have : c ∈ s.components.map (fun c => { c with bulbOn := false, isPressed := false }) := hc
    obtain ⟨d, _, rfl⟩ := List.mem_map.mp this
    exact ⟨rfl, rfl⟩
  · show (s.components.map _).map _ = _
    rw [List.map_map]
    rfl

/-! ### The two worked examples (C14, C15) -/

set_option maxRecDepth 1000000

/-- C14, controller then one LED: from the initial state, placing the
controller and then an LED leaves the single wire `(2, anode, 10)`, the LED
having id 2, and the code panel shows exactly the text of the claim. -/
theorem example_controller_then_led :
    (run initState controllerThenLed).components.map (fun c => (c.id, c.type))
      = [(1, CompType.arduino), (2, CompType.led)] ∧
    (run initState controllerThenLed).wires = [⟨2, Terminal.anode, 10⟩] ∧
    (run initState controllerThenLed).codeText =
      "// Generated Arduino Code\n\nint ledPin = 10;\n\nvoid setup() \x7b\n  pinMode(ledPin, OUTPUT);\n\x7d\n\nvoid loop() \x7b\n  // No input buttons designated.\n\x7d\n" ∧
    generateCode (run initState controllerThenLed).components
        (run initState controllerThenLed).wires
      = (run initState controllerThenLed).codeText ∧
    (addComponent (addComponent initState CompType.arduino 0 0) CompType.led 100 40).wires
      = [⟨2, Terminal.anode, 10⟩] ∧
    (addComponent (addComponent initState CompType.arduino 0 0) CompType.led 100 40).codeText
      = (run initState controllerThenLed).codeText := by
  decide

/-- C15, controller then two Buttons: from the initial state, placing the
controller and then two Buttons wires the first Button's `t1` to pin 2 and the
second Button's `t1` to pin 3, and the generated text has the lines
`int buttonPins[] = { 2, 3 };` and `int buttonCount = 2;`. -/
theorem example_controller_then_two_buttons :
    (run initState controllerThenTwoButtons).components.map (fun c => (c.id, c.type))
      = [(1, CompType.arduino), (2, CompType.button), (3, CompType.button)] ∧
    (run initState controllerThenTwoButtons).wires
      = [⟨2, Terminal.t1, 2⟩, ⟨3, Terminal.t1, 3⟩] ∧
    occursIn "\nint buttonPins[] = \x7b 2, 3 \x7d;\n"
      (run initState controllerThenTwoButtons).codeText ∧
    occursIn "\nint buttonCount = 2;\n" (run initState controllerThenTwoButtons).codeText ∧
    (run initState controllerThenTwoButtons).codeText =
      "// Generated Arduino Code\n\nint buttonPins[] = \x7b 2, 3 \x7d;\nint buttonCount = 2;\n\nvoid setup() \x7b\n  for (int i = 0; i < buttonCount; i++) \x7b\n    pinMode(buttonPins[i], INPUT);\n  \x7d\n\x7d\n\nvoid loop() \x7b\n  int state = 0;\n  for (int i = 0; i < buttonCount; i++) \x7b\n    if(digitalRead(buttonPins[i]) == HIGH) state = HIGH;\n  \x7d\n  // No output LEDs to drive.\n\x7d\n" := by
  decide

/-! ### Positions (C16) -/

/-- The type of the component `find` returns for an id is read off the skeleton. -/
theorem find_owner_type (cs : List Component) (k : Nat) :
    (cs.find? (fun x => x.id == k)).map (fun c => c.type) =
      ((skeleton cs).find? (fun q => q.1 == k)).map Prod.snd := by
  induction cs with
  | nil => rfl
  | cons c cs ih =>
    have hsk : skeleton (c :: cs) = (c.id, c.type) :: skeleton cs := rfl
    rw [hsk, List.find?_cons, List.find?_cons]
    by_cases h : c.id = k
    · simp [h]
    · have hb : (c.id == k) = false := by simpa using h
      simp only [hb]
      exact ih

theorem owner_test_eq (cs : List Component) (ty : CompType) (w : Wire) :
    (match cs.find? (fun x => x.id == w.compId) with
      | some c => c.type == ty
      | none => false) =
    (((skeleton cs).find? (fun q => q.1 == w.compId)).map Prod.snd == some ty) := by
  rw [← find_owner_type]
  cases cs.find? (fun x => x.id == w.compId) with
  | none => rfl
  | some c => by_cases h : c.type = ty <;> simp [h]

theorem leds_eq_of_skeleton {cs₁ cs₂ : List Component} (h : skeleton cs₁ = skeleton cs₂)
    (ws : List Wire) : leds cs₁ ws = leds cs₂ ws := by
  unfold leds
  have : (fun w : Wire => match cs₁.find? (fun x => x.id == w.compId) with
      | some c => c.type == CompType.led
      | none => false) =
      (fun w : Wire => match cs₂.find? (fun x => x.id == w.compId) with
      | some c => c.type == CompType.led
      | none => false) := by
    funext w
    rw [owner_test_eq, owner_test_eq, h]
  rw [this]

theorem btns_eq_of_skeleton {cs₁ cs₂ : List Component} (h : skeleton cs₁ = skeleton cs₂)
    (ws : List Wire) : btns cs₁ ws = btns cs₂ ws := by
  unfold btns
  have : (fun w : Wire => match cs₁.find? (fun x => x.id == w.compId) with
      | some c => c.type == CompType.button
      | none => false) =
      (fun w : Wire => match cs₂.find? (fun x => x.id == w.compId) with
      | some c => c.type == CompType.button
      | none => false) := by
    funext w
    rw [owner_test_eq, owner_test_eq, h]
  rw [this]

theorem generateCode_eq_of_skeleton {cs₁ cs₂ : List Component}
    (h : skeleton cs₁ = skeleton cs₂) (ws : List Wire) :
    generateCode cs₁ ws = generateCode cs₂ ws := by
  unfold generateCode
  rw [leds_eq_of_skeleton h, btns_eq_of_skeleton h]

/-- C16, positions do not affect topology or code: two component lists with the
same ids and types in the same order (so in particular two that differ only in
positions) give the same generated text for every wire list; and for every
state the drag-move listener leaves wires, `nextId`, the pending connection,
the number of components and all ids and types as they were, changes nothing
at all when no canvas drag is in progress, and otherwise changes only the
dragged component, of which it sets `x` and `y` to the pointer position minus
the grab offset, clamped below by 0 and above by the extent minus 50, and to 0
when the extent is below 50. -/
theorem positions_do_not_affect_topology :
    (∀ (cs₁ cs₂ : List Component) (ws : List Wire),
      cs₁.map (fun c => (c.id, c.type)) = cs₂.map (fun c => (c.id, c.type)) →
      generateCode cs₁ ws = generateCode cs₂ ws) ∧
    (∀ (s : AppState) (px py width height : Int),
      (step s (Event.mousemove px py width height)).wires = s.wires ∧
      (step s (Event.mousemove px py width height)).nextId = s.nextId ∧
      (step s (Event.mousemove px py width height)).pendingConnection = s.pendingConnection ∧
      (step s (Event.mousemove px py width height)).components.length = s.components.length ∧
      (step s (Event.mousemove px py width height)).components.map (fun c => (c.id, c.type))
        = s.components.map (fun c => (c.id, c.type)) ∧
      generateCode (step s (Event.mousemove px py width height)).components
          (step s (Event.mousemove px py width height)).wires
        = generateCode s.components s.wires ∧
      (¬(s.dragSource = some DragSource.canvas ∧ s.draggedItem.isSome) →
        step s (Event.mousemove px py width height) = s) ∧
      (∀ i : Nat, s.dragSource = some DragSource.canvas → s.draggedItem = some i →
        ∃ X Y : Int,
          X = max 0 (min (px - s.dragOffset.1) (width - 50)) ∧
          Y = max 0 (min (py - s.dragOffset.2) (height - 50)) ∧
          0 ≤ X ∧ 0 ≤ Y ∧ (50 ≤ width → X ≤ width - 50) ∧ (50 ≤ height → Y ≤ height - 50) ∧
          (width < 50 → X = 0) ∧ (height < 50 → Y = 0) ∧
          (0 ≤ px - s.dragOffset.1 → px - s.dragOffset.1 ≤ width - 50 →
            X = px - s.dragOffset.1) ∧
          (0 ≤ py - s.dragOffset.2 → py - s.dragOffset.2 ≤ height - 50 →
            Y = py - s.dragOffset.2) ∧
          (∀ j : Nat, j ≠ i →
            (step s (Event.mousemove px py width height)).components[j]? = s.components[j]?) ∧
          (step s (Event.mousemove px py width height)).components[i]?
            = (s.components[i]?).map (fun c => { c with x := X, y := Y }))) := by
  refine ⟨fun cs₁ cs₂ ws h => generateCode_eq_of_skeleton h ws, ?_⟩
  intro s px py width height
  have hg := onMousemove_graph s px py width height
  have hstep : step s (Event.mousemove px py width height) = onMousemove s px py width height :=
    rfl
  rw [hstep]
  refine ⟨hg.2.1, hg.2.2.1, hg.2.2.2, ?_, hg.1, ?_, ?_, ?_⟩
  · have := congrArg List.length hg.1
    simpa [skeleton] using this
  · rw [hg.2.1]
    exact generateCode_eq_of_skeleton hg.1 _
  · intro hno
    unfold onMousemove
    split
    · rename_i i h1 h2
      exact absurd ⟨h1, by rw [h2]; rfl⟩ hno
    · rfl
  · intro i h1 h2
    have hcomp : (onMousemove s px py width height).components =
        s.components.modify (fun c => { c with
          x := max 0 (min (px - s.dragOffset.1) (width - 50)),
          y := max 0 (min (py - s.dragOffset.2) (height - 50)) }) i := by
      unfold onMousemove
      rw [h1, h2]
    refine ⟨_, _, rfl, rfl, le_max_left _ _, le_max_left _ _, ?_, ?_, ?_, ?_, ?_, ?_, ?_, ?_⟩
    · intro hw
      exact max_le (by omega) (min_le_right _ _)
    · intro hw
      exact max_le (by omega) (min_le_right _ _)
    · intro hw
      apply max_eq_left
      exact le_trans (min_le_right _ _) (by omega)
    · intro hw
      apply max_eq_left
      exact le_trans (min_le_right _ _) (by omega)
    · intro h0 h50
      rw [min_eq_left h50, max_eq_right h0]
    · intro h0 h50
      rw [min_eq_left h50, max_eq_right h0]
    · intro j hj
      rw [hcomp, List.getElem?_modify_ne _ _ (fun h => hj h.symm)]
    · rw [hcomp, List.getElem?_modify_eq]
      rfl

/-- C16 on a session: the grabbed LED, moved with the pointer far to the lower
right of an 800 by 600 canvas, lands at `(750, 550)`; the controller stays where
it was and the code panel text is unchanged. -/
theorem positions_do_not_affect_topology_witness :
    (step (run initState grabLedSession) (Event.mousemove 2000 3000 800 600)).components
      = [⟨1, CompType.arduino, 0, 0, false, false⟩, ⟨2, CompType.led, 750, 550, false, false⟩] ∧
    generateCode
        (step (run initState grabLedSession) (Event.mousemove 2000 3000 800 600)).components
        (step (run initState grabLedSession) (Event.mousemove 2000 3000 800 600)).wires
      = generateCode (run initState grabLedSession).components
          (run initState grabLedSession).wires :=
  ⟨by decide,
   (positions_do_not_affect_topology.2 (run initState grabLedSession) 2000 3000 800 600).2.2.2.2.2.1⟩

/-! ### Ids (C18) -/

theorem hasController_of_any {s : AppState}
    (h : s.components.any (fun c => c.type == CompType.arduino) = true) : hasController s :=
  (hasController_iff_any s).mpr h

/-- A successful `addComponent` (not the refused second controller, not the
empty type string at which line 138 throws) appends the new component under the
id `nextId` and adds one to `nextId`; auto-wiring touches neither. -/
theorem addComponent_components (s : AppState) (ty : CompType) (x y : Int)
    (h : ¬(ty = CompType.arduino ∧ hasController s)) (hplaced : ty ≠ CompType.other) :
    (addComponent s ty x y).components = s.components ++ [⟨s.nextId, ty, x, y, false, false⟩] ∧
    (addComponent s ty x y).nextId = s.nextId + 1 := by
  rw [addComponent_of_placed s ty x y (fun hc => h ⟨hc.1, hasController_of_any hc.2⟩) hplaced]
  simp only [showCode_components, showCode_nextId]
  split
  · have hf := autoWireComponent_frame (pushComponent s ty x y)
      ⟨s.nextId, ty, x, y, false, false⟩
    rw [hf.1, hf.2.1]
    exact ⟨rfl, rfl⟩
  · rename_i hty
    have hI : ∀ (l : List Component) (st : AppState),
        (autoWireAll st l).components = st.components ∧ (autoWireAll st l).nextId = st.nextId := by
      intro l
      induction l with
      | nil => intro st; exact ⟨rfl, rfl⟩
      | cons c l ih =>
        intro st
        rw [autoWireAll_cons]
        by_cases hc : c.type ≠ CompType.arduino
        · rw [if_pos hc]
          have hf := autoWireComponent_frame st c
          rw [(ih _).1, (ih _).2, hf.1, hf.2.1]
          exact ⟨rfl, rfl⟩
        · rw [if_neg hc]
          exact ih st
    rw [(hI _ _).1, (hI _ _).2]
    exact ⟨rfl, rfl⟩

theorem onTerminalClick_graph (s : AppState) (compId : Nat) (termName : Terminal) :
    (onTerminalClick s compId termName).components = s.components ∧
    (onTerminalClick s compId termName).wires = s.wires ∧
    (onTerminalClick s compId termName).nextId = s.nextId := by
  unfold onTerminalClick
  split
  · exact ⟨rfl, rfl, rfl⟩
  · split
    · exact ⟨rfl, rfl, rfl⟩
    · split
      · exact ⟨rfl, rfl, rfl⟩
      · unfold startWiring
        split <;> exact ⟨rfl, rfl, rfl⟩

/-- What one event does to the component list: ids and types stay as they are,
and `nextId` stays too or, when the event is the drop of the empty type string
during a palette drag, grows by one with no component added; or the event is a
successful drop, which appends one component under the id `nextId` and adds one
to `nextId`. -/
theorem step_components_cases (s : AppState) (e : Event) :
    (skeleton (step s e).components = skeleton s.components ∧
      ((step s e).nextId = s.nextId ∨
        ((∃ x y, e = Event.drop CompType.other x y) ∧
          s.dragSource = some DragSource.palette ∧
          (step s e).components = s.components ∧
          (step s e).nextId = s.nextId + 1))) ∨
    (∃ ty x y, e = Event.drop ty x y ∧ ty ≠ CompType.other ∧
      (step s e).components = s.components ++ [⟨s.nextId, ty, x, y, false, false⟩] ∧
      (step s e).nextId = s.nextId + 1) := by
  cases e with
  | paletteDragstart => exact Or.inl ⟨rfl, Or.inl rfl⟩
  | drop ty x y =>
    show (skeleton (onDrop s ty x y).components = _ ∧
        ((onDrop s ty x y).nextId = _ ∨
          ((∃ x' y', Event.drop ty x y = Event.drop CompType.other x' y') ∧
            s.dragSource = some DragSource.palette ∧
            (onDrop s ty x y).components = _ ∧ (onDrop s ty x y).nextId = _))) ∨
      (∃ ty' x' y', Event.drop ty x y = Event.drop ty' x' y' ∧ ty' ≠ CompType.other ∧
        (onDrop s ty x y).components = _ ∧ (onDrop s ty x y).nextId = _)
    unfold onDrop
    by_cases hsrc : s.dragSource ≠ some DragSource.palette
    · rw [if_pos hsrc]
      exact Or.inl ⟨rfl, Or.inl rfl⟩
    · rw [if_neg hsrc]
      by_cases hother : ty = CompType.other
      · subst hother
        rw [if_pos rfl, addComponent_other]
        exact Or.inl ⟨rfl, Or.inr ⟨⟨x, y, rfl⟩, not_not.mp hsrc, rfl, rfl⟩⟩
      · rw [if_neg hother]
        by_cases h : ty = CompType.arduino ∧ hasController s
        · left
          have hany := (hasController_iff_any s).mp h.2
          unfold addComponent
          rw [if_pos ⟨h.1, hany⟩]
          exact ⟨rfl, Or.inl rfl⟩
        · right
          have := addComponent_components s ty x y h hother
          exact ⟨ty, x, y, rfl, hother, this.1, this.2⟩
  | mousedown target ox oy =>
    have h1 := onPress_graph s target
    have h2 := onDragStart_graph (onPress s target) target ox oy
    have h3 : skeleton (onDragStart (onPress s target) target ox oy).components
        = skeleton s.components ∧
        (onDragStart (onPress s target) target ox oy).nextId = s.nextId := by
      rw [h2.1, h2.2.2.1]
      exact ⟨h1.1, h1.2.2.1⟩
    exact Or.inl ⟨h3.1, Or.inl h3.2⟩
  | mousemove px py w hh =>
    have h1 := onMousemove_graph s px py w hh
    exact Or.inl ⟨h1.1, Or.inl h1.2.2.1⟩
  | mouseup =>
    have h1 := onRelease_graph s
    exact Or.inl ⟨h1.1, Or.inl h1.2.2.1⟩
  | pinMouseup pin =>
    have h3 : skeleton (onPinMouseup s pin).components = skeleton s.components ∧
        (onPinMouseup s pin).nextId = s.nextId := by
      unfold onPinMouseup
      split <;> exact ⟨rfl, rfl⟩
    exact Or.inl ⟨h3.1, Or.inl h3.2⟩
  | terminalClick compId termName =>
    have h1 := onTerminalClick_graph s compId termName
    exact Or.inl ⟨by show skeleton (onTerminalClick s compId termName).components = _; rw [h1.1],
      Or.inl h1.2.2⟩
  | keydown key =>
    have h3 : skeleton (onKeydown s key).components = skeleton s.components ∧
        (onKeydown s key).nextId = s.nextId := by
      unfold onKeydown
      split <;> exact ⟨rfl, rfl⟩
    exact Or.inl ⟨h3.1, Or.inl h3.2⟩
  | startClick =>
    have h3 : skeleton (onStart s).components = skeleton s.components ∧
        (onStart s).nextId = s.nextId := by
      unfold onStart
      exact ⟨by rw [updateSimulation_skeleton], by simp⟩
    exact Or.inl ⟨h3.1, Or.inl h3.2⟩
  | stopClick =>
    exact Or.inl ⟨resetSimulation_skeleton _, Or.inl rfl⟩

/-- Ids start at 1: in every reachable state `nextId` and all ids are positive. -/
theorem Reachable.ids_pos {s : AppState} (h : Reachable s) :
    0 < s.nextId ∧ ∀ q ∈ skeleton s.components, 0 < q.1 := by
  induction h with
  | init => exact ⟨by decide, by intro q hq; cases hq⟩
  | @step s e _ ih =>
    rcases step_components_cases s e with ⟨hsk, hn | ⟨_, _, _, hn⟩⟩ | ⟨ty, x, y, _, _, hc, hn⟩
    · rw [hsk, hn]; exact ih
    · rw [hsk, hn]; exact ⟨Nat.succ_pos _, ih.2⟩
    · rw [hc, hn, skeleton_append]
      refine ⟨Nat.succ_pos _, ?_⟩
      intro q hq
      rcases List.mem_append.mp hq with hq | hq
      · exact ih.2 q hq
      · have : q = (s.nextId, ty) := by simpa [skeleton] using hq
        rw [this]
        exact ih.1

/-- C18, ids are unique and never reused: in every reachable state the ids of
the components are pairwise distinct, positive and below `nextId`; for every
state a successful `addComponent` (one that is neither the refused second
controller nor the call with the empty type string, which throws at line 138)
appends the new component under the id `nextId` and adds exactly one to
`nextId`; the call that throws adds no component and still adds one to `nextId`,
so that id is never given to any component, and the refused second controller
changes neither; and for every state and event the ids of the components already
placed stay as they are, in their order, at most the id `nextId` is appended,
and `nextId` stays or grows by one. -/
theorem ids_unique_never_reused :
    (∀ s : AppState, Reachable s →
      (s.components.map (fun c => c.id)).Nodup ∧
      ∀ c ∈ s.components, 0 < c.id ∧ c.id < s.nextId) ∧
    (∀ (s : AppState) (ty : CompType) (x y : Int),
      ¬(ty = CompType.arduino ∧ hasController s) → ty ≠ CompType.other →
      (addComponent s ty x y).components
        = s.components ++ [⟨s.nextId, ty, x, y, false, false⟩] ∧
      (addComponent s ty x y).nextId = s.nextId + 1) ∧
    (∀ (s : AppState) (x y : Int),
      (addComponent s CompType.other x y).components = s.components ∧
      (addComponent s CompType.other x y).nextId = s.nextId + 1) ∧
    (∀ (s : AppState) (x y : Int), hasController s →
      (addComponent s CompType.arduino x y).components = s.components ∧
      (addComponent s CompType.arduino x y).nextId = s.nextId) ∧
    (∀ (s : AppState) (e : Event),
      (∃ added : List Nat,
        (step s e).components.map (fun c => c.id)
          = s.components.map (fun c => c.id) ++ added ∧
        (added = [] ∨ (added = [s.nextId] ∧ (step s e).nextId = s.nextId + 1))) ∧
      ((step s e).nextId = s.nextId ∨ (step s e).nextId = s.nextId + 1)) := by
  refine ⟨?_, addComponent_components, ?_, ?_, ?_⟩
  · intro s hr
    have hI := hr.graphInv
    have hp := hr.ids_pos
    constructor
    · have := hI.ids_nodup
      unfold skeleton at this
      rw [List.map_map] at this
      exact this
    · intro c hc
      exact ⟨hp.2 _ (mem_skeleton_of_mem hc), hI.ids_lt _ (mem_skeleton_of_mem hc)⟩
  · intro s x y
    rw [addComponent_other]
    exact ⟨rfl, rfl⟩
  · intro s x y hc
    unfold addComponent
    rw [if_pos ⟨rfl, (hasController_iff_any s).mp hc⟩]
    exact ⟨rfl, rfl⟩
  · intro s e
    have hids : ∀ cs : List Component,
        cs.map (fun c => c.id) = (skeleton cs).map Prod.fst := by
      intro cs
      unfold skeleton
      rw [List.map_map]
      rfl
    rcases step_components_cases s e with ⟨hsk, hn | ⟨_, _, _, hn⟩⟩ | ⟨ty, x, y, _, _, hc, hn⟩
    · exact ⟨⟨[], by rw [hids, hids, hsk, List.append_nil], Or.inl rfl⟩, Or.inl hn⟩
    · exact ⟨⟨[], by rw [hids, hids, hsk, List.append_nil], Or.inl rfl⟩, Or.inr hn⟩
    · exact ⟨⟨[s.nextId], by rw [hc, List.map_append]; rfl, Or.inr ⟨rfl, hn⟩⟩, Or.inr hn⟩

/-- C18 on two sessions. Controller, LED and Button get the ids 1, 2, 3, a second
controller is refused without consuming an id, and `nextId` is 4. A drop that
carries no type consumes the id 1 without placing anything and leaves
`dragSource` at `'palette'`; the LED dropped next gets the id 2 and `nextId`
is 3, and the ids of that state are distinct and below `nextId` as well. -/
theorem ids_unique_never_reused_witness :
    (run initState (controllerThenLed ++ place CompType.button 200 40 ++
      place CompType.arduino 300 40)).components.map (fun c => c.id) = [1, 2, 3] ∧
    (run initState (controllerThenLed ++ place CompType.button 200 40 ++
      place CompType.arduino 300 40)).nextId = 4 ∧
    ((run initState (controllerThenLed ++ place CompType.button 200 40 ++
      place CompType.arduino 300 40)).components.map (fun c => c.id)).Nodup ∧
    (run initState failedDropThenLed).components.map (fun c => (c.id, c.type))
      = [(2, CompType.led)] ∧
    (run initState failedDropThenLed).nextId = 3 ∧
    (run initState (place CompType.other 0 0)).components = [] ∧
    (run initState (place CompType.other 0 0)).nextId = 2 ∧
    (run initState (place CompType.other 0 0)).dragSource = some DragSource.palette ∧
    ((run initState failedDropThenLed).components.map (fun c => c.id)).Nodup ∧
    (∀ c ∈ (run initState failedDropThenLed).components,
      0 < c.id ∧ c.id < (run initState failedDropThenLed).nextId) ∧
    ¬(CompType.led = CompType.arduino ∧ hasController initState) ∧
    CompType.led ≠ CompType.other ∧
    (addComponent initState CompType.led 10 10).nextId = initState.nextId + 1 :=
  ⟨by decide, by decide,
   (ids_unique_never_reused.1 _ (reachable_run _ _ Reachable.init)).1,
   by decide, by decide, by decide, by decide, by decide,
   (ids_unique_never_reused.1 _ (reachable_run _ _ Reachable.init)).1,
   (ids_unique_never_reused.1 _ (reachable_run _ _ Reachable.init)).2,
   by decide, by decide,
   (ids_unique_never_reused.2.1 initState CompType.led 10 10 (by decide) (by decide)).2⟩

/-! ### Outside simulation mode (C20) -/

theorem simMarks_modify_same (f : Component → Component)
    (hf : ∀ c, (f c).isPressed = c.isPressed ∧ (f c).bulbOn = c.bulbOn) :
    ∀ (cs : List Component) (i : Nat), simMarks (cs.modify f i) = simMarks cs := by
  intro cs
  induction cs with
  | nil => intro i; simp
  | cons c cs ih =>
    intro i
    cases i with
    | zero => simp [simMarks, (hf c).1, (hf c).2]
    | succ i =>
      have := ih i
      simp only [simMarks] at this
      simp [simMarks, this]

theorem updateSimulation_of_not_running (s : AppState) (h : s.isSimulationRunning = false) :
    updateSimulation s = s := by
  unfold updateSimulation
  simp [h]

theorem onPress_of_not_running (s : AppState) (h : s.isSimulationRunning = false)
    (target : Target) : onPress s target = s := by
  unfold onPress
  simp [h]

theorem onRelease_of_not_running (s : AppState) (h : s.isSimulationRunning = false) :
    onRelease s = s := by
  unfold onRelease
  simp [h]

theorem onPress_isSimulationRunning (s : AppState) (target : Target) :
    (onPress s target).isSimulationRunning = s.isSimulationRunning := by
  unfold onPress
  split
  · rfl
  · split
    · split
      · split
        · simp [pressButton]
        · rfl
      · rfl
    · rfl

theorem onDragStart_frame (s : AppState) (target : Target) (ox oy : Int) :
    (onDragStart s target ox oy).components = s.components ∧
    (onDragStart s target ox oy).isSimulationRunning = s.isSimulationRunning := by
  unfold onDragStart
  split
  · exact ⟨rfl, rfl⟩
  · split
    · split <;> exact ⟨rfl, rfl⟩
    · exact ⟨rfl, rfl⟩

theorem onRelease_isSimulationRunning (s : AppState) :
    (onRelease s).isSimulationRunning = s.isSimulationRunning := by
  unfold onRelease
  split
  · rfl
  · simp [releaseButtons]

theorem autoWireAll_isSimulationRunning (l : List Component) :
    ∀ st : AppState, (autoWireAll st l).isSimulationRunning = st.isSimulationRunning := by
  induction l with
  | nil => intro st; rfl
  | cons c l ih =>
    intro st
    rw [autoWireAll_cons]
    by_cases hc : c.type ≠ CompType.arduino
    · rw [if_pos hc, ih, (autoWireComponent_frame st c).2.2.2.2]
    · rw [if_neg hc, ih]

theorem addComponent_isSimulationRunning (s : AppState) (ty : CompType) (x y : Int) :
    (addComponent s ty x y).isSimulationRunning = s.isSimulationRunning := by
  unfold addComponent
  split
  · rfl
  · split
    · rfl
    · simp only [showCode_isSimulationRunning]
      split
      · rw [(autoWireComponent_frame _ _).2.2.2.2]; rfl
      · rw [autoWireAll_isSimulationRunning]; rfl

theorem onTerminalClick_isSimulationRunning (s : AppState) (compId : Nat)
    (termName : Terminal) :
    (onTerminalClick s compId termName).isSimulationRunning = s.isSimulationRunning := by
  unfold onTerminalClick
  split
  · rfl
  · split
    · rfl
    · split
      · rfl
      · unfold startWiring
        split <;> rfl

theorem onStop_allQuiet (s : AppState) : AllQuiet (onStop s).components := by
  intro m hm
  have : m ∈ (s.components.map
      (fun c => { c with bulbOn := false, isPressed := false })).map
      (fun c => (c.isPressed, c.bulbOn)) := hm
  rw [List.map_map] at this
  obtain ⟨c, _, rfl⟩ := List.mem_map.mp this
  rfl

/-- While the simulation is off, an event either switches it on or leaves it
off with nothing pressed and nothing lit. -/
theorem step_quiet (s : AppState) (e : Event) (hoff : s.isSimulationRunning = false)
    (hq : AllQuiet s.components) :
    (step s e).isSimulationRunning = false → AllQuiet (step s e).components := by
  cases e with
  | paletteDragstart => intro _; exact hq
  | drop ty x y =>
    intro _
    show AllQuiet (onDrop s ty x y).components
    have hadd : AllQuiet (addComponent s ty x y).components := by
      by_cases hother : ty = CompType.other
      · subst hother
        rw [addComponent_other]
        exact hq
      by_cases h : ty = CompType.arduino ∧ hasController s
      · have hany := (hasController_iff_any s).mp h.2
        unfold addComponent
        rw [if_pos ⟨h.1, hany⟩]
        exact hq
      · rw [(addComponent_components s ty x y h hother).1]
        intro m hm
        unfold simMarks at hm
        rw [List.map_append, List.mem_append] at hm
        rcases hm with hm | hm
        · exact hq m hm
        · simpa using hm
    unfold onDrop
    split
    · exact hq
    · split
      · exact hadd
      · exact hadd
  | mousedown target ox oy =>
    intro _
    show AllQuiet (onDragStart (onPress s target) target ox oy).components
    rw [(onDragStart_frame _ _ _ _).1, onPress_of_not_running s hoff]
    exact hq
  | mousemove px py w hh =>
    intro _
    show AllQuiet (onMousemove s px py w hh).components
    unfold onMousemove
    split
    · intro m hm
      simp only at hm
      rw [simMarks_modify_same] at hm
      · exact hq m hm
      · intro c; exact ⟨rfl, rfl⟩
    · exact hq
  | mouseup =>
    intro _
    show AllQuiet (onDragEnd (onRelease s)).components
    rw [onRelease_of_not_running s hoff]
    exact hq
  | pinMouseup pin =>
    intro _
    show AllQuiet (onPinMouseup s pin).components
    unfold onPinMouseup
    split <;> exact hq
  | terminalClick compId termName =>
    intro _
    show AllQuiet (onTerminalClick s compId termName).components
    rw [(onTerminalClick_graph s compId termName).1]
    exact hq
  | keydown key =>
    intro _
    show AllQuiet (onKeydown s key).components
    unfold onKeydown
    split <;> exact hq
  | startClick =>
    intro h
    have : (onStart s).isSimulationRunning = true := by
      unfold onStart
      simp
    rw [show step s Event.startClick = onStart s from rfl, this] at h
    cases h
  | stopClick =>
    intro _
    exact onStop_allQuiet s

/-- Only the stop listener switches the simulation off. -/
theorem step_keeps_running (s : AppState) (e : Event) (he : e ≠ Event.stopClick)
    (hs : s.isSimulationRunning = true) : (step s e).isSimulationRunning = true := by
  cases e with
  | paletteDragstart => exact hs
  | drop ty x y =>
    show (onDrop s ty x y).isSimulationRunning = true
    have hadd : (addComponent s ty x y).isSimulationRunning = true := by
      rw [addComponent_isSimulationRunning]; exact hs
    unfold onDrop
    split
    · exact hs
    · split
      · exact hadd
      · exact hadd
  | mousedown target ox oy =>
    show (onDragStart (onPress s target) target ox oy).isSimulationRunning = true
    rw [(onDragStart_frame _ _ _ _).2, onPress_isSimulationRunning]; exact hs
  | mousemove px py w hh =>
    show (onMousemove s px py w hh).isSimulationRunning = true
    unfold onMousemove
    split <;> exact hs
  | mouseup =>
    show (onRelease s).isSimulationRunning = true
    rw [onRelease_isSimulationRunning]; exact hs
  | pinMouseup pin =>
    show (onPinMouseup s pin).isSimulationRunning = true
    unfold onPinMouseup
    split <;> exact hs
  | terminalClick compId termName =>
    show (onTerminalClick s compId termName).isSimulationRunning = true
    rw [onTerminalClick_isSimulationRunning]; exact hs
  | keydown key =>
    show (onKeydown s key).isSimulationRunning = true
    unfold onKeydown
    split <;> exact hs
  | startClick =>
    show (onStart s).isSimulationRunning = true
    unfold onStart
    simp
  | stopClick => exact absurd rfl he

theorem reachable_quiet_when_off {s : AppState} (h : Reachable s) :
    s.isSimulationRunning = false → AllQuiet s.components := by
  induction h with
  | init => intro _ m hm; cases hm
  | @step s e _ ih =>
    intro hoff
    cases hs : s.isSimulationRunning with
    | false => exact step_quiet s e hs (ih hs) hoff
    | true =>
      by_cases he : e = Event.stopClick
      · subst he
        exact onStop_allQuiet s
      · rw [step_keeps_running s e he hs] at hoff
        cases hoff

/-- C20, nothing is lit or pressed outside simulation mode: in every reachable
state in which the simulation is not running every component has
`isPressed = false` and its bulb off; and for every state in which the
simulation is not running `updateSimulation`, the press listener and the
release listener change nothing. -/
theorem quiet_outside_simulation :
    (∀ s : AppState, Reachable s → s.isSimulationRunning = false →
      ∀ c ∈ s.components, c.isPressed = false ∧ c.bulbOn = false) ∧
    (∀ s : AppState, s.isSimulationRunning = false →
      updateSimulation s = s ∧ (∀ target : Target, onPress s target = s) ∧ onRelease s = s) := by
  constructor
  · intro s hr hoff c hc
    have := reachable_quiet_when_off hr hoff (c.isPressed, c.bulbOn)
      (List.mem_map.mpr ⟨c, hc, rfl⟩)
    exact ⟨congrArg Prod.fst this, congrArg Prod.snd this⟩
  · intro s hoff
    exact ⟨updateSimulation_of_not_running s hoff, onPress_of_not_running s hoff,
      onRelease_of_not_running s hoff⟩

/-- C20 on a session: the simulation is stopped while the Button is held and
the LED is lit; afterwards nothing is pressed and nothing is lit. -/
theorem quiet_outside_simulation_witness :
    (run initState (simSession ++ [Event.mousedown (Target.component 2 true) 0 0])).components.map
      (fun c => (c.isPressed, c.bulbOn)) = [(false, false), (true, false), (false, true)] ∧
    (run initState stopWhilePressed).isSimulationRunning = false ∧
    (∀ c ∈ (run initState stopWhilePressed).components,
      c.isPressed = false ∧ c.bulbOn = false) :=
  ⟨by decide, by decide,
   quiet_outside_simulation.1 _ (reachable_run _ _ Reachable.init) (by decide)⟩

/-! ### Well-formed wires (C19) -/

theorem ReachableByPage.reachable {s : AppState} (h : ReachableByPage s) : Reachable s := by
  induction h with
  | init => exact Reachable.init
  | step e _ _ ih => exact Reachable.step e ih

theorem reachableByPage_run (evs : List Event) (hevs : ∀ e ∈ evs, e.deliverable) :
    ∀ s, ReachableByPage s → ReachableByPage (run s evs) := by
  induction evs with
  | nil => intro s h; exact h
  | cons e evs ih =>
    intro s h
    exact ih (fun e' he' => hevs e' (List.mem_cons_of_mem _ he')) _
      (ReachableByPage.step e (hevs e (List.mem_cons_self _ _)) h)

/-- Auto-wiring one component adds no wire or one wire on a controller pin. -/
theorem autoWireComponent_pins (s : AppState) (c : Component)
    (h : ∀ w ∈ s.wires, w.pin ∈ ARDUINO_PINS) :
    ∀ w ∈ (autoWireComponent s c).wires, w.pin ∈ ARDUINO_PINS := by
  by_cases hc : hasController s
  · rw [autoWireComponent_wires_eq_autoAssign s c hc]
    rcases autoAssign_cases s.wires c with heq | ⟨term, p, _, hp, heq⟩
    · rw [heq]; exact h
    · rw [heq]
      intro w hw
      rcases List.mem_append.mp hw with hw | hw
      · exact h w hw
      · rw [List.mem_singleton] at hw
        rw [hw]
        exact hp
  · rw [autoWireComponent_no_controller s c hc]
    exact h

theorem autoWireAll_pins (l : List Component) :
    ∀ s : AppState, (∀ w ∈ s.wires, w.pin ∈ ARDUINO_PINS) →
      ∀ w ∈ (autoWireAll s l).wires, w.pin ∈ ARDUINO_PINS := by
  induction l with
  | nil => intro s h; exact h
  | cons c l ih =>
    intro s h
    rw [autoWireAll_cons]
    by_cases hc : c.type ≠ CompType.arduino
    · rw [if_pos hc]
      exact ih _ (autoWireComponent_pins s c h)
    · rw [if_neg hc]
      exact ih s h

theorem addComponent_pins (s : AppState) (ty : CompType) (x y : Int)
    (h : ∀ w ∈ s.wires, w.pin ∈ ARDUINO_PINS) :
    ∀ w ∈ (addComponent s ty x y).wires, w.pin ∈ ARDUINO_PINS := by
  unfold addComponent
  split
  · exact h
  · split
    · exact h
    · simp only [showCode_wires]
      split
      · exact autoWireComponent_pins _ _ h
      · exact autoWireAll_pins _ _ h

/-- Every wire of a state the page can reach is on one of the pins 2 to 13. -/
theorem ReachableByPage.pins_mem {s : AppState} (h : ReachableByPage s) :
    ∀ w ∈ s.wires, w.pin ∈ ARDUINO_PINS := by
  induction h with
  | init => intro w hw; cases hw
  | @step s e he _ ih =>
    cases e with
    | paletteDragstart => exact ih
    | drop ty x y =>
      show ∀ w ∈ (onDrop s ty x y).wires, _
      unfold onDrop
      split
      · exact ih
      · split
        · exact addComponent_pins s ty x y ih
        · exact addComponent_pins s ty x y ih
    | mousedown target ox oy =>
      show ∀ w ∈ (onDragStart (onPress s target) target ox oy).wires, _
      rw [(onDragStart_graph _ _ _ _).2.1, (onPress_graph _ _).2.1]
      exact ih
    | mousemove px py w hh =>
      show ∀ w ∈ (onMousemove s px py _ hh).wires, _
      rw [(onMousemove_graph _ _ _ _ _).2.1]
      exact ih
    | mouseup =>
      show ∀ w ∈ (onRelease s).wires, _
      rw [(onRelease_graph _).2.1]
      exact ih
    | pinMouseup pin =>
      show ∀ w ∈ (onPinMouseup s pin).wires, _
      unfold onPinMouseup
      split
      · rw [completeConnection_wires_eq]
        intro w hw
        rcases List.mem_append.mp hw with hw | hw
        · exact ih w (List.mem_of_mem_filter hw)
        · rw [List.mem_singleton] at hw
          rw [hw]
          exact he
      · exact ih
    | terminalClick compId termName =>
      show ∀ w ∈ (onTerminalClick s compId termName).wires, _
      rw [(onTerminalClick_graph _ _ _).2.1]
      exact ih
    | keydown key =>
      show ∀ w ∈ (onKeydown s key).wires, _
      unfold onKeydown
      split <;> exact ih
    | startClick =>
      show ∀ w ∈ (onStart s).wires, _
      unfold onStart
      rw [updateSimulation_wires]
      exact ih
    | stopClick => exact ih

/-- With distinct ids, an id has one type. -/
theorem skeleton_type_unique {cs : List Component}
    (hnd : ((skeleton cs).map Prod.fst).Nodup) {k : Nat} {t₁ t₂ : CompType}
    (h₁ : (k, t₁) ∈ skeleton cs) (h₂ : (k, t₂) ∈ skeleton cs) : t₁ = t₂ := by
  have := List.inj_on_of_nodup_map hnd h₁ h₂ rfl
  exact congrArg Prod.snd this

/-- With distinct ids, `find` by id returns the one component of that id. -/
theorem find_by_id_of_mem_skeleton {cs : List Component}
    (hnd : ((skeleton cs).map Prod.fst).Nodup) {k : Nat} {ty : CompType}
    (h : (k, ty) ∈ skeleton cs) :
    ∃ c, cs.find? (fun x => x.id == k) = some c ∧ c.id = k ∧ c.type = ty := by
  obtain ⟨d, hd, hdk, _⟩ := mem_skeleton_iff.mp h
  cases hf : cs.find? (fun x => x.id == k) with
  | none =>
    have := List.find?_eq_none.mp hf d hd
    simp only [beq_iff_eq] at this
    exact absurd hdk this
  | some c =>
    have hck : c.id = k := by
      have := List.find?_some hf
      simpa using this
    have hmem : (k, c.type) ∈ skeleton cs := by
      rw [← hck]
      exact mem_skeleton_of_mem (List.mem_of_find?_eq_some hf)
    exact ⟨c, rfl, hck, skeleton_type_unique hnd hmem h⟩

theorem terminals_cases {ty : CompType} {t : Terminal} (h : TERMINALS ty = some t) :
    (ty = CompType.led ∧ t = Terminal.anode) ∨ (ty = CompType.button ∧ t = Terminal.t1) := by
  cases ty <;> simp [TERMINALS] at h
  · exact Or.inl ⟨rfl, h.symm⟩
  · exact Or.inr ⟨rfl, h.symm⟩

/-- Two selections that split a list have lengths adding up to its length. -/
theorem length_filter_add_of_split {α : Type} (p q : α → Bool) :
    ∀ l : List α, (∀ a ∈ l, (p a = true ∧ q a = false) ∨ (p a = false ∧ q a = true)) →
      (l.filter p).length + (l.filter q).length = l.length := by
  intro l
  induction l with
  | nil => intro _; rfl
  | cons a l ih =>
    intro h
    have ihl := ih (fun b hb => h b (List.mem_cons_of_mem _ hb))
    rcases h a (List.mem_cons_self _ _) with ⟨hp, hq⟩ | ⟨hp, hq⟩
    · simp only [List.filter_cons, hp, hq, if_true, List.length_cons]
      simp only [Bool.false_eq_true, if_false]
      omega
    · simp only [List.filter_cons, hp, hq, if_true, List.length_cons]
      simp only [Bool.false_eq_true, if_false]
      omega

/-- In a state the listeners reach every wire is counted once by the code
generator, as an LED pin or as a Button pin. -/
theorem GraphInv.leds_add_btns {s : AppState} (h : GraphInv s) :
    (leds s.components s.wires).length + (btns s.components s.wires).length
      = s.wires.length := by
  unfold leds btns
  rw [List.length_insertionSort, List.length_insertionSort, List.length_map, List.length_map]
  apply length_filter_add_of_split
  intro w hw
  obtain ⟨ty, hmem, hterm⟩ := h.wire_owner w hw
  obtain ⟨c, hfind, _, hty⟩ := find_by_id_of_mem_skeleton h.ids_nodup hmem
  rw [hfind]
  rcases terminals_cases hterm with ⟨hl, _⟩ | ⟨hb, _⟩
  · left
    simp only [hty, hl]
    exact ⟨rfl, rfl⟩
  · right
    simp only [hty, hb]
    exact ⟨rfl, rfl⟩

/-- In a state the listeners reach the wires owned by one id are at most one. -/
theorem GraphInv.one_wire_per_id {s : AppState} (h : GraphInv s) (k : Nat) :
    (s.wires.filter (fun w => w.compId == k)).length ≤ 1 := by
  have hpw : (s.wires.filter (fun w => w.compId == k)).Pairwise
      (fun a b => ¬(a.compId = b.compId ∧ a.terminal = b.terminal)) :=
    h.term_excl.sublist (List.filter_sublist _)
  have hall : ∀ w ∈ s.wires.filter (fun w => w.compId == k),
      w ∈ s.wires ∧ w.compId = k := by
    intro w hw
    have := List.mem_filter.mp hw
    exact ⟨this.1, by simpa using this.2⟩
  match hl : s.wires.filter (fun w => w.compId == k) with
  | [] => rw [hl]; exact Nat.zero_le _
  | [_] => rw [hl]; exact Nat.le_refl _
  | a :: b :: rest =>
    exfalso
    rw [hl] at hpw hall
    have ha := hall a (List.mem_cons_self _ _)
    have hb := hall b (List.mem_cons_of_mem _ (List.mem_cons_self _ _))
    obtain ⟨ta, hma, hta⟩ := h.wire_owner a ha.1
    obtain ⟨tb, hmb, htb⟩ := h.wire_owner b hb.1
    rw [ha.2] at hma
    rw [hb.2] at hmb
    have htt := skeleton_type_unique h.ids_nodup hma hmb
    rw [htt, htb] at hta
    have hterm : a.terminal = b.terminal := (Option.some.inj hta).symm
    have hrel := (List.pairwise_cons.mp hpw).1 b (List.mem_cons_self _ _)
    exact hrel ⟨by rw [ha.2, hb.2], hterm⟩

/-- Distinct pins, all among the twelve, make at most twelve wires. -/
theorem length_le_twelve (ws : List Wire) (hex : PinExclusive ws)
    (hp : ∀ w ∈ ws, w.pin ∈ ARDUINO_PINS) : ws.length ≤ 12 := by
  have hnd : (ws.map (fun w => w.pin)).Nodup := by
    unfold PinExclusive at hex
    rw [List.Nodup, List.pairwise_map]
    exact hex
  have hsub : ws.map (fun w => w.pin) ⊆ ARDUINO_PINS := by
    intro p hpm
    obtain ⟨w, hw, rfl⟩ := List.mem_map.mp hpm
    exact hp w hw
  have := (List.subperm_of_subset hnd hsub).length_le
  rw [List.length_map] at this
  exact this

/-- C19, wire well-formedness: in every state reached through the listeners by
events the page can deliver, every wire is owned by a placed LED, on its anode,
or by a placed Button, on its `t1`, and its pin is one of 2 to 13; hence wires
exist only when a controller is placed, each component owns at most one wire,
there are at most twelve wires, and the LED pins and Button pins of the code
generator together are as many as the wires. -/
theorem wires_well_formed (s : AppState) (h : ReachableByPage s) :
    (∀ w ∈ s.wires,
      (∃ c ∈ s.components, c.id = w.compId ∧
        ((c.type = CompType.led ∧ w.terminal = Terminal.anode) ∨
         (c.type = CompType.button ∧ w.terminal = Terminal.t1))) ∧
      w.terminal ≠ Terminal.cathode ∧ w.terminal ≠ Terminal.t2 ∧
      w.pin ∈ ARDUINO_PINS ∧ 2 ≤ w.pin ∧ w.pin ≤ 13) ∧
    (s.wires ≠ [] → hasController s) ∧
    (∀ c ∈ s.components, (s.wires.filter (fun w => w.compId == c.id)).length ≤ 1) ∧
    s.wires.length ≤ 12 ∧
    (leds s.components s.wires).length + (btns s.components s.wires).length
      = s.wires.length := by
  have hI := h.reachable.graphInv
  have hpins := h.pins_mem
  refine ⟨?_, ?_, fun c _ => hI.one_wire_per_id c.id,
    length_le_twelve s.wires hI.pin_excl hpins, hI.leds_add_btns⟩
  · intro w hw
    obtain ⟨ty, hmem, hterm⟩ := hI.wire_owner w hw
    obtain ⟨c, hc, hid, hty⟩ := mem_skeleton_iff.mp hmem
    have hrange : ∀ p ∈ ARDUINO_PINS, 2 ≤ p ∧ p ≤ 13 := by decide
    have hcases := terminals_cases hterm
    refine ⟨⟨c, hc, hid, ?_⟩, ?_, ?_, hpins w hw, hrange _ (hpins w hw)⟩
    · rw [hty]; exact hcases
    · rcases hcases with ⟨_, ht⟩ | ⟨_, ht⟩ <;> rw [ht] <;> decide
    · rcases hcases with ⟨_, ht⟩ | ⟨_, ht⟩ <;> rw [ht] <;> decide
  · intro hne
    obtain ⟨i, hi⟩ := hI.wires_controller hne
    obtain ⟨a, ha, _, hat⟩ := mem_skeleton_iff.mp hi
    exact ⟨a, ha, hat⟩

/-- C19 on a session: after the Button's `t1` is re-wired by hand to pin 10 the
one wire left is the Button's, and the code generator counts one pin. -/
theorem wires_well_formed_witness :
    (run initState rewireSession).wires = [⟨3, Terminal.t1, 10⟩] ∧
    (leds (run initState rewireSession).components (run initState rewireSession).wires).length
      + (btns (run initState rewireSession).components
          (run initState rewireSession).wires).length
      = (run initState rewireSession).wires.length :=
  ⟨by decide,
   (wires_well_formed (run initState rewireSession)
     (reachableByPage_run rewireSession (by decide) _ ReachableByPage.init)).2.2.2.2⟩

/-! ### Pin signals are recomputed from scratch (C17) -/

theorem foldl_setPin_zero_apply (l : List Nat) (q : Nat) :
    ∀ ps : Nat → Option Nat,
      (l.foldl (fun ps p => setPin ps p 0) ps) q = if q ∈ l then some 0 else ps q := by
  induction l with
  | nil => intro ps; simp
  | cons p l ih =>
    intro ps
    rw [List.foldl_cons, ih]
    by_cases hq : q ∈ l
    · rw [if_pos hq, if_pos (List.mem_cons_of_mem _ hq)]
    · rw [if_neg hq]
      by_cases hp : q = p
      · rw [if_pos (by rw [hp]; exact List.mem_cons_self _ _)]
        simp [setPin, hp]
      · rw [if_neg (by intro h; rcases List.mem_cons.mp h with h | h
                       · exact hp h
                       · exact hq h)]
        simp [setPin, hp]

theorem resetPins_apply (ps : Nat → Option Nat) (q : Nat) :
    resetPins ps q = if q ∈ ARDUINO_PINS then some 0 else ps q :=
  foldl_setPin_zero_apply ARDUINO_PINS q ps

/-- A pin after the loop over a list of components taken as buttons. -/
theorem foldl_buttonStep_fst_apply (s : AppState) (bl : List Component) (q : Nat) :
    ∀ acc : (Nat → Option Nat) × Nat,
      (bl.foldl (buttonStep s) acc).1 q =
        if ∃ b ∈ bl, b.isPressed = true ∧ ∃ w, s.wires.find?
            (fun w => w.compId == b.id && w.terminal == Terminal.t1) = some w ∧ w.pin = q
        then some 1 else acc.1 q := by
  induction bl with
  | nil => intro acc; simp
  | cons c bl ih =>
    intro acc
    rw [List.foldl_cons, ih]
    by_cases hrest : ∃ b ∈ bl, b.isPressed = true ∧ ∃ w, s.wires.find?
        (fun w => w.compId == b.id && w.terminal == Terminal.t1) = some w ∧ w.pin = q
    · rw [if_pos hrest, if_pos]
      obtain ⟨d, hd, h⟩ := hrest
      exact ⟨d, List.mem_cons_of_mem _ hd, h⟩
    · rw [if_neg hrest]
      by_cases hc : c.isPressed = true ∧ ∃ w, s.wires.find?
          (fun w => w.compId == c.id && w.terminal == Terminal.t1) = some w ∧ w.pin = q
      · rw [if_pos ⟨c, List.mem_cons_self _ _, hc⟩]
        obtain ⟨hp, w, hw, hq⟩ := hc
        simp [buttonStep, hp, hw, setPin, hq]
      · have hno : ¬∃ b ∈ c :: bl, b.isPressed = true ∧ ∃ w, s.wires.find?
            (fun w => w.compId == b.id && w.terminal == Terminal.t1) = some w ∧ w.pin = q := by
          rintro ⟨d, hd, h⟩
          rcases List.mem_cons.mp hd with rfl | hd
          · exact hc h
          · exact hrest ⟨d, hd, h⟩
        rw [if_neg hno]
        unfold buttonStep
        by_cases hp : c.isPressed = true
        · rw [if_pos hp]
          cases hf : s.wires.find? (fun w => w.compId == c.id && w.terminal == Terminal.t1) with
          | none => rfl
          | some w =>
            have hne : q ≠ w.pin := fun h => hc ⟨hp, w, hf, h.symm⟩
            simp [setPin, hne]
        · rw [if_neg hp]

/-- With one wire per terminal, the wire `find` returns for a terminal is the
wire on that terminal. -/
theorem find_wire_eq_some_iff {ws : List Wire} (hex : TerminalExclusive ws) (id : Nat)
    (t : Terminal) (w : Wire) :
    ws.find? (fun w => w.compId == id && w.terminal == t) = some w ↔
      w ∈ ws ∧ w.compId = id ∧ w.terminal = t := by
  constructor
  · intro h
    have := List.find?_some h
    simp only [Bool.and_eq_true, beq_iff_eq] at this
    exact ⟨List.mem_of_find?_eq_some h, this⟩
  · rintro ⟨hw, h1, h2⟩
    cases hf : ws.find? (fun w => w.compId == id && w.terminal == t) with
    | none =>
      have := List.find?_eq_none.mp hf w hw
      simp [h1, h2] at this
    | some v =>
      have hv := List.find?_some hf
      simp only [Bool.and_eq_true, beq_iff_eq] at hv
      have hvm := List.mem_of_find?_eq_some hf
      by_contra hne
      have hsym : Symmetric (fun a b : Wire =>
          ¬(a.compId = b.compId ∧ a.terminal = b.terminal)) :=
        fun a b hab hba => hab ⟨hba.1.symm, hba.2.symm⟩
      have := List.Pairwise.forall hsym hex hvm hw (fun h => hne (by rw [h]))
      exact this ⟨by rw [hv.1, h1], by rw [hv.2, h2]⟩

/-- The signal of a pin after a tick, whatever it was before. -/
theorem updateSimulation_pinStates_apply (s : AppState)
    (hrun : s.isSimulationRunning = true) (hex : TerminalExclusive s.wires) (q : Nat) :
    (updateSimulation s).pinStates q =
      if ledAnodePin s q then some (if pressedButtonWired s then 1 else 0)
      else if pressedButtonPin s q then some 1
      else if q ∈ ARDUINO_PINS then some 0
      else s.pinStates q := by
  rw [updateSimulation_of_running s hrun]
  show driveLeds s _ _ q = _
  unfold driveLeds
  rw [foldl_ledStep_apply, readButtons_snd]
  have hled : (∃ led ∈ s.components.filter (fun c => c.type == CompType.led),
      ∃ w, s.wires.find? (fun w => w.compId == led.id && w.terminal == Terminal.anode)
        = some w ∧ w.pin = q) ↔ ledAnodePin s q := by
    unfold ledAnodePin
    constructor
    · rintro ⟨l, hl, w, hw, hq⟩
      have hl' := List.mem_filter.mp hl
      have := (find_wire_eq_some_iff hex _ _ _).mp hw
      exact ⟨l, hl'.1, by simpa using hl'.2, w, this.1, this.2.1, this.2.2, hq⟩
    · rintro ⟨l, hl, hty, w, hw, h1, h2, hq⟩
      exact ⟨l, List.mem_filter.mpr ⟨hl, by simpa using hty⟩, w,
        (find_wire_eq_some_iff hex _ _ _).mpr ⟨hw, h1, h2⟩, hq⟩
  have hbtn : (∃ b ∈ s.components.filter (fun c => c.type == CompType.button),
      b.isPressed = true ∧ ∃ w, s.wires.find?
        (fun w => w.compId == b.id && w.terminal == Terminal.t1) = some w ∧ w.pin = q) ↔
      pressedButtonPin s q := by
    unfold pressedButtonPin
    constructor
    · rintro ⟨b, hb, hp, w, hw, hq⟩
      have hb' := List.mem_filter.mp hb
      have := (find_wire_eq_some_iff hex _ _ _).mp hw
      exact ⟨b, hb'.1, by simpa using hb'.2, hp, w, this.1, this.2.1, this.2.2, hq⟩
    · rintro ⟨b, hb, hty, hp, w, hw, h1, h2, hq⟩
      exact ⟨b, List.mem_filter.mpr ⟨hb, by simpa using hty⟩, hp, w,
        (find_wire_eq_some_iff hex _ _ _).mpr ⟨hw, h1, h2⟩, hq⟩
  simp only [hled]
  by_cases hl : ledAnodePin s q
  · rw [if_pos hl, if_pos hl]
  · rw [if_neg hl, if_neg hl]
    unfold readButtons
    rw [foldl_buttonStep_fst_apply]
    simp only [hbtn, resetPins_apply]

theorem pressedButtonWired_of_pin {s : AppState} {q : Nat} (h : pressedButtonPin s q) :
    pressedButtonWired s := by
  obtain ⟨b, hb, hty, hp, w, hw, h1, h2, _⟩ := h
  exact ⟨b, hb, hty, hp, w, hw, h1, h2⟩

/-- Replacing the bulbs of the LEDs changes no id and no type. -/
theorem relight_frame (lit : Component → Bool) (c : Component) :
    (if c.type = CompType.led then { c with bulbOn := lit c } else c).id = c.id ∧
    (if c.type = CompType.led then { c with bulbOn := lit c } else c).type = c.type ∧
    (c.type ≠ CompType.led →
      (if c.type = CompType.led then { c with bulbOn := lit c } else c) = c) := by
  by_cases h : c.type = CompType.led
  · rw [if_pos h]; exact ⟨rfl, rfl, fun hne => absurd h hne⟩
  · rw [if_neg h]; exact ⟨rfl, rfl, fun _ => rfl⟩

theorem readButtons_withMemory (s : AppState) (ps : Nat → Option Nat)
    (lit : Component → Bool) (X : Nat → Option Nat) :
    readButtons (withMemory s ps lit) X = readButtons s X := by
  unfold readButtons
  show ((s.components.map _).filter _).foldl (buttonStep s) (X, 0) = _
  rw [List.filter_map, List.foldl_map]
  have hp : ((fun c : Component => c.type == CompType.button) ∘
      (fun c : Component => if c.type = CompType.led then { c with bulbOn := lit c } else c))
      = (fun c : Component => c.type == CompType.button) := by
    funext c
    show ((if c.type = CompType.led then { c with bulbOn := lit c } else c).type
      == CompType.button) = _
    rw [(relight_frame lit c).2.1]
  rw [hp]
  apply List.foldl_ext
  intro acc b hb
  have hty : b.type = CompType.button := by
    have := (List.mem_filter.mp hb).2
    simpa using this
  rw [(relight_frame lit b).2.2 (by rw [hty]; decide)]

theorem driveLeds_withMemory (s : AppState) (ps : Nat → Option Nat)
    (lit : Component → Bool) (X : Nat → Option Nat) (g : Nat) :
    driveLeds (withMemory s ps lit) X g = driveLeds s X g := by
  unfold driveLeds
  show ((s.components.map _).filter _).foldl (ledStep s g) X = _
  rw [List.filter_map, List.foldl_map]
  have hp : ((fun c : Component => c.type == CompType.led) ∘
      (fun c : Component => if c.type = CompType.led then { c with bulbOn := lit c } else c))
      = (fun c : Component => c.type == CompType.led) := by
    funext c
    show ((if c.type = CompType.led then { c with bulbOn := lit c } else c).type
      == CompType.led) = _
    rw [(relight_frame lit c).2.1]
  rw [hp]
  apply List.foldl_ext
  intro acc b _
  unfold ledStep
  rw [(relight_frame lit b).1]

theorem showLeds_withMemory (s : AppState) (ps : Nat → Option Nat)
    (lit : Component → Bool) (P : Nat → Option Nat) :
    showLeds (withMemory s ps lit) P = showLeds s P := by
  unfold showLeds
  show (s.components.map _).map _ = _
  rw [List.map_map]
  apply List.map_congr_left
  intro c _
  by_cases h : c.type = CompType.led
  · have hw : (withMemory s ps lit).wires = s.wires := rfl
    simp only [Function.comp, h, if_true, beq_self_eq_true, hw]
  · have hb : (c.type == CompType.led) = false := by simpa using h
    simp only [Function.comp, h, if_false, hb]
    rfl

theorem resetPins_withMemory (s : AppState) (ps : Nat → Option Nat)
    (lit : Component → Bool) :
    resetPins (withMemory s ps lit).pinStates = resetPins s.pinStates := by
  funext q
  rw [resetPins_apply, resetPins_apply]
  by_cases hq : q ∈ ARDUINO_PINS
  · rw [if_pos hq, if_pos hq]
  · rw [if_neg hq, if_neg hq]
    show (if q ∈ ARDUINO_PINS then ps q else s.pinStates q) = _
    rw [if_neg hq]

/-- A tick forgets the signals of the controller pins and the bulbs of the LEDs
it starts from. -/
theorem updateSimulation_withMemory (s : AppState) (hrun : s.isSimulationRunning = true)
    (ps : Nat → Option Nat) (lit : Component → Bool) :
    updateSimulation (withMemory s ps lit) = updateSimulation s := by
  have hrun' : (withMemory s ps lit).isSimulationRunning = true := hrun
  rw [updateSimulation_of_running s hrun, updateSimulation_of_running _ hrun',
    resetPins_withMemory, readButtons_withMemory, driveLeds_withMemory, showLeds_withMemory]
  rfl

/-- A tick writes only to the controller pins and to pins that carry a wire. -/
theorem updateSimulation_pinStates_outside (s : AppState) (hex : TerminalExclusive s.wires)
    (hpins : ∀ w ∈ s.wires, w.pin ∈ ARDUINO_PINS) (q : Nat) (hq : q ∉ ARDUINO_PINS) :
    (updateSimulation s).pinStates q = s.pinStates q := by
  cases hrun : s.isSimulationRunning with
  | false => rw [updateSimulation_of_not_running s hrun]
  | true =>
    rw [updateSimulation_pinStates_apply s hrun hex q]
    have hl : ¬ledAnodePin s q := by
      rintro ⟨_, _, _, w, hw, _, _, hwq⟩
      exact hq (hwq ▸ hpins w hw)
    have hb : ¬pressedButtonPin s q := by
      rintro ⟨_, _, _, _, w, hw, _, _, hwq⟩
      exact hq (hwq ▸ hpins w hw)
    rw [if_neg hl, if_neg hb, if_neg hq]

theorem updateSimulation_pinStates_outside_of_eq (s s₁ : AppState)
    (hw : s₁.wires = s.wires) (hp : s₁.pinStates = s.pinStates)
    (hex : TerminalExclusive s.wires) (hpins : ∀ w ∈ s.wires, w.pin ∈ ARDUINO_PINS)
    (q : Nat) (hq : q ∉ ARDUINO_PINS) :
    (updateSimulation s₁).pinStates q = s.pinStates q := by
  rw [updateSimulation_pinStates_outside s₁ (by rw [hw]; exact hex)
    (by rw [hw]; exact hpins) q hq, hp]

theorem autoWireComponent_pinStates (s : AppState) (c : Component) :
    (autoWireComponent s c).pinStates = s.pinStates := by
  rcases autoWireComponent_cases s c with h | ⟨_, _, _, _, _, _, h⟩
  · rw [h]
  · rw [h]; rfl

theorem autoWireAll_pinStates (l : List Component) :
    ∀ st : AppState, (autoWireAll st l).pinStates = st.pinStates := by
  induction l with
  | nil => intro st; rfl
  | cons c l ih =>
    intro st
    rw [autoWireAll_cons]
    by_cases hc : c.type ≠ CompType.arduino
    · rw [if_pos hc, ih, autoWireComponent_pinStates]
    · rw [if_neg hc, ih]

theorem addComponent_pinStates (s : AppState) (ty : CompType) (x y : Int) :
    (addComponent s ty x y).pinStates = s.pinStates := by
  unfold addComponent
  split
  · rfl
  · split
    · rfl
    · show (if ty ≠ CompType.arduino then _ else _ : AppState).pinStates = _
      split
      · rw [autoWireComponent_pinStates]; rfl
      · rw [autoWireAll_pinStates]; rfl

/-- No signal is ever recorded for a pin the controller does not have. -/
theorem ReachableByPage.pinStates_outside {s : AppState} (h : ReachableByPage s) :
    ∀ q, q ∉ ARDUINO_PINS → s.pinStates q = none := by
  induction h with
  | init => intro q _; rfl
  | @step s e he hs ih =>
    have hex := hs.reachable.graphInv.term_excl
    have hpins := hs.pins_mem
    intro q hq
    cases e with
    | paletteDragstart => exact ih q hq
    | drop ty x y =>
      show (onDrop s ty x y).pinStates q = none
      have hadd : (addComponent s ty x y).pinStates q = none := by
        rw [addComponent_pinStates]; exact ih q hq
      unfold onDrop
      split
      · exact ih q hq
      · split
        · exact hadd
        · exact hadd
    | mousedown target ox oy =>
      have h1 : (onDragStart (onPress s target) target ox oy).pinStates
          = (onPress s target).pinStates := by
        unfold onDragStart
        split
        · rfl
        · split
          · split <;> rfl
          · rfl
      show (onDragStart (onPress s target) target ox oy).pinStates q = none
      rw [h1]
      unfold onPress
      split
      · exact ih q hq
      · split
        · split
          · split
            · rw [updateSimulation_pinStates_outside (pressButton s _) hex hpins q hq]
              exact ih q hq
            · exact ih q hq
          · exact ih q hq
        · exact ih q hq
    | mousemove px py w hh =>
      show (onMousemove s px py w hh).pinStates q = none
      unfold onMousemove
      split <;> exact ih q hq
    | mouseup =>
      show (onRelease s).pinStates q = none
      unfold onRelease
      split
      · exact ih q hq
      · rw [updateSimulation_pinStates_outside (releaseButtons s) hex hpins q hq]
        exact ih q hq
    | pinMouseup pin =>
      show (onPinMouseup s pin).pinStates q = none
      unfold onPinMouseup
      split <;> exact ih q hq
    | terminalClick compId termName =>
      show (onTerminalClick s compId termName).pinStates q = none
      unfold onTerminalClick
      split
      · exact ih q hq
      · split
        · exact ih q hq
        · split
          · exact ih q hq
          · unfold startWiring
            split <;> exact ih q hq
    | keydown key =>
      show (onKeydown s key).pinStates q = none
      unfold onKeydown
      split <;> exact ih q hq
    | startClick =>
      show (onStart s).pinStates q = none
      show (updateSimulation _).pinStates q = none
      refine Eq.trans (updateSimulation_pinStates_outside_of_eq s _ ?_ ?_ hex hpins q hq)
        (ih q hq) <;> rfl
    | stopClick => exact ih q hq

/-- When a tick leaves the pins outside the controller alone, its result is the
state it started from with another memory. -/
theorem updateSimulation_eq_withMemory (s : AppState) (hrun : s.isSimulationRunning = true)
    (hout : ∀ q, q ∉ ARDUINO_PINS → (updateSimulation s).pinStates q = s.pinStates q) :
    ∃ (ps : Nat → Option Nat) (lit : Component → Bool),
      updateSimulation s = withMemory s ps lit := by
  rw [updateSimulation_of_running s hrun] at hout ⊢
  generalize driveLeds s (readButtons s (resetPins s.pinStates)).1
    (readButtons s (resetPins s.pinStates)).2 = D at hout ⊢
  refine ⟨D, fun c =>
    match s.wires.find? (fun w => w.compId == c.id && w.terminal == Terminal.anode) with
    | some wire => decide (D wire.pin = some 1)
    | none => false, ?_⟩
  have hP : (fun q => if q ∈ ARDUINO_PINS then D q else s.pinStates q) = D := by
    funext q
    by_cases hq : q ∈ ARDUINO_PINS
    · rw [if_pos hq]
    · rw [if_neg hq]
      exact (hout q hq).symm
  have hC : showLeds s D = s.components.map (fun c =>
      if c.type = CompType.led then
        { c with bulbOn :=
            match s.wires.find? (fun w => w.compId == c.id && w.terminal == Terminal.anode) with
            | some wire => decide (D wire.pin = some 1)
            | none => false }
      else c) := by
    unfold showLeds
    apply List.map_congr_left
    intro c _
    by_cases h : c.type = CompType.led
    · simp only [h, beq_self_eq_true, if_true]
      cases s.wires.find? (fun w => w.compId == c.id && w.terminal == Terminal.anode) <;> rfl
    · have hb : (c.type == CompType.led) = false := by simpa using h
      simp only [h, hb, if_false]
      rfl
  unfold withMemory
  rw [hP, hC]

/-- C17, pin signals are recomputed from scratch: in every state reached
through the listeners by events the page can deliver, with the simulation
running, after `updateSimulation` every pin of 2 to 13 has signal 0 or 1 and no
other pin has a signal; a pin has signal 1 exactly when it is the `t1` pin of a
pressed Button, or the anode pin of an LED while some pressed Button has a `t1`
wire; the result is the same whatever the signals of the controller pins and
the bulbs of the LEDs were before the tick; and a second tick changes nothing. -/
theorem signals_recomputed_from_scratch (s : AppState) (h : ReachableByPage s)
    (hrun : s.isSimulationRunning = true) :
    (∀ q ∈ ARDUINO_PINS,
      (updateSimulation s).pinStates q = some 0 ∨ (updateSimulation s).pinStates q = some 1) ∧
    (∀ q, q ∉ ARDUINO_PINS → (updateSimulation s).pinStates q = none) ∧
    (∀ q, (updateSimulation s).pinStates q = some 1 ↔
      pressedButtonPin s q ∨ (ledAnodePin s q ∧ pressedButtonWired s)) ∧
    (∀ (ps : Nat → Option Nat) (lit : Component → Bool),
      updateSimulation (withMemory s ps lit) = updateSimulation s) ∧
    updateSimulation (updateSimulation s) = updateSimulation s := by
  have hex := h.reachable.graphInv.term_excl
  have hpins := h.pins_mem
  have hnone := h.pinStates_outside
  have hform := updateSimulation_pinStates_apply s hrun hex
  have hout : ∀ q, q ∉ ARDUINO_PINS → (updateSimulation s).pinStates q = s.pinStates q :=
    updateSimulation_pinStates_outside s hex hpins
  refine ⟨?_, ?_, ?_, updateSimulation_withMemory s hrun, ?_⟩
  · intro q hq
    rw [hform q]
    by_cases hl : ledAnodePin s q
    · rw [if_pos hl]
      by_cases hp : pressedButtonWired s
      · rw [if_pos hp]; exact Or.inr rfl
      · rw [if_neg hp]; exact Or.inl rfl
    · rw [if_neg hl]
      by_cases hb : pressedButtonPin s q
      · rw [if_pos hb]; exact Or.inr rfl
      · rw [if_neg hb, if_pos hq]; exact Or.inl rfl
  · intro q hq
    rw [hout q hq]
    exact hnone q hq
  · intro q
    rw [hform q]
    by_cases hl : ledAnodePin s q
    · rw [if_pos hl]
      by_cases hp : pressedButtonWired s
      · rw [if_pos hp]
        exact ⟨fun _ => Or.inr ⟨hl, hp⟩, fun _ => rfl⟩
      · rw [if_neg hp]
        constructor
        · intro h01; cases h01
        · rintro (hb | ⟨_, hp'⟩)
          · exact absurd (pressedButtonWired_of_pin hb) hp
          · exact absurd hp' hp
    · rw [if_neg hl]
      by_cases hb : pressedButtonPin s q
      · rw [if_pos hb]
        exact ⟨fun _ => Or.inl hb, fun _ => rfl⟩
      · rw [if_neg hb]
        constructor
        · intro hval
          exfalso
          by_cases hq : q ∈ ARDUINO_PINS
          · rw [if_pos hq] at hval; cases hval
          · rw [if_neg hq, hnone q hq] at hval; cases hval
        · rintro (hb' | ⟨hl', _⟩)
          · exact absurd hb' hb
          · exact absurd hl' hl
  · obtain ⟨ps, lit, heq⟩ := updateSimulation_eq_withMemory s hrun hout
    calc updateSimulation (updateSimulation s)
        = updateSimulation (withMemory s ps lit) := by rw [← heq]
      _ = updateSimulation s := updateSimulation_withMemory s hrun ps lit

/-- C17 on a session (Button on pin 2 held down, LED on pin 10): one more tick
leaves signal 1 on pin 10, the LED's anode pin, and on pin 2, the Button's
pin, signal 0 on pin 5, and the state as it was after the first tick. -/
theorem signals_recomputed_from_scratch_witness :
    (run initState pressedSession).isSimulationRunning = true ∧
    (updateSimulation (run initState pressedSession)).pinStates 10 = some 1 ∧
    (updateSimulation (run initState pressedSession)).pinStates 2 = some 1 ∧
    (updateSimulation (run initState pressedSession)).pinStates 5 = some 0 ∧
    (updateSimulation (run initState pressedSession)).pinStates 14 = none ∧
    updateSimulation (updateSimulation (run initState pressedSession))
      = updateSimulation (run initState pressedSession) :=
  ⟨by decide,
   ((signals_recomputed_from_scratch (run initState pressedSession)
      (reachableByPage_run pressedSession (by decide) _ ReachableByPage.init)
      (by decide)).2.2.1 10).mpr (Or.inr ⟨by decide, by decide⟩),
   by decide, by decide, by decide,
   (signals_recomputed_from_scratch (run initState pressedSession)
      (reachableByPage_run pressedSession (by decide) _ ReachableByPage.init)
      (by decide)).2.2.2.2⟩

/-! ### Declarations and setup (C11) -/

theorem declSection_eq (leds btns : List Nat) :
    declSection leds btns = ledDeclarations leds ++ buttonDeclarations btns := rfl

theorem setupSection_eq (leds btns : List Nat) :
    setupSection leds btns = ledSetup leds ++ buttonSetup btns := rfl

theorem digitChar_isDigit : ∀ m, m < 10 → (Nat.digitChar m).isDigit = true := by
  decide

theorem toDigitsCore_isDigit (fuel : Nat) :
    ∀ (n : Nat) (ds : List Char), (∀ c ∈ ds, c.isDigit = true) →
      ∀ c ∈ Nat.toDigitsCore 10 fuel n ds, c.isDigit = true := by
  induction fuel with
  | zero => intro n ds h; exact h
  | succ fuel ih =>
    intro n ds h
    have hd : ∀ c ∈ Nat.digitChar (n % 10) :: ds, c.isDigit = true := by
      intro c hc
      rcases List.mem_cons.mp hc with rfl | hc
      · exact digitChar_isDigit _ (Nat.mod_lt _ (by decide))
      · exact h c hc
    unfold Nat.toDigitsCore
    simp only
    split
    · exact hd
    · exact ih _ _ hd

theorem toString_nat_isDigit (n : Nat) : ∀ c ∈ (toString n).data, c.isDigit = true := by
  show ∀ c ∈ (Nat.repr n).data, c.isDigit = true
  unfold Nat.repr Nat.toDigits
  exact toDigitsCore_isDigit _ _ _ (fun c hc => absurd hc (List.not_mem_nil c))

theorem stripPinText_append (a b : String) :
    stripPinText (a ++ b) = stripPinText a ++ stripPinText b := by
  unfold stripPinText
  rw [String.data_append, List.filter_append]

theorem stripPinText_eq_nil {t : String} (h : ∀ c ∈ t.data, isPinText c = true) :
    stripPinText t = [] := by
  unfold stripPinText
  rw [List.filter_eq_nil_iff]
  intro c hc
  simp [h c hc]

theorem stripPinText_toString (n : Nat) : stripPinText (toString n) = [] := by
  apply stripPinText_eq_nil
  intro c hc
  unfold isPinText
  rw [toString_nat_isDigit n c hc]
  rfl

theorem stripPinText_intercalate_go (l : List String) :
    ∀ acc : String, stripPinText acc = [] → (∀ a ∈ l, stripPinText a = []) →
      stripPinText (String.intercalate.go acc ", " l) = [] := by
  induction l with
  | nil => intro acc h _; exact h
  | cons a l ih =>
    intro acc h hl
    unfold String.intercalate.go
    apply ih
    · rw [stripPinText_append, stripPinText_append, h, hl a (List.mem_cons_self _ _)]
      rfl
    · exact fun b hb => hl b (List.mem_cons_of_mem _ hb)

theorem stripPinText_joinPins (pins : List Nat) : stripPinText (joinPins pins) = [] := by
  unfold joinPins
  cases pins with
  | nil => rfl
  | cons p pins =>
    show stripPinText (String.intercalate.go (toString p) ", " (pins.map toString)) = []
    apply stripPinText_intercalate_go
    · exact stripPinText_toString p
    · intro a ha
      obtain ⟨n, _, rfl⟩ := List.mem_map.mp ha
      exact stripPinText_toString n

/-- A text made of no pin-number characters that occurs in `t` still occurs once
the pin-number characters of `t` are dropped. -/
theorem occursIn_strip {sub t : String} (hsub : stripPinText sub = sub.data)
    (h : occursIn sub t) : sub.data <:+: stripPinText t := by
  obtain ⟨p, q, hpq⟩ := h
  refine ⟨p.filter (fun c => !isPinText c), q.filter (fun c => !isPinText c), ?_⟩
  unfold stripPinText at hsub ⊢
  rw [← hpq, List.filter_append, List.filter_append, hsub]

theorem occursIn_self (x : String) : occursIn x x :=
  ⟨[], [], by simp⟩

theorem occursIn_append_left {x t : String} (a : String) (h : occursIn x t) :
    occursIn x (a ++ t) := by
  obtain ⟨p, q, hpq⟩ := h
  refine ⟨a.data ++ p, q, ?_⟩
  rw [String.data_append, ← hpq]
  simp only [List.append_assoc]

theorem occursIn_append_right {x t : String} (b : String) (h : occursIn x t) :
    occursIn x (t ++ b) := by
  obtain ⟨p, q, hpq⟩ := h
  refine ⟨p, q ++ b.data, ?_⟩
  rw [String.data_append, ← hpq]
  simp only [List.append_assoc]

set_option maxRecDepth 1000000

theorem generateCode_parts (components : List Component) (wires : List Wire) :
    generateCode components wires =
      "// Generated Arduino Code\n\n" ++
      (ledDeclarations (leds components wires) ++ buttonDeclarations (btns components wires)) ++
      "\nvoid setup() \x7b\n" ++
      (ledSetup (leds components wires) ++ buttonSetup (btns components wires)) ++
      "\x7d\n\nvoid loop() \x7b\n" ++
      loopSection (leds components wires) (btns components wires) ++ "\x7d\n" := rfl

theorem length_cases (l : List Nat) :
    l.length = 0 ∨ (∃ p, l = [p]) ∨ 2 ≤ l.length := by
  rcases l with _ | ⟨p, _ | ⟨q, rest⟩⟩
  · exact Or.inl rfl
  · exact Or.inr (Or.inl ⟨p, rfl⟩)
  · exact Or.inr (Or.inr (by simp))

theorem ledDeclarations_zero {Ls : List Nat} (h : Ls.length = 0) : ledDeclarations Ls = "" := by
  unfold ledDeclarations
  rw [if_neg (by omega), if_neg (by omega)]

theorem ledDeclarations_many {Ls : List Nat} (h : 2 ≤ Ls.length) :
    ledDeclarations Ls =
      "int ledPins[] = \x7b " ++ joinPins Ls ++ " \x7d;\n" ++
      "int ledCount = " ++ toString Ls.length ++ ";\n" := by
  unfold ledDeclarations
  rw [if_neg (by omega), if_pos (by omega)]

theorem ledSetup_zero {Ls : List Nat} (h : Ls.length = 0) : ledSetup Ls = "" := by
  unfold ledSetup
  rw [if_neg (by omega), if_neg (by omega)]

theorem ledSetup_many {Ls : List Nat} (h : 2 ≤ Ls.length) :
    ledSetup Ls =
      "  for (int i = 0; i < ledCount; i++) \x7b\n    pinMode(ledPins[i], OUTPUT);\n  \x7d\n" := by
  unfold ledSetup
  rw [if_neg (by omega), if_pos (by omega)]

theorem buttonDeclarations_zero {Bs : List Nat} (h : Bs.length = 0) :
    buttonDeclarations Bs = "" := by
  unfold buttonDeclarations
  rw [if_neg (by omega), if_neg (by omega)]

theorem buttonDeclarations_many {Bs : List Nat} (h : 2 ≤ Bs.length) :
    buttonDeclarations Bs =
      "int buttonPins[] = \x7b " ++ joinPins Bs ++ " \x7d;\n" ++
      "int buttonCount = " ++ toString Bs.length ++ ";\n" := by
  unfold buttonDeclarations
  rw [if_neg (by omega), if_pos (by omega)]

theorem buttonSetup_zero {Bs : List Nat} (h : Bs.length = 0) : buttonSetup Bs = "" := by
  unfold buttonSetup
  rw [if_neg (by omega), if_neg (by omega)]

theorem buttonSetup_many {Bs : List Nat} (h : 2 ≤ Bs.length) :
    buttonSetup Bs =
      "  for (int i = 0; i < buttonCount; i++) \x7b\n    pinMode(buttonPins[i], INPUT);\n  \x7d\n" := by
  unfold buttonSetup
  rw [if_neg (by omega), if_pos (by omega)]

theorem loopSection_no_buttons (Ls : List Nat) {Bs : List Nat} (h : Bs.length = 0) :
    loopSection Ls Bs = "  // No input buttons designated.\n" := by
  unfold loopSection
  rw [if_pos h]

theorem loopSection_no_leds_one {Ls : List Nat} (h : Ls.length = 0) (p : Nat) :
    loopSection Ls [p] =
      "  int state = digitalRead(buttonPin);\n" ++ "  // No output LEDs to drive.\n" := by
  unfold loopSection
  rw [if_neg (by simp), if_pos (by simp), if_pos h]

theorem loopSection_no_leds_many {Ls Bs : List Nat} (h : Ls.length = 0) (hB : 2 ≤ Bs.length) :
    loopSection Ls Bs =
      "  int state = 0;\n" ++
      "  for (int i = 0; i < buttonCount; i++) \x7b\n    if(digitalRead(buttonPins[i]) == HIGH) state = HIGH;\n  \x7d\n" ++
      "  // No output LEDs to drive.\n" := by
  unfold loopSection
  rw [if_neg (by omega), if_neg (by omega), if_pos h]

/-- With no LED pin the text has neither `ledPin` nor `ledCount`, whatever the
Button pins are. -/
theorem no_led_names {Ls : List Nat} (hL : Ls.length = 0) (Bs : List Nat) :
    ¬occursIn "ledPin"
      ("// Generated Arduino Code\n\n" ++
        (ledDeclarations Ls ++ buttonDeclarations Bs) ++ "\nvoid setup() \x7b\n" ++
        (ledSetup Ls ++ buttonSetup Bs) ++ "\x7d\n\nvoid loop() \x7b\n" ++
        loopSection Ls Bs ++ "\x7d\n") ∧
    ¬occursIn "ledCount"
      ("// Generated Arduino Code\n\n" ++
        (ledDeclarations Ls ++ buttonDeclarations Bs) ++ "\nvoid setup() \x7b\n" ++
        (ledSetup Ls ++ buttonSetup Bs) ++ "\x7d\n\nvoid loop() \x7b\n" ++
        loopSection Ls Bs ++ "\x7d\n") := by
  have key : ¬("ledPin".data <:+: stripPinText
      ("// Generated Arduino Code\n\n" ++
        (ledDeclarations Ls ++ buttonDeclarations Bs) ++ "\nvoid setup() \x7b\n" ++
        (ledSetup Ls ++ buttonSetup Bs) ++ "\x7d\n\nvoid loop() \x7b\n" ++
        loopSection Ls Bs ++ "\x7d\n")) ∧
      ¬("ledCount".data <:+: stripPinText
      ("// Generated Arduino Code\n\n" ++
        (ledDeclarations Ls ++ buttonDeclarations Bs) ++ "\nvoid setup() \x7b\n" ++
        (ledSetup Ls ++ buttonSetup Bs) ++ "\x7d\n\nvoid loop() \x7b\n" ++
        loopSection Ls Bs ++ "\x7d\n")) := by
    rw [ledDeclarations_zero hL, ledSetup_zero hL]
    rcases length_cases Bs with hB | ⟨p, rfl⟩ | hB
    · rw [buttonDeclarations_zero hB, buttonSetup_zero hB, loopSection_no_buttons Ls hB]
      decide
    · rw [loopSection_no_leds_one hL p,
        show buttonDeclarations [p] = "int buttonPin = " ++ toString p ++ ";\n" from rfl,
        show buttonSetup [p] = "  pinMode(buttonPin, INPUT);\n" from rfl]
      simp only [stripPinText_append, stripPinText_toString]
      decide
    · rw [buttonDeclarations_many hB, buttonSetup_many hB, loopSection_no_leds_many hL hB]
      simp only [stripPinText_append, stripPinText_toString, stripPinText_joinPins]
      decide
  exact ⟨fun h => key.1 (occursIn_strip (by decide) h),
    fun h => key.2 (occursIn_strip (by decide) h)⟩

/-- With no Button pin the text has neither `buttonPin` nor `buttonCount`,
whatever the LED pins are. -/
theorem no_button_names (Ls : List Nat) {Bs : List Nat} (hB : Bs.length = 0) :
    ¬occursIn "buttonPin"
      ("// Generated Arduino Code\n\n" ++
        (ledDeclarations Ls ++ buttonDeclarations Bs) ++ "\nvoid setup() \x7b\n" ++
        (ledSetup Ls ++ buttonSetup Bs) ++ "\x7d\n\nvoid loop() \x7b\n" ++
        loopSection Ls Bs ++ "\x7d\n") ∧
    ¬occursIn "buttonCount"
      ("// Generated Arduino Code\n\n" ++
        (ledDeclarations Ls ++ buttonDeclarations Bs) ++ "\nvoid setup() \x7b\n" ++
        (ledSetup Ls ++ buttonSetup Bs) ++ "\x7d\n\nvoid loop() \x7b\n" ++
        loopSection Ls Bs ++ "\x7d\n") := by
  have key : ¬("buttonPin".data <:+: stripPinText
      ("// Generated Arduino Code\n\n" ++
        (ledDeclarations Ls ++ buttonDeclarations Bs) ++ "\nvoid setup() \x7b\n" ++
        (ledSetup Ls ++ buttonSetup Bs) ++ "\x7d\n\nvoid loop() \x7b\n" ++
        loopSection Ls Bs ++ "\x7d\n")) ∧
      ¬("buttonCount".data <:+: stripPinText
      ("// Generated Arduino Code\n\n" ++
        (ledDeclarations Ls ++ buttonDeclarations Bs) ++ "\nvoid setup() \x7b\n" ++
        (ledSetup Ls ++ buttonSetup Bs) ++ "\x7d\n\nvoid loop() \x7b\n" ++
        loopSection Ls Bs ++ "\x7d\n")) := by
    rw [buttonDeclarations_zero hB, buttonSetup_zero hB, loopSection_no_buttons Ls hB]
    rcases length_cases Ls with hL | ⟨p, rfl⟩ | hL
    · rw [ledDeclarations_zero hL, ledSetup_zero hL]
      decide
    · rw [show ledDeclarations [p] = "int ledPin = " ++ toString p ++ ";\n" from rfl,
        show ledSetup [p] = "  pinMode(ledPin, OUTPUT);\n" from rfl]
      simp only [stripPinText_append, stripPinText_toString]
      decide
    · rw [ledDeclarations_many hL, ledSetup_many hL]
      simp only [stripPinText_append, stripPinText_toString, stripPinText_joinPins]
      decide
  exact ⟨fun h => key.1 (occursIn_strip (by decide) h),
    fun h => key.2 (occursIn_strip (by decide) h)⟩

theorem occursIn_trans {x y t : String} (h₁ : occursIn x y) (h₂ : occursIn y t) :
    occursIn x t := by
  obtain ⟨p, q, hpq⟩ := h₁
  obtain ⟨p', q', hpq'⟩ := h₂
  refine ⟨p' ++ p, q ++ q', ?_⟩
  rw [← hpq', ← hpq]
  simp only [List.append_assoc]

/-- The four parts chosen by the pin counts occur in the generated text. -/
theorem parts_occur (components : List Component) (wires : List Wire) :
    occursIn (ledDeclarations (leds components wires)) (generateCode components wires) ∧
    occursIn (buttonDeclarations (btns components wires)) (generateCode components wires) ∧
    occursIn (ledSetup (leds components wires)) (generateCode components wires) ∧
    occursIn (buttonSetup (btns components wires)) (generateCode components wires) := by
  rw [generateCode_parts]
  refine ⟨?_, ?_, ?_, ?_⟩
  · exact occursIn_append_right _ (occursIn_append_right _ (occursIn_append_right _
      (occursIn_append_right _ (occursIn_append_right _ (occursIn_append_left _
        (occursIn_append_right _ (occursIn_self _)))))))
  · exact occursIn_append_right _ (occursIn_append_right _ (occursIn_append_right _
      (occursIn_append_right _ (occursIn_append_right _ (occursIn_append_left _
        (occursIn_append_left _ (occursIn_self _)))))))
  · exact occursIn_append_right _ (occursIn_append_right _ (occursIn_append_right _
      (occursIn_append_left _ (occursIn_append_right _ (occursIn_self _)))))
  · exact occursIn_append_right _ (occursIn_append_right _ (occursIn_append_right _
      (occursIn_append_left _ (occursIn_append_left _ (occursIn_self _)))))

/-- The two lines of a declaration of several pins occur in it. -/
theorem two_lines_occur (a j b c n d : String) :
    occursIn (a ++ j ++ b) (a ++ j ++ b ++ c ++ n ++ d) ∧
    occursIn (c ++ n ++ d) (a ++ j ++ b ++ c ++ n ++ d) := by
  constructor
  · exact occursIn_append_right _ (occursIn_append_right _ (occursIn_append_right _
      (occursIn_self _)))
  · have : a ++ j ++ b ++ c ++ n ++ d = (a ++ j ++ b) ++ (c ++ n ++ d) := by
      simp only [String.append_assoc]
    rw [this]
    exact occursIn_append_left _ (occursIn_self _)

/-- C11, declaration and setup arity: for every graph, with `leds` and `btns`
the ascending pins of the LED-owned and of the Button-owned wires, the generated
text is the header, the LED declarations, the Button declarations, the head of
`setup()`, the LED setup, the Button setup, and the loop; the LED parts are
chosen by the LED pins alone and the Button parts by the Button pins alone.
With no LED pin both LED parts are empty and the text has neither `ledPin` nor
`ledCount`; with one LED pin `p` they are `int ledPin = p;` and
`pinMode(ledPin, OUTPUT);`; with two or more they are the array line, the
`ledCount` line and the `pinMode` loop over `ledCount`; likewise for Buttons
with `buttonPin`, `buttonPins`, `buttonCount` and `INPUT`. -/
theorem declaration_and_setup_arity (components : List Component) (wires : List Wire) :
    ((leds components wires).Sorted (fun a b => a ≤ b) ∧
      (leds components wires).Perm ((wires.filter (fun w =>
        match components.find? (fun x => x.id == w.compId) with
        | some c => c.type == CompType.led
        | none => false)).map (fun w => w.pin)) ∧
      (btns components wires).Sorted (fun a b => a ≤ b) ∧
      (btns components wires).Perm ((wires.filter (fun w =>
        match components.find? (fun x => x.id == w.compId) with
        | some c => c.type == CompType.button
        | none => false)).map (fun w => w.pin))) ∧
    generateCode components wires =
      "// Generated Arduino Code\n\n" ++
      (ledDeclarations (leds components wires) ++ buttonDeclarations (btns components wires)) ++
      "\nvoid setup() \x7b\n" ++
      (ledSetup (leds components wires) ++ buttonSetup (btns components wires)) ++
      "\x7d\n\nvoid loop() \x7b\n" ++
      loopSection (leds components wires) (btns components wires) ++ "\x7d\n" ∧
    ((leds components wires).length = 0 →
      ledDeclarations (leds components wires) = "" ∧ ledSetup (leds components wires) = "" ∧
      ¬occursIn "ledPin" (generateCode components wires) ∧
      ¬occursIn "ledCount" (generateCode components wires)) ∧
    (∀ p : Nat, leds components wires = [p] →
      ledDeclarations (leds components wires) = "int ledPin = " ++ toString p ++ ";\n" ∧
      ledSetup (leds components wires) = "  pinMode(ledPin, OUTPUT);\n" ∧
      occursIn ("int ledPin = " ++ toString p ++ ";\n") (generateCode components wires) ∧
      occursIn "  pinMode(ledPin, OUTPUT);\n" (generateCode components wires)) ∧
    (2 ≤ (leds components wires).length →
      ledDeclarations (leds components wires) =
        "int ledPins[] = \x7b " ++ joinPins (leds components wires) ++ " \x7d;\n" ++
        "int ledCount = " ++ toString (leds components wires).length ++ ";\n" ∧
      ledSetup (leds components wires) =
        "  for (int i = 0; i < ledCount; i++) \x7b\n    pinMode(ledPins[i], OUTPUT);\n  \x7d\n" ∧
      occursIn ("int ledPins[] = \x7b " ++ joinPins (leds components wires) ++ " \x7d;\n")
        (generateCode components wires) ∧
      occursIn ("int ledCount = " ++ toString (leds components wires).length ++ ";\n")
        (generateCode components wires) ∧
      occursIn
        "  for (int i = 0; i < ledCount; i++) \x7b\n    pinMode(ledPins[i], OUTPUT);\n  \x7d\n"
        (generateCode components wires)) ∧
    ((btns components wires).length = 0 →
      buttonDeclarations (btns components wires) = "" ∧
      buttonSetup (btns components wires) = "" ∧
      ¬occursIn "buttonPin" (generateCode components wires) ∧
      ¬occursIn "buttonCount" (generateCode components wires)) ∧
    (∀ p : Nat, btns components wires = [p] →
      buttonDeclarations (btns components wires) = "int buttonPin = " ++ toString p ++ ";\n" ∧
      buttonSetup (btns components wires) = "  pinMode(buttonPin, INPUT);\n" ∧
      occursIn ("int buttonPin = " ++ toString p ++ ";\n") (generateCode components wires) ∧
      occursIn "  pinMode(buttonPin, INPUT);\n" (generateCode components wires)) ∧
    (2 ≤ (btns components wires).length →
      buttonDeclarations (btns components wires) =
        "int buttonPins[] = \x7b " ++ joinPins (btns components wires) ++ " \x7d;\n" ++
        "int buttonCount = " ++ toString (btns components wires).length ++ ";\n" ∧
      buttonSetup (btns components wires) =
        "  for (int i = 0; i < buttonCount; i++) \x7b\n    pinMode(buttonPins[i], INPUT);\n  \x7d\n" ∧
      occursIn ("int buttonPins[] = \x7b " ++ joinPins (btns components wires) ++ " \x7d;\n")
        (generateCode components wires) ∧
      occursIn ("int buttonCount = " ++ toString (btns components wires).length ++ ";\n")
        (generateCode components wires) ∧
      occursIn
        "  for (int i = 0; i < buttonCount; i++) \x7b\n    pinMode(buttonPins[i], INPUT);\n  \x7d\n"
        (generateCode components wires)) := by
  have hocc := parts_occur components wires
  refine ⟨⟨List.sorted_insertionSort _ _, List.perm_insertionSort _ _,
    List.sorted_insertionSort _ _, List.perm_insertionSort _ _⟩,
    generateCode_parts components wires, ?_, ?_, ?_, ?_, ?_, ?_⟩
  · intro hL
    have := no_led_names hL (btns components wires)
    rw [← generateCode_parts] at this
    exact ⟨ledDeclarations_zero hL, ledSetup_zero hL, this.1, this.2⟩
  · intro p hp
    have h1 : ledDeclarations (leds components wires)
        = "int ledPin = " ++ toString p ++ ";\n" := by rw [hp]; rfl
    have h2 : ledSetup (leds components wires) = "  pinMode(ledPin, OUTPUT);\n" := by
      rw [hp]; rfl
    exact ⟨h1, h2, h1 ▸ hocc.1, h2 ▸ hocc.2.2.1⟩
  · intro hL
    have h1 := ledDeclarations_many hL
    have h2 := ledSetup_many hL
    have hlines := two_lines_occur "int ledPins[] = \x7b " (joinPins (leds components wires))
      " \x7d;\n" "int ledCount = " (toString (leds components wires).length) ";\n"
    rw [← h1] at hlines
    exact ⟨h1, h2, occursIn_trans hlines.1 hocc.1, occursIn_trans hlines.2 hocc.1,
      h2 ▸ hocc.2.2.1⟩
  · intro hB
    have := no_button_names (leds components wires) hB
    rw [← generateCode_parts] at this
    exact ⟨buttonDeclarations_zero hB, buttonSetup_zero hB, this.1, this.2⟩
  · intro p hp
    have h1 : buttonDeclarations (btns components wires)
        = "int buttonPin = " ++ toString p ++ ";\n" := by rw [hp]; rfl
    have h2 : buttonSetup (btns components wires) = "  pinMode(buttonPin, INPUT);\n" := by
      rw [hp]; rfl
    exact ⟨h1, h2, h1 ▸ hocc.2.1, h2 ▸ hocc.2.2.2⟩
  · intro hB
    have h1 := buttonDeclarations_many hB
    have h2 := buttonSetup_many hB
    have hlines := two_lines_occur "int buttonPins[] = \x7b " (joinPins (btns components wires))
      " \x7d;\n" "int buttonCount = " (toString (btns components wires).length) ";\n"
    rw [← h1] at hlines
    exact ⟨h1, h2, occursIn_trans hlines.1 hocc.2.1, occursIn_trans hlines.2 hocc.2.1,
      h2 ▸ hocc.2.2.2⟩

/-- C11 on the sample graph (LED pins 2 and 10, Button pin 3): the array form
for the LEDs next to the single form for the Button. -/
theorem declaration_and_setup_arity_witness :
    leds sampleComponents sampleWires = [2, 10] ∧ btns sampleComponents sampleWires = [3] ∧
    "int ledPins[] = \x7b " ++ joinPins (leds sampleComponents sampleWires) ++ " \x7d;\n"
      = "int ledPins[] = \x7b 2, 10 \x7d;\n" ∧
    occursIn ("int ledPins[] = \x7b " ++ joinPins (leds sampleComponents sampleWires) ++ " \x7d;\n")
      (generateCode sampleComponents sampleWires) ∧
    occursIn ("int buttonPin = " ++ toString 3 ++ ";\n")
      (generateCode sampleComponents sampleWires) :=
  ⟨by decide, by decide, by decide,
   ((declaration_and_setup_arity sampleComponents sampleWires).2.2.2.2.1 (by decide)).2.2.1,
   ((declaration_and_setup_arity sampleComponents sampleWires).2.2.2.2.2.2.1 3
      (by decide)).2.2.1⟩

end ArduinoEditor
